import Mathlib

/-!
# ffplay playback core: queues, clocks and the synchroniser

A shallow embedding of the playback core of `fftools/ffplay.c` (ffmpeg 7.0.2):
`PacketQueue` (`packet_queue_*`), `FrameQueue` (`frame_queue_*`), `Clock`
(`get_clock`, `set_clock*`, `sync_clock_to_slave`) and the synchroniser
(`get_master_sync_type`, `compute_target_delay`, `vp_duration`,
`synchronize_audio`).

Modelling conventions.

* C `int` / `int64_t` fields are `Int`.  Signed overflow is undefined in C, so
  for signed arithmetic the model describes the executions in which no counter
  leaves its range.  The byte counter `PacketQueue.size` is different: it is
  updated in `size_t` arithmetic (the operand `sizeof(pkt1)` is a `size_t`) and
  the result is converted back to `int`, which is defined and wraps; the model
  wraps it too (`size_add`, `size_sub`), for a 32-bit `int` and a 64-bit
  `size_t`.
* The `AVFifo` behind `pkt_list` is the list of its entries, oldest first:
  `av_fifo_read` takes the head, `av_fifo_write` appends at the tail.
* A function is one critical section on an explicit state.  A call that would
  sleep in `SDL_CondWait` has no result in that state (`none`).
* Outcomes of library calls that the code branches on (allocation results, the
  return value of `av_fifo_write`) are explicit arguments.
* `sizeof(MyAVPacketList)` depends on the target ABI and is the argument `esz`.
* A C `double` is a rational number or NaN; infinities are left out.  The
  arithmetic operations on doubles, and the functions `get_clock`,
  `set_clock`, `get_master_clock`, `sync_clock_to_slave`, `vp_duration` and
  `synchronize_audio` built on them, take as their last argument the rounding
  `rnd` applied to the result of every operation: `double_round` is the
  rounding of IEEE 754 binary64 (to nearest, ties to even), which is what the
  compiled program does when every operation is evaluated in `double` (no
  extended precision, no fused multiply-add); with the argument left out the
  arithmetic is exact.  The functions without that
  argument are modelled in exact arithmetic.  The wall-clock time a function
  reads is an explicit argument.
-/

namespace FFplay

/-! ## Data model -/

/-- The fields of libavcodec's `AVPacket` that the program reads, with the
payload reduced to an identifier `data` (0 for a NULL `data` pointer).  `buf`
tells whether the `buf` pointer is non-NULL; `opaque_ref` is `none` for a NULL
pointer and otherwise holds the `pkt_pos` of the `FrameData` it refers to. -/
structure AVPacket where
  data : Nat
  pts : Int
  dts : Int
  size : Int
  stream_index : Int
  duration : Int
  pos : Int
  buf : Bool := true
  opaque_ref : Option Int := none
deriving DecidableEq, Repr

/-- `struct MyAVPacketList`: a queued packet and the serial it was stamped with. -/
structure MyAVPacketList where
  pkt : AVPacket
  serial : Int
deriving DecidableEq, Repr

/-- `struct PacketQueue` without its mutex and condition variable. -/
structure PacketQueue where
  pkt_list : List MyAVPacketList
  nb_packets : Int
  size : Int
  duration : Int
  abort_request : Int
  serial : Int
deriving DecidableEq, Repr

/-! ## PacketQueue operations -/

/-- The conversion of an `int` to `size_t`: reduction modulo `2 ^ 64`. -/
def size_t_of_int (x : Int) : Int :=
  x % 2 ^ 64

/-- The sum of two `size_t` values. -/
def size_t_add (a b : Int) : Int :=
  (a + b) % 2 ^ 64

/-- The difference of two `size_t` values. -/
def size_t_sub (a b : Int) : Int :=
  (a - b) % 2 ^ 64

/-- The conversion of a `size_t` to `int`.  For a value that does not fit the
result is implementation-defined; GCC, Clang and MSVC reduce modulo `2 ^ 32`
into the range of `int`, and so does the model. -/
def int_of_size_t (x : Int) : Int :=
  if x % 2 ^ 32 < 2 ^ 31 then x % 2 ^ 32 else x % 2 ^ 32 - 2 ^ 32

/-- The value of `q->size` after `q->size += pkt1.pkt->size + sizeof(pkt1);`:
`pkt_size` is converted to `size_t` and added to `sizeof(pkt1)` (`esz`),
`q->size` is converted to `size_t`, the sum is taken in `size_t` and converted
to `int`. -/
def size_add (size pkt_size esz : Int) : Int :=
  int_of_size_t (size_t_add (size_t_of_int size) (size_t_add (size_t_of_int pkt_size) esz))

/-- The value of `q->size` after `q->size -= pkt1.pkt->size + sizeof(pkt1);`. -/
def size_sub (size pkt_size esz : Int) : Int :=
  int_of_size_t (size_t_sub (size_t_of_int size) (size_t_add (size_t_of_int pkt_size) esz))

/-- `av_fifo_write(q->pkt_list, &pkt1, 1)`: `wr` is the value the library call
returns; a negative value is a failed write, which stores nothing. -/
def av_fifo_write (l : List MyAVPacketList) (e : MyAVPacketList) (wr : Int) :
    Int × List MyAVPacketList :=
  if wr < 0 then (wr, l) else (wr, l ++ [e])

/-- `packet_queue_put_private`: returns the C return value and the queue after
the call. -/
def packet_queue_put_private (esz : Int) (q : PacketQueue) (pkt : AVPacket) (wr : Int) :
    Int × PacketQueue :=
  if q.abort_request ≠ 0 then (-1, q)
  else
    let pkt1 : MyAVPacketList := { pkt := pkt, serial := q.serial }
    let w := av_fifo_write q.pkt_list pkt1 wr
    if w.1 < 0 then (w.1, { q with pkt_list := w.2 })
    else
      (0, { q with
              pkt_list := w.2
              nb_packets := q.nb_packets + 1
              size := size_add q.size pkt1.pkt.size esz
              duration := q.duration + pkt1.pkt.duration })

/-- `packet_queue_put`: `alloc_ok` tells whether `av_packet_alloc` succeeded.
The caller's packet reference is moved away in every case. -/
def packet_queue_put (esz : Int) (q : PacketQueue) (pkt : AVPacket)
    (alloc_ok : Bool) (wr : Int) : Int × PacketQueue :=
  if !alloc_ok then (-1, q)
  else packet_queue_put_private esz q pkt wr

/-- The queue right after `memset(q, 0, sizeof(PacketQueue))`. -/
def PacketQueue.zero : PacketQueue :=
  { pkt_list := [], nb_packets := 0, size := 0, duration := 0, abort_request := 0, serial := 0 }

/-- The value of `AVERROR(ENOMEM)`. -/
def AVERROR_ENOMEM : Int := -12

/-- `packet_queue_init`: the three flags tell whether `av_fifo_alloc2`,
`SDL_CreateMutex` and `SDL_CreateCond` succeeded. -/
def packet_queue_init (fifo_ok mutex_ok cond_ok : Bool) : Int × PacketQueue :=
  let q := PacketQueue.zero
  if !fifo_ok then (AVERROR_ENOMEM, q)
  else if !mutex_ok then (AVERROR_ENOMEM, q)
  else if !cond_ok then (AVERROR_ENOMEM, q)
  else (0, { q with abort_request := 1 })

/-- `packet_queue_flush`: the read loop drains the FIFO. -/
def packet_queue_flush (q : PacketQueue) : PacketQueue :=
  { q with
      pkt_list := []
      nb_packets := 0
      size := 0
      duration := 0
      serial := q.serial + 1 }

/-- `packet_queue_abort`. -/
def packet_queue_abort (q : PacketQueue) : PacketQueue :=
  { q with abort_request := 1 }

/-- `packet_queue_start`. -/
def packet_queue_start (q : PacketQueue) : PacketQueue :=
  { q with abort_request := 0, serial := q.serial + 1 }

/-- What a returned `packet_queue_get` leaves behind: the return value, the
queue, the caller's `*pkt` and the caller's `*serial` (`none` for a NULL
`serial` pointer). -/
structure GetResult where
  ret : Int
  q : PacketQueue
  pkt : AVPacket
  serial : Option Int
deriving DecidableEq, Repr

/-- `packet_queue_get` run against the queue state `q`.  `pkt` and `serial`
are the contents of the caller's out-parameters before the call.  The result
is `none` when the call goes to sleep in `SDL_CondWait` (empty queue, not
aborted, `block` set). -/
def packet_queue_get (esz : Int) (q : PacketQueue) (pkt : AVPacket) (block : Int)
    (serial : Option Int) : Option GetResult :=
  if q.abort_request ≠ 0 then
    some { ret := -1, q := q, pkt := pkt, serial := serial }
  else
    match q.pkt_list with
    | pkt1 :: rest =>
      some { ret := 1
             q := { q with
                      pkt_list := rest
                      nb_packets := q.nb_packets - 1
                      size := size_sub q.size pkt1.pkt.size esz
                      duration := q.duration - pkt1.pkt.duration }
             pkt := pkt1.pkt
             serial := serial.map (fun _ => pkt1.serial) }
    | [] =>
      if block = 0 then some { ret := 0, q := q, pkt := pkt, serial := serial }
      else none

/-! ## Sequences of PacketQueue calls -/

/-- One call on a PacketQueue, with the arguments and library outcomes the
call depends on. -/
inductive PQOp where
  | put (pkt : AVPacket) (alloc_ok : Bool) (wr : Int)
  | get (pkt : AVPacket) (block : Int) (serial : Option Int)
  | flush
  | abort
  | start
deriving DecidableEq, Repr

/-- Tells whether the call is `packet_queue_put` or `packet_queue_get`. -/
def PQOp.isPutGet : PQOp → Bool
  | .put _ _ _ => true
  | .get _ _ _ => true
  | _ => false

/-- The queue after one call; a `packet_queue_get` that goes to sleep leaves
the queue as it is. -/
def PQOp.step (esz : Int) (q : PacketQueue) : PQOp → PacketQueue
  | .put pkt alloc_ok wr => (packet_queue_put esz q pkt alloc_ok wr).2
  | .get pkt block serial =>
    match packet_queue_get esz q pkt block serial with
    | some r => r.q
    | none => q
  | .flush => packet_queue_flush q
  | .abort => packet_queue_abort q
  | .start => packet_queue_start q

/-- The value a call returns: `none` for the `void` functions and for a
`packet_queue_get` that goes to sleep. -/
def PQOp.ret (esz : Int) (q : PacketQueue) : PQOp → Option Int
  | .put pkt alloc_ok wr => some (packet_queue_put esz q pkt alloc_ok wr).1
  | .get pkt block serial => (packet_queue_get esz q pkt block serial).map (fun r => r.ret)
  | _ => none

/-- The packet a call stores in the queue: the argument of a
`packet_queue_put` that returns 0. -/
def PQOp.putPkt (esz : Int) (q : PacketQueue) : PQOp → Option AVPacket
  | .put pkt alloc_ok wr =>
    if (packet_queue_put esz q pkt alloc_ok wr).1 = 0 then some pkt else none
  | _ => none

/-- The packet a call hands back: what a `packet_queue_get` that returns a
positive value leaves in `*pkt`. -/
def PQOp.gotPkt (esz : Int) (q : PacketQueue) : PQOp → Option AVPacket
  | .get pkt block serial =>
    match packet_queue_get esz q pkt block serial with
    | some r => if 0 < r.ret then some r.pkt else none
    | none => none
  | _ => none

/-- The queue after a sequence of calls. -/
def run (esz : Int) : PacketQueue → List PQOp → PacketQueue
  | q, [] => q
  | q, op :: ops => run esz (op.step esz q) ops

/-- The packets stored by the successful puts of a sequence, in call order. -/
def putPkts (esz : Int) : PacketQueue → List PQOp → List AVPacket
  | _, [] => []
  | q, op :: ops => (op.putPkt esz q).toList ++ putPkts esz (op.step esz q) ops

/-- The packets handed back by the successful gets of a sequence, in call
order. -/
def gotPkts (esz : Int) : PacketQueue → List PQOp → List AVPacket
  | _, [] => []
  | q, op :: ops => (op.gotPkt esz q).toList ++ gotPkts esz (op.step esz q) ops

/-- The packets held by the queue, oldest first. -/
def PacketQueue.pkts (q : PacketQueue) : List AVPacket :=
  q.pkt_list.map (fun e => e.pkt)

/-- Every queued entry carries a serial that the queue has reached. -/
def Stamped (q : PacketQueue) : Prop :=
  ∀ e ∈ q.pkt_list, e.serial ≤ q.serial

/-- The counters agree with the queued entries: `nb_packets` is their number,
`size` the sum of packet size plus entry size converted to `int`, `duration`
the sum of the packet durations. -/
def Consistent (esz : Int) (q : PacketQueue) : Prop :=
  q.nb_packets = q.pkt_list.length
    ∧ q.size = int_of_size_t (q.pkt_list.map (fun e => e.pkt.size + esz)).sum
    ∧ q.duration = (q.pkt_list.map (fun e => e.pkt.duration)).sum

/-- A C `double`: `none` is NaN, `some x` the value `x`. -/
abbrev CDouble := Option ℚ

/-- The `AVFrame *frame` member of a `Frame`: a NULL pointer, an allocated
frame that references no data, or an allocated frame that references the data
buffer `buf`. -/
inductive AVFrameRef where
  | null
  | blank
  | holds (buf : Nat)
deriving DecidableEq, Repr

/-- `av_frame_unref`: drops the data an allocated frame references. -/
def av_frame_unref : AVFrameRef → AVFrameRef
  | .null => .null
  | .blank => .blank
  | .holds _ => .blank

/-- `struct Frame`.  The subtitle `sub` is `none` when it holds nothing. -/
structure Frame where
  frame : AVFrameRef
  sub : Option Nat
  serial : Int
  pts : CDouble
  duration : CDouble
  pos : Int
  width : Int
  height : Int
  format : Int
  sar : Int × Int
  uploaded : Int
  flip_v : Int
deriving DecidableEq

/-- A `Frame` right after `memset(.., 0, ..)`. -/
def Frame.zero : Frame :=
  { frame := .null, sub := none, serial := 0, pts := some 0, duration := some 0, pos := 0,
    width := 0, height := 0, format := 0, sar := (0, 0), uploaded := 0, flip_v := 0 }

/-- `VIDEO_PICTURE_QUEUE_SIZE`. -/
def VIDEO_PICTURE_QUEUE_SIZE : Int := 3

/-- `SUBPICTURE_QUEUE_SIZE`. -/
def SUBPICTURE_QUEUE_SIZE : Int := 16

/-- `SAMPLE_QUEUE_SIZE`. -/
def SAMPLE_QUEUE_SIZE : Int := 9

/-- `FRAME_QUEUE_SIZE`. -/
def FRAME_QUEUE_SIZE : Int :=
  max SAMPLE_QUEUE_SIZE (max VIDEO_PICTURE_QUEUE_SIZE SUBPICTURE_QUEUE_SIZE)

/-- `struct FrameQueue` without its mutex, condition variable and the `pktq`
pointer; the functions that read `*pktq` take the packet queue as an argument.
`queue` is the array of `FRAME_QUEUE_SIZE` slots. -/
structure FrameQueue where
  queue : List Frame
  rindex : Int
  windex : Int
  size : Int
  max_size : Int
  keep_last : Int
  rindex_shown : Int
deriving DecidableEq

/-- The frame stored at `queue[i]`; `none` outside the array, where the C
access is undefined. -/
def FrameQueue.slot (f : FrameQueue) (i : Int) : Option Frame :=
  if 0 ≤ i then f.queue[i.toNat]? else none

/-- Stores `fr` at `queue[i]`; nothing is stored outside the array. -/
def FrameQueue.setSlot (f : FrameQueue) (i : Int) (fr : Frame) : FrameQueue :=
  if 0 ≤ i then { f with queue := f.queue.set i.toNat fr } else f

/-! ## FrameQueue operations

A returned `Frame *` is the index of the slot it points to. -/

/-- `frame_queue_unref_item`. -/
def frame_queue_unref_item (vp : Frame) : Frame :=
  { vp with frame := av_frame_unref vp.frame, sub := none }

/-- The queue right after `memset(f, 0, sizeof(FrameQueue))`. -/
def FrameQueue.zero : FrameQueue :=
  { queue := List.replicate FRAME_QUEUE_SIZE.toNat Frame.zero
    rindex := 0, windex := 0, size := 0, max_size := 0, keep_last := 0, rindex_shown := 0 }

/-- The allocation loop of `frame_queue_init`: `n` iterations are left, `i` is
the loop index and `alloc_ok i` tells whether the `av_frame_alloc` of
iteration `i` succeeds. -/
def frame_queue_init_loop (alloc_ok : Nat → Bool) : Nat → Nat → FrameQueue → Int × FrameQueue
  | 0, _, f => (0, f)
  | n + 1, i, f =>
    if alloc_ok i then
      match f.queue[i]? with
      | some fr =>
        frame_queue_init_loop alloc_ok n (i + 1)
          { f with queue := f.queue.set i { fr with frame := .blank } }
      | none => frame_queue_init_loop alloc_ok n (i + 1) f
    else (AVERROR_ENOMEM, f)

/-- `frame_queue_init`: `mutex_ok`, `cond_ok` and `alloc_ok` are the outcomes
of `SDL_CreateMutex`, `SDL_CreateCond` and the `av_frame_alloc` calls. -/
def frame_queue_init (mutex_ok cond_ok : Bool) (alloc_ok : Nat → Bool)
    (max_size keep_last : Int) : Int × FrameQueue :=
  let f := FrameQueue.zero
  if !mutex_ok then (AVERROR_ENOMEM, f)
  else if !cond_ok then (AVERROR_ENOMEM, f)
  else
    let f1 := { f with
                  max_size := min max_size FRAME_QUEUE_SIZE
                  keep_last := if keep_last ≠ 0 then 1 else 0 }
    frame_queue_init_loop alloc_ok f1.max_size.toNat 0 f1

/-- `frame_queue_peek`: the slot at the read position past a shown frame. -/
def frame_queue_peek (f : FrameQueue) : Int :=
  (f.rindex + f.rindex_shown).tmod f.max_size

/-- `frame_queue_peek_next`. -/
def frame_queue_peek_next (f : FrameQueue) : Int :=
  (f.rindex + f.rindex_shown + 1).tmod f.max_size

/-- `frame_queue_peek_last`. -/
def frame_queue_peek_last (f : FrameQueue) : Int :=
  f.rindex

/-- `frame_queue_peek_writable` run against the state `f` with `*f->pktq` in
state `pktq`: `none` when the call sleeps in `SDL_CondWait`, `some none` when
it returns NULL, `some (some i)` when it returns `&f->queue[i]`. -/
def frame_queue_peek_writable (f : FrameQueue) (pktq : PacketQueue) : Option (Option Int) :=
  if f.size ≥ f.max_size ∧ pktq.abort_request = 0 then none
  else if pktq.abort_request ≠ 0 then some none
  else some (some f.windex)

/-- `frame_queue_peek_readable`, with the results of
`frame_queue_peek_writable`. -/
def frame_queue_peek_readable (f : FrameQueue) (pktq : PacketQueue) : Option (Option Int) :=
  if f.size - f.rindex_shown ≤ 0 ∧ pktq.abort_request = 0 then none
  else if pktq.abort_request ≠ 0 then some none
  else some (some ((f.rindex + f.rindex_shown).tmod f.max_size))

/-- `frame_queue_push`. -/
def frame_queue_push (f : FrameQueue) : FrameQueue :=
  let windex := f.windex + 1
  let windex := if windex = f.max_size then 0 else windex
  { f with windex := windex, size := f.size + 1 }

/-- `frame_queue_next`. -/
def frame_queue_next (f : FrameQueue) : FrameQueue :=
  if f.keep_last ≠ 0 ∧ f.rindex_shown = 0 then { f with rindex_shown := 1 }
  else
    let f1 :=
      match f.slot f.rindex with
      | some vp => f.setSlot f.rindex (frame_queue_unref_item vp)
      | none => f
    let rindex := f1.rindex + 1
    let rindex := if rindex = f1.max_size then 0 else rindex
    { f1 with rindex := rindex, size := f1.size - 1 }

/-- `frame_queue_nb_remaining`. -/
def frame_queue_nb_remaining (f : FrameQueue) : Int :=
  f.size - f.rindex_shown

/-! ## Sequences of FrameQueue calls -/

/-- A frame queue together with the producer's position in its protocol:
`granted` holds when the last `frame_queue_peek_writable` returned a slot and
that slot has not been pushed yet. -/
structure FQState where
  f : FrameQueue
  granted : Bool
deriving DecidableEq

/-- One step on a frame queue: the producer asks for a writable slot (with
`*f->pktq` in state `pktq`), fills the slot it was given, or pushes it; the
consumer advances. -/
inductive FQOp where
  | peek_writable (pktq : PacketQueue)
  | fill (fr : Frame)
  | push
  | next
deriving DecidableEq

/-- One guarded step: filling and `frame_queue_push` need a slot returned by
`frame_queue_peek_writable`, `frame_queue_next` needs
`frame_queue_nb_remaining > 0`.  The result is `none` when the guard fails. -/
def FQOp.step (s : FQState) : FQOp → Option FQState
  | .peek_writable pktq =>
    match frame_queue_peek_writable s.f pktq with
    | some (some _) => some { s with granted := true }
    | _ => some { s with granted := false }
  | .fill fr =>
    if s.granted then some { s with f := s.f.setSlot s.f.windex fr } else none
  | .push =>
    if s.granted then some { f := frame_queue_push s.f, granted := false } else none
  | .next =>
    if 0 < frame_queue_nb_remaining s.f then some { s with f := frame_queue_next s.f }
    else none

/-- A sequence of guarded steps; `none` when some guard fails. -/
def runFQ : FQState → List FQOp → Option FQState
  | s, [] => some s
  | s, op :: ops =>
    match op.step s with
    | some s1 => runFQ s1 ops
    | none => none

/-- The invariant of the guarded steps: the shown flag is between 0 and the
count, the count is at most the capacity, and a granted slot is a free one. -/
def FQInv (s : FQState) : Prop :=
  0 ≤ s.f.rindex_shown ∧ s.f.rindex_shown ≤ s.f.size ∧ s.f.size ≤ s.f.max_size
    ∧ (s.granted = true → s.f.size < s.f.max_size)

/-! ## Doubles

`CDouble` values are rationals or NaN.  An operation with a NaN operand gives
NaN and a comparison with a NaN operand is false, as in C.  Wall-clock times
(`av_gettime_relative() / 1000000.0`) are numbers, hence of type `ℚ`.  Sum,
difference and product round their exact result with the function given as
last argument, the identity when it is left out. -/

/-- The fraction `n / d` (`d > 0`) rounded to the nearest natural number, a
tie going to the even neighbour. -/
def round_half_even (n d : Nat) : Nat :=
  if 2 * (n % d) < d then n / d
  else if d < 2 * (n % d) then n / d + 1
  else if (n / d) % 2 = 0 then n / d else n / d + 1

/-- The largest `k` (searched upwards from the given one, at most `fuel`
steps) with `d * 2 ^ k ≤ n`. -/
def log2_up (n d : Nat) : Nat → Nat → Nat
  | 0, k => k
  | fuel + 1, k => if d * 2 ^ (k + 1) ≤ n then log2_up n d fuel (k + 1) else k

/-- The smallest `k` (searched upwards from the given one, at most `fuel`
steps) with `d ≤ n * 2 ^ k`. -/
def log2_down (n d : Nat) : Nat → Nat → Nat
  | 0, k => k
  | fuel + 1, k => if d ≤ n * 2 ^ k then k else log2_down n d fuel (k + 1)

/-- The binary exponent of the positive fraction `n / d`: the integer `k` with
`2 ^ k ≤ n / d < 2 ^ (k + 1)`, for fractions between `2 ^ (-1100)` and
`2 ^ 1100`. -/
def floor_log2 (n d : Nat) : Int :=
  if d ≤ n then (log2_up n d 1100 0 : Int) else -(log2_down n d 1100 1 : Int)

/-- The rounding of a real number to IEEE 754 binary64, to nearest with ties
to even: the result is `m * 2 ^ e` with `e` chosen so that the significand `m`
has 53 bits, and `e = -1074` in the subnormal range.  A number of magnitude
`2 ^ 1024` or more has no finite double and is outside the model. -/
def double_round (x : ℚ) : ℚ :=
  if x = 0 then 0
  else
    let n := x.num.natAbs
    let d := x.den
    let e : Int := max (floor_log2 n d - 52) (-1074)
    let v : ℚ :=
      if 0 ≤ e then (round_half_even n (d * 2 ^ e.toNat) : ℚ) * 2 ^ e.toNat
      else (round_half_even (n * 2 ^ (-e).toNat) d : ℚ) / 2 ^ (-e).toNat
    if x < 0 then -v else v

/-- The C test `isnan(x)`. -/
def isnan (x : CDouble) : Bool :=
  x.isNone

/-- The C sum `a + b` of doubles, rounded with `rnd`. -/
def dadd (a b : CDouble) (rnd : ℚ → ℚ := id) : CDouble :=
  match a, b with
  | some x, some y => some (rnd (x + y))
  | _, _ => none

/-- The C difference `a - b` of doubles, rounded with `rnd`. -/
def dsub (a b : CDouble) (rnd : ℚ → ℚ := id) : CDouble :=
  match a, b with
  | some x, some y => some (rnd (x - y))
  | _, _ => none

/-- The C product `a * b` of doubles, rounded with `rnd`. -/
def dmul (a b : CDouble) (rnd : ℚ → ℚ := id) : CDouble :=
  match a, b with
  | some x, some y => some (rnd (x * y))
  | _, _ => none

/-- The C negation `-a` of a double, which is exact. -/
def dneg : CDouble → CDouble
  | some x => some (-x)
  | none => none

/-- The C function `fabs`, which is exact. -/
def fabs : CDouble → CDouble
  | some x => some |x|
  | none => none

/-- The C comparison `a < b` of doubles. -/
def dlt : CDouble → CDouble → Bool
  | some x, some y => decide (x < y)
  | _, _ => false

/-- The C comparison `a <= b` of doubles. -/
def dle : CDouble → CDouble → Bool
  | some x, some y => decide (x ≤ y)
  | _, _ => false

/-- The C comparison `a > b` of doubles. -/
def dgt (a b : CDouble) : Bool :=
  dlt b a

/-- The C comparison `a >= b` of doubles. -/
def dge (a b : CDouble) : Bool :=
  dle b a

/-- The C cast `(int)x` of a double: truncation toward zero.  The cast of a NaN
is undefined in C; the model gives 0. -/
def double_to_int : CDouble → Int
  | some x => if 0 ≤ x then ⌊x⌋ else ⌈x⌉
  | none => 0

/-- The C conversion of an `int` to `double`, which is exact for a 32-bit
`int`. -/
def int_to_double (n : Int) : CDouble :=
  some (n : ℚ)

/-- The macro `FFMAX(a, b)` of libavutil, `((a) > (b) ? (a) : (b))`, on doubles. -/
def FFMAX (a b : CDouble) : CDouble :=
  if dgt a b then a else b

/-- The macro `FFMIN(a, b)` of libavutil, `((a) > (b) ? (b) : (a))`, on doubles. -/
def FFMIN (a b : CDouble) : CDouble :=
  if dgt a b then b else a

/-- The function `av_clip(a, amin, amax)` of libavutil on `int`. -/
def av_clip (a amin amax : Int) : Int :=
  if a < amin then amin
  else if a > amax then amax
  else a

/-! ## Clocks and the synchroniser: data model -/

/-- `AV_SYNC_THRESHOLD_MIN`, 0.04. -/
def AV_SYNC_THRESHOLD_MIN : CDouble := some (1 / 25)

/-- `AV_SYNC_THRESHOLD_MAX`, 0.1. -/
def AV_SYNC_THRESHOLD_MAX : CDouble := some (1 / 10)

/-- `AV_SYNC_FRAMEDUP_THRESHOLD`, 0.1. -/
def AV_SYNC_FRAMEDUP_THRESHOLD : CDouble := some (1 / 10)

/-- `AV_NOSYNC_THRESHOLD`, 10.0. -/
def AV_NOSYNC_THRESHOLD : CDouble := some 10

/-- `SAMPLE_CORRECTION_PERCENT_MAX`. -/
def SAMPLE_CORRECTION_PERCENT_MAX : Int := 10

/-- `AUDIO_DIFF_AVG_NB`. -/
def AUDIO_DIFF_AVG_NB : Int := 20

/-- `AV_SYNC_AUDIO_MASTER`, the first enumerator. -/
def AV_SYNC_AUDIO_MASTER : Int := 0

/-- `AV_SYNC_VIDEO_MASTER`. -/
def AV_SYNC_VIDEO_MASTER : Int := 1

/-- `AV_SYNC_EXTERNAL_CLOCK`. -/
def AV_SYNC_EXTERNAL_CLOCK : Int := 2

/-- `struct Clock` without the pointer `queue_serial`; the functions that read
`*c->queue_serial` take that value as an argument. -/
structure Clock where
  pts : CDouble
  pts_drift : CDouble
  last_updated : CDouble
  speed : CDouble
  serial : Int
  paused : Int
deriving DecidableEq

/-- The members of `struct VideoState` that the clock and synchroniser
functions read or write.  `video_st` and `audio_st` tell whether the stream
pointer is non-NULL; `audio_src_freq` is `audio_src.freq`.  `stream_open` binds
`vidclk` to `videoq.serial`, `audclk` to `audioq.serial` and `extclk` to its
own `serial`. -/
structure VideoState where
  audclk : Clock
  vidclk : Clock
  extclk : Clock
  av_sync_type : Int
  audio_diff_cum : CDouble
  audio_diff_avg_coef : CDouble
  audio_diff_threshold : CDouble
  audio_diff_avg_count : Int
  audio_st : Bool
  audioq : PacketQueue
  audio_src_freq : Int
  video_st : Bool
  videoq : PacketQueue
  max_frame_duration : CDouble
deriving DecidableEq

/-! ## Clock operations -/

/-- `get_clock`: `queue_serial` is the value of `*c->queue_serial` and `time`
the value of `av_gettime_relative() / 1000000.0` read by the call. -/
def get_clock (c : Clock) (queue_serial : Int) (time : ℚ) (rnd : ℚ → ℚ := id) : CDouble :=
  if queue_serial ≠ c.serial then none
  else if c.paused ≠ 0 then c.pts
  else
    dsub (dadd c.pts_drift (some time) rnd)
      (dmul (dsub (some time) c.last_updated rnd) (dsub (some 1) c.speed rnd) rnd) rnd

/-- `set_clock_at`. -/
def set_clock_at (c : Clock) (pts : CDouble) (serial : Int) (time : CDouble)
    (rnd : ℚ → ℚ := id) : Clock :=
  { c with
      pts := pts
      last_updated := time
      pts_drift := dsub pts time rnd
      serial := serial }

/-- `set_clock`: `time` is the wall-clock time the call reads. -/
def set_clock (c : Clock) (pts : CDouble) (serial : Int) (time : ℚ)
    (rnd : ℚ → ℚ := id) : Clock :=
  set_clock_at c pts serial (some time) rnd

/-- `set_clock_speed` in exact arithmetic: `t1` is the time read by the inner
`get_clock`, `t2` the time read by `set_clock`. -/
def set_clock_speed (c : Clock) (queue_serial : Int) (speed : CDouble) (t1 t2 : ℚ) : Clock :=
  { set_clock c (get_clock c queue_serial t1) c.serial t2 with speed := speed }

/-- `init_clock`, applied to the clock contents `c`; no arithmetic is done, the
drift of a NaN `pts` being NaN. -/
def init_clock (c : Clock) (time : ℚ) : Clock :=
  set_clock { c with speed := some 1, paused := 0 } none (-1) time

/-- `sync_clock_to_slave`: `qs` and `slave_qs` are the bound queue serials of
`c` and `slave`; `t1`, `t2`, `t3` are the times read by the two `get_clock`
calls and by `set_clock`. -/
def sync_clock_to_slave (c slave : Clock) (qs slave_qs : Int) (t1 t2 t3 : ℚ)
    (rnd : ℚ → ℚ := id) : Clock :=
  let clock := get_clock c qs t1 rnd
  let slave_clock := get_clock slave slave_qs t2 rnd
  if !isnan slave_clock
      && (isnan clock || dgt (fabs (dsub clock slave_clock rnd)) AV_NOSYNC_THRESHOLD) then
    set_clock c slave_clock slave.serial t3 rnd
  else c

/-- `get_master_sync_type`. -/
def get_master_sync_type (is : VideoState) : Int :=
  if is.av_sync_type = AV_SYNC_VIDEO_MASTER then
    if is.video_st then AV_SYNC_VIDEO_MASTER else AV_SYNC_AUDIO_MASTER
  else if is.av_sync_type = AV_SYNC_AUDIO_MASTER then
    if is.audio_st then AV_SYNC_AUDIO_MASTER else AV_SYNC_EXTERNAL_CLOCK
  else AV_SYNC_EXTERNAL_CLOCK

/-- `get_master_clock`. -/
def get_master_clock (is : VideoState) (time : ℚ) (rnd : ℚ → ℚ := id) : CDouble :=
  if get_master_sync_type is = AV_SYNC_VIDEO_MASTER then
    get_clock is.vidclk is.videoq.serial time rnd
  else if get_master_sync_type is = AV_SYNC_AUDIO_MASTER then
    get_clock is.audclk is.audioq.serial time rnd
  else get_clock is.extclk is.extclk.serial time rnd

/-! ## Synchroniser operations -/

/-- `compute_target_delay` in exact arithmetic: `t1` and `t2` are the times
read by `get_clock(&is->vidclk)` and by `get_master_clock(is)`. -/
def compute_target_delay (delay : CDouble) (is : VideoState) (t1 t2 : ℚ) : CDouble :=
  if get_master_sync_type is ≠ AV_SYNC_VIDEO_MASTER then
    let diff := dsub (get_clock is.vidclk is.videoq.serial t1) (get_master_clock is t2)
    let sync_threshold := FFMAX AV_SYNC_THRESHOLD_MIN (FFMIN AV_SYNC_THRESHOLD_MAX delay)
    if !isnan diff && dlt (fabs diff) is.max_frame_duration then
      if dle diff (dneg sync_threshold) then FFMAX (some 0) (dadd delay diff)
      else if dge diff sync_threshold && dgt delay AV_SYNC_FRAMEDUP_THRESHOLD then
        dadd delay diff
      else if dge diff sync_threshold then dmul (some 2) delay
      else delay
    else delay
  else delay

/-- `vp_duration`. -/
def vp_duration (is : VideoState) (vp nextvp : Frame) (rnd : ℚ → ℚ := id) : CDouble :=
  if vp.serial = nextvp.serial then
    let duration := dsub nextvp.pts vp.pts rnd
    if isnan duration || dle duration (some 0) || dgt duration is.max_frame_duration then
      vp.duration
    else duration
  else some 0

/-- The difference `get_clock(&is->audclk) - get_master_clock(is)` that
`synchronize_audio` computes. -/
def audio_master_diff (is : VideoState) (t1 t2 : ℚ) (rnd : ℚ → ℚ := id) : CDouble :=
  dsub (get_clock is.audclk is.audioq.serial t1 rnd) (get_master_clock is t2 rnd) rnd

/-- `synchronize_audio`: returns the wanted number of samples and the state
after the call. -/
def synchronize_audio (is : VideoState) (nb_samples : Int) (t1 t2 : ℚ)
    (rnd : ℚ → ℚ := id) : Int × VideoState :=
  if get_master_sync_type is ≠ AV_SYNC_AUDIO_MASTER then
    let diff := audio_master_diff is t1 t2 rnd
    if !isnan diff && dlt (fabs diff) AV_NOSYNC_THRESHOLD then
      let is1 := { is with
                     audio_diff_cum :=
                       dadd diff (dmul is.audio_diff_avg_coef is.audio_diff_cum rnd) rnd }
      if is1.audio_diff_avg_count < AUDIO_DIFF_AVG_NB then
        (nb_samples, { is1 with audio_diff_avg_count := is1.audio_diff_avg_count + 1 })
      else
        let avg_diff :=
          dmul is1.audio_diff_cum (dsub (some 1) is1.audio_diff_avg_coef rnd) rnd
        if dge (fabs avg_diff) is1.audio_diff_threshold then
          let wanted_nb_samples :=
            nb_samples + double_to_int (dmul diff (int_to_double is1.audio_src_freq) rnd)
          let min_nb_samples :=
            (nb_samples * (100 - SAMPLE_CORRECTION_PERCENT_MAX)).tdiv 100
          let max_nb_samples :=
            (nb_samples * (100 + SAMPLE_CORRECTION_PERCENT_MAX)).tdiv 100
          (av_clip wanted_nb_samples min_nb_samples max_nb_samples, is1)
        else (nb_samples, is1)
    else
      (nb_samples, { is with audio_diff_avg_count := 0, audio_diff_cum := some 0 })
  else (nb_samples, is)

/-! ## Sequences of `synchronize_audio` calls -/

/-- One call of `synchronize_audio`: `env` gives every member of the state
except the two the function itself maintains (`audio_diff_cum`,
`audio_diff_avg_count`), which are carried from call to call. -/
structure SyncCall where
  env : VideoState
  nb_samples : Int
  t1 : ℚ
  t2 : ℚ

/-- The state a call runs on: its environment with the carried averaging
members. -/
def SyncCall.state (c : SyncCall) (cum : CDouble) (count : Int) : VideoState :=
  { c.env with audio_diff_cum := cum, audio_diff_avg_count := count }

/-- The master selection in the words of the specification: video if video is
the configured mode and a video stream exists; otherwise audio if audio is the
configured mode and an audio stream exists; otherwise external. -/
def claimed_master_sync_type (is : VideoState) : Int :=
  if is.av_sync_type = AV_SYNC_VIDEO_MASTER ∧ is.video_st = true then AV_SYNC_VIDEO_MASTER
  else if is.av_sync_type = AV_SYNC_AUDIO_MASTER ∧ is.audio_st = true then AV_SYNC_AUDIO_MASTER
  else AV_SYNC_EXTERNAL_CLOCK

/-! ## Audio display index -/

/-- `compute_mod`, with the truncating `%` of C. -/
def compute_mod (a b : Int) : Int :=
  if a < 0 then a.tmod b + b else a.tmod b

/-! ## RTCP receiver report (ZLMediaKit, `RtcpContext::createRtcpRR`) -/

/-- The `fraction` byte that `RtcpContext::createRtcpRR` stores:
`lost_interval` is the value of `geLostInterval()` and `expected_interval` the
value of `getExpectedPacketsInterval()`, both `size_t` (64 bits).  In
`geLostInterval() << 8 / expected_interval` the division binds tighter than
the shift; the `uint8_t` conversion keeps the low 8 bits. -/
def createRtcpRR_fraction (lost_interval expected_interval : Nat) : Nat :=
  if expected_interval ≠ 0 then
    ((lost_interval <<< (8 / expected_interval)) % 2 ^ 64) % 2 ^ 8
  else 0

/-! ## Sequences of index-moving FrameQueue calls -/

/-- A call that moves the indices of a frame queue. -/
inductive FQCall where
  | push
  | next
deriving DecidableEq

/-- One guarded call: `frame_queue_next` runs only when
`frame_queue_nb_remaining > 0`; with `push_guard` set, `frame_queue_push` runs
only when `size < max_size`.  The result is `none` when a guard fails. -/
def FQCall.step (push_guard : Bool) (f : FrameQueue) : FQCall → Option FrameQueue
  | .push =>
    if push_guard = true ∧ ¬ f.size < f.max_size then none else some (frame_queue_push f)
  | .next =>
    if 0 < frame_queue_nb_remaining f then some (frame_queue_next f) else none

/-- A sequence of guarded calls; `none` when some guard fails. -/
def runCalls (push_guard : Bool) : FrameQueue → List FQCall → Option FrameQueue
  | f, [] => some f
  | f, c :: cs =>
    match c.step push_guard f with
    | some f1 => runCalls push_guard f1 cs
    | none => none

/-- The index invariant: both indices are inside `0 .. max_size - 1`, the count
is between the shown flag and the capacity, and `windex` is `rindex + size`
up to one wrap-around. -/
def FQIdx (f : FrameQueue) : Prop :=
  0 ≤ f.rindex ∧ f.rindex < f.max_size ∧ 0 ≤ f.windex ∧ f.windex < f.max_size
    ∧ 0 ≤ f.rindex_shown ∧ f.rindex_shown ≤ f.size ∧ f.size ≤ f.max_size
    ∧ (f.windex = f.rindex + f.size ∨ f.windex + f.max_size = f.rindex + f.size)

/-- The shown-flag invariant: the flag is 0 or 1 and at most the count. -/
def FQShown (f : FrameQueue) : Prop :=
  (f.rindex_shown = 0 ∨ f.rindex_shown = 1) ∧ f.rindex_shown ≤ f.size

/-! ## Video refresh -/

/-- The frame-timer update of `video_refresh`:
`is->frame_timer += delay; if (delay > 0 && time - is->frame_timer >
AV_SYNC_THRESHOLD_MAX) is->frame_timer = time;`. -/
def frame_timer_advance (frame_timer delay : CDouble) (time : ℚ) : CDouble :=
  let ft := dadd frame_timer delay
  if dgt delay (some 0) && dgt (dsub (some time) ft) AV_SYNC_THRESHOLD_MAX then some time
  else ft

/-- The value of `AVERROR(ENOSYS)`. -/
def AVERROR_ENOSYS : Int := -38

/-- The state `video_refresh` works on: the members of `struct VideoState`
modelled in `VideoState` (as `is`), the picture queue `pictq`, the further
members the video part of the function reads or writes, and the caller's
`*remaining_time`. -/
structure PlayState where
  is : VideoState
  pictq : FrameQueue
  frame_timer : CDouble
  paused : Int
  step : Int
  read_pause_return : Int
  frame_drops_late : Int
  force_refresh : Int
  remaining_time : CDouble
deriving DecidableEq

/-- The frame a returned `Frame *` points to.  An index outside the array,
which the index invariant excludes, reads as a zeroed frame. -/
def FrameQueue.frameAt (f : FrameQueue) (i : Int) : Frame :=
  (f.slot i).getD Frame.zero

/-- `update_video_pts`: `t1` is the time read by `set_clock`, `t2`, `t3`, `t4`
the times read inside `sync_clock_to_slave`. -/
def update_video_pts (is : VideoState) (pts : CDouble) (serial : Int) (t1 t2 t3 t4 : ℚ) :
    VideoState :=
  let is1 := { is with vidclk := set_clock is.vidclk pts serial t1 }
  { is1 with
      extclk := sync_clock_to_slave is1.extclk is1.vidclk is1.extclk.serial is1.videoq.serial
                  t2 t3 t4 }

/-- `stream_toggle_pause`: `t1` .. `t5` are the wall-clock times it reads, in
program order. -/
def stream_toggle_pause (s : PlayState) (t1 t2 t3 t4 t5 : ℚ) : PlayState :=
  let s1 :=
    if s.paused ≠ 0 then
      let vc := if s.read_pause_return ≠ AVERROR_ENOSYS then { s.is.vidclk with paused := 0 }
                else s.is.vidclk
      { s with
          frame_timer := dadd s.frame_timer (dsub (some t1) s.is.vidclk.last_updated)
          is := { s.is with
                    vidclk := set_clock vc (get_clock vc s.is.videoq.serial t2) vc.serial t3 } }
    else s
  let ec := set_clock s1.is.extclk (get_clock s1.is.extclk s1.is.extclk.serial t4)
              s1.is.extclk.serial t5
  let p : Int := if s1.paused ≠ 0 then 0 else 1
  { s1 with
      paused := p
      is := { s1.is with
                audclk := { s1.is.audclk with paused := p }
                vidclk := { s1.is.vidclk with paused := p }
                extclk := { ec with paused := p } } }

/-- The end of a pass of `video_refresh`, from the late-drop test on: `vp` is
the frame at the read position and `time` the time read for the due test. -/
def video_refresh_show (framedrop : Int) (now : Nat → ℚ) (s : PlayState) (vp : Frame)
    (time : ℚ) : Bool × PlayState :=
  let nextvp := s.pictq.frameAt (frame_queue_peek_next s.pictq)
  if frame_queue_nb_remaining s.pictq > 1
      ∧ s.step = 0
      ∧ (framedrop > 0
          ∨ (framedrop ≠ 0 ∧ get_master_sync_type s.is ≠ AV_SYNC_VIDEO_MASTER))
      ∧ dgt (some time) (dadd s.frame_timer (vp_duration s.is vp nextvp)) = true then
    (true, { s with
               frame_drops_late := s.frame_drops_late + 1
               pictq := frame_queue_next s.pictq })
  else
    let s4 := { s with pictq := frame_queue_next s.pictq, force_refresh := 1 }
    if s4.step ≠ 0 ∧ s4.paused = 0 then
      (false, stream_toggle_pause s4 (now 8) (now 9) (now 10) (now 11) (now 12))
    else (false, s4)

/-- The part of a pass of `video_refresh` that runs once the frame is due:
the frame timer and the video clock are updated, then `video_refresh_show`. -/
def video_refresh_due (framedrop : Int) (now : Nat → ℚ) (s : PlayState) (vp : Frame)
    (delay : CDouble) (time : ℚ) : Bool × PlayState :=
  let s2 := { s with frame_timer := frame_timer_advance s.frame_timer delay time }
  let s3 :=
    if !isnan vp.pts then
      { s2 with is := update_video_pts s2.is vp.pts vp.serial (now 4) (now 5) (now 6) (now 7) }
    else s2
  video_refresh_show framedrop now s3 vp time

/-- One pass through the `retry:` block of `video_refresh` (the body of
`if (is->video_st)` up to the `display:` label).  `framedrop` is the global
option, `now j` the `j`-th wall-clock read of the pass.  The result tells
whether the pass ends in `goto retry`.  Retiring subtitle overlays and drawing
act on other state and are left out. -/
def video_refresh_pass (framedrop : Int) (now : Nat → ℚ) (s : PlayState) : Bool × PlayState :=
  if frame_queue_nb_remaining s.pictq = 0 then (false, s)
  else
    let lastvp := s.pictq.frameAt (frame_queue_peek_last s.pictq)
    let vp := s.pictq.frameAt (frame_queue_peek s.pictq)
    if vp.serial ≠ s.is.videoq.serial then
      (true, { s with pictq := frame_queue_next s.pictq })
    else
      let s1 := if lastvp.serial ≠ vp.serial then { s with frame_timer := some (now 0) } else s
      if s1.paused ≠ 0 then (false, s1)
      else
        let last_duration := vp_duration s1.is lastvp vp
        let delay := compute_target_delay last_duration s1.is (now 1) (now 2)
        let time := now 3
        if dlt (some time) (dadd s1.frame_timer delay) then
          (false, { s1 with
                      remaining_time :=
                        FFMIN (dsub (dadd s1.frame_timer delay) (some time)) s1.remaining_time })
        else video_refresh_due framedrop now s1 vp delay time

/-- The `retry:` loop of `video_refresh`: passes are repeated while they end
in `goto retry`.  Pass number `k` reads the times `now k 0`, `now k 1`, ...;
`none` means that `fuel` passes were not enough. -/
def video_refresh_retry (framedrop : Int) (now : Nat → Nat → ℚ) :
    Nat → Nat → PlayState → Option PlayState
  | 0, _, _ => none
  | fuel + 1, k, s =>
    let r := video_refresh_pass framedrop (now k) s
    if r.1 then video_refresh_retry framedrop now fuel (k + 1) r.2 else some r.2

/-- Two clock values agree in everything but the paused flag. -/
def Clock.sameTime (c c1 : Clock) : Prop :=
  c1.pts = c.pts ∧ c1.pts_drift = c.pts_drift ∧ c1.last_updated = c.last_updated
    ∧ c1.speed = c.speed ∧ c1.serial = c.serial

/-! ## Decoder -/

/-- `AV_NOPTS_VALUE`. -/
def AV_NOPTS_VALUE : Int := -9223372036854775808

/-- The value of `AVERROR(EAGAIN)`. -/
def AVERROR_EAGAIN : Int := -11

/-- The value of `AVERROR_EOF`. -/
def AVERROR_EOF : Int := -541478725

/-- `AVMEDIA_TYPE_VIDEO`. -/
def AVMEDIA_TYPE_VIDEO : Int := 0

/-- `AVMEDIA_TYPE_AUDIO`. -/
def AVMEDIA_TYPE_AUDIO : Int := 1

/-- `AVMEDIA_TYPE_SUBTITLE`. -/
def AVMEDIA_TYPE_SUBTITLE : Int := 3

/-- `av_packet_unref`: the packet is reset to its default fields. -/
def av_packet_unref (_pkt : AVPacket) : AVPacket :=
  { data := 0, pts := AV_NOPTS_VALUE, dts := AV_NOPTS_VALUE, size := 0, stream_index := 0,
    duration := 0, pos := -1, buf := false, opaque_ref := none }

/-- A call the decoder makes on the decode backend `d->avctx`. -/
inductive BackendCall where
  | receive_frame
  | send_packet (pkt : AVPacket)
  | decode_subtitle2 (pkt : AVPacket)
  | flush_buffers
deriving DecidableEq, Repr

/-- The fields of the `AVFrame` handed to `decoder_decode_frame` that the
function reads or writes. -/
structure AVFrameInfo where
  pts : Int
  best_effort_timestamp : Int
  pkt_dts : Int
  sample_rate : Int
  nb_samples : Int
deriving DecidableEq, Repr

/-- What a backend call gives back: its return value, for
`avcodec_decode_subtitle2` the `got_frame` flag and the subtitle stored, for
`avcodec_receive_frame` the frame stored. -/
structure BackendResp where
  ret : Int
  got_frame : Int
  frame : AVFrameInfo
  sub : Option Nat
deriving DecidableEq, Repr

/-- What `decoder_decode_frame` takes from outside the decoder: the entry size
of the packet FIFO, the codec type and packet time base of `d->avctx`, the
global option `decoder_reorder_pts`, the backend (its answer to the last call
of a call history), libavutil's `av_rescale_q`, and the outcome of the
`av_buffer_allocz` performed after a given call history. -/
structure DecEnv where
  esz : Int
  codec_type : Int
  pkt_timebase : Int × Int
  decoder_reorder_pts : Int
  backend : List BackendCall → BackendResp
  av_rescale_q : Int → Int × Int → Int × Int → Int
  alloc_ok : List BackendCall → Bool

/-- `struct Decoder` without its pointers to the queue, the codec context,
the condition variable and the thread. -/
structure Decoder where
  pkt : AVPacket
  pkt_serial : Int
  finished : Int
  packet_pending : Int
  start_pts : Int
  start_pts_tb : Int × Int
  next_pts : Int
  next_pts_tb : Int × Int
deriving DecidableEq, Repr

/-- The decoder after a successful `decoder_init`. -/
def decoder_init : Decoder :=
  { pkt := av_packet_unref
      { data := 0, pts := 0, dts := 0, size := 0, stream_index := 0, duration := 0, pos := 0 }
    pkt_serial := -1, finished := 0, packet_pending := 0
    start_pts := AV_NOPTS_VALUE, start_pts_tb := (0, 0), next_pts := 0, next_pts_tb := (0, 0) }

/-- The state `decoder_decode_frame` works on: the decoder, its packet queue,
the calls made on the backend so far (oldest first), the local variable
`ret`, and the caller's `*frame` and `*sub`. -/
structure DecState where
  d : Decoder
  q : PacketQueue
  log : List BackendCall
  ret : Int
  frame : AVFrameInfo
  sub : Option Nat
deriving DecidableEq, Repr

/-- How a part of `decoder_decode_frame` ends: the function returns `r`; the
thread sleeps inside `packet_queue_get`; control goes on to the next part;
the enclosing loop runs again; or the model ran out of fuel. -/
inductive DecOut where
  | returned (r : Int) (s : DecState)
  | waiting (s : DecState)
  | next (s : DecState)
  | again (s : DecState)
  | fuel (s : DecState)
deriving DecidableEq, Repr

/-- The state a part ended in. -/
def DecOut.state : DecOut → DecState
  | .returned _ s => s
  | .waiting s => s
  | .next s => s
  | .again s => s
  | .fuel s => s

/-- The `AVMEDIA_TYPE_VIDEO` case of the receive step. -/
def decoder_receive_video (env : DecEnv) (s : DecState) : DecState :=
  let log := s.log ++ [BackendCall.receive_frame]
  let r := env.backend log
  let frame :=
    if r.ret ≥ 0 then
      if env.decoder_reorder_pts = -1 then { r.frame with pts := r.frame.best_effort_timestamp }
      else if env.decoder_reorder_pts = 0 then { r.frame with pts := r.frame.pkt_dts }
      else r.frame
    else r.frame
  { s with log := log, ret := r.ret, frame := frame }

/-- The `AVMEDIA_TYPE_AUDIO` case of the receive step. -/
def decoder_receive_audio (env : DecEnv) (s : DecState) : DecState :=
  let log := s.log ++ [BackendCall.receive_frame]
  let r := env.backend log
  if r.ret ≥ 0 then
    let tb : Int × Int := (1, r.frame.sample_rate)
    let pts :=
      if r.frame.pts ≠ AV_NOPTS_VALUE then env.av_rescale_q r.frame.pts env.pkt_timebase tb
      else if s.d.next_pts ≠ AV_NOPTS_VALUE then env.av_rescale_q s.d.next_pts s.d.next_pts_tb tb
      else r.frame.pts
    let d :=
      if pts ≠ AV_NOPTS_VALUE then
        { s.d with next_pts := pts + r.frame.nb_samples, next_pts_tb := tb }
      else s.d
    { s with log := log, ret := r.ret, frame := { r.frame with pts := pts }, d := d }
  else { s with log := log, ret := r.ret, frame := r.frame }

/-- One pass of the `do { ... } while (ret != AVERROR(EAGAIN))` loop that
asks the backend for a frame. -/
def decoder_receive_pass (env : DecEnv) (s : DecState) : DecOut :=
  if s.q.abort_request ≠ 0 then .returned (-1) s
  else
    let s1 :=
      if env.codec_type = AVMEDIA_TYPE_VIDEO then decoder_receive_video env s
      else if env.codec_type = AVMEDIA_TYPE_AUDIO then decoder_receive_audio env s
      else s
    if s1.ret = AVERROR_EOF then
      .returned 0
        { s1 with
            d := { s1.d with finished := s1.d.pkt_serial }
            log := s1.log ++ [BackendCall.flush_buffers] }
    else if s1.ret ≥ 0 then .returned 1 s1
    else if s1.ret ≠ AVERROR_EAGAIN then .again s1
    else .next s1

/-- The receive loop, at most `fuel` passes. -/
def decoder_receive (env : DecEnv) : Nat → DecState → DecOut
  | 0, s => .fuel s
  | fuel + 1, s =>
    match decoder_receive_pass env s with
    | .again s1 => decoder_receive env fuel s1
    | out => out

/-- The end of a pass of the fetch loop: `if (d->queue->serial ==
d->pkt_serial) break; av_packet_unref(d->pkt);`. -/
def decoder_fetch_check (s : DecState) : DecOut :=
  if s.q.serial = s.d.pkt_serial then .next s
  else .again { s with d := { s.d with pkt := av_packet_unref s.d.pkt } }

/-- One pass of the `do { ... } while (1)` loop that fetches a packet.  The
signal on `empty_queue_cond` changes no state. -/
def decoder_fetch_pass (env : DecEnv) (s : DecState) : DecOut :=
  if s.d.packet_pending ≠ 0 then
    decoder_fetch_check { s with d := { s.d with packet_pending := 0 } }
  else
    match packet_queue_get env.esz s.q s.d.pkt 1 (some s.d.pkt_serial) with
    | none => .waiting s
    | some r =>
      let s1 := { s with
                    q := r.q
                    d := { s.d with pkt := r.pkt, pkt_serial := r.serial.getD s.d.pkt_serial } }
      if r.ret < 0 then .returned (-1) s1
      else
        let s2 :=
          if s.d.pkt_serial ≠ s1.d.pkt_serial then
            { s1 with
                log := s1.log ++ [BackendCall.flush_buffers]
                d := { s1.d with
                         finished := 0
                         next_pts := s1.d.start_pts
                         next_pts_tb := s1.d.start_pts_tb } }
          else s1
        decoder_fetch_check s2

/-- The fetch loop, at most `fuel` passes. -/
def decoder_fetch (env : DecEnv) : Nat → DecState → DecOut
  | 0, s => .fuel s
  | fuel + 1, s =>
    match decoder_fetch_pass env s with
    | .again s1 => decoder_fetch env fuel s1
    | out => out

/-- The packet `decoder_decode_frame` hands to `avcodec_send_packet`: a packet
with a buffer and no `opaque_ref` gets one that records its position. -/
def decoder_attach_pos (pkt : AVPacket) : AVPacket :=
  if pkt.buf = true ∧ pkt.opaque_ref = none then { pkt with opaque_ref := some pkt.pos }
  else pkt

/-- The step that hands the fetched packet to the backend. -/
def decoder_send (env : DecEnv) (s : DecState) : DecOut :=
  if env.codec_type = AVMEDIA_TYPE_SUBTITLE then
    let log := s.log ++ [BackendCall.decode_subtitle2 s.d.pkt]
    let r := env.backend log
    let pending : Int :=
      if 0 ≤ r.ret ∧ r.got_frame ≠ 0 ∧ s.d.pkt.data = 0 then 1 else s.d.packet_pending
    let ret : Int :=
      if r.ret < 0 then AVERROR_EAGAIN
      else if r.got_frame ≠ 0 then 0
      else if s.d.pkt.data ≠ 0 then AVERROR_EAGAIN
      else AVERROR_EOF
    .next { s with
              log := log
              sub := r.sub
              ret := ret
              d := { s.d with packet_pending := pending, pkt := av_packet_unref s.d.pkt } }
  else if s.d.pkt.buf = true ∧ s.d.pkt.opaque_ref = none ∧ env.alloc_ok s.log = false then
    .returned AVERROR_ENOMEM s
  else
    let pkt := decoder_attach_pos s.d.pkt
    let log := s.log ++ [BackendCall.send_packet pkt]
    if (env.backend log).ret = AVERROR_EAGAIN then
      .next { s with log := log, d := { s.d with pkt := pkt, packet_pending := 1 } }
    else
      .next { s with log := log, d := { s.d with pkt := av_packet_unref pkt } }

/-- The `for (;;)` loop of `decoder_decode_frame`, at most `fuel` rounds, each
inner loop with the fuel that is left. -/
def decoder_loop (env : DecEnv) : Nat → DecState → DecOut
  | 0, s => .fuel s
  | fuel + 1, s =>
    let a := if s.q.serial = s.d.pkt_serial then decoder_receive env (fuel + 1) s
             else DecOut.next s
    match a with
    | .next s1 =>
      match decoder_fetch env (fuel + 1) s1 with
      | .next s2 =>
        match decoder_send env s2 with
        | .next s3 => decoder_loop env fuel s3
        | out => out
      | out => out
    | out => out

/-- `decoder_decode_frame`: the local `ret` starts as `AVERROR(EAGAIN)`. -/
def decoder_decode_frame (env : DecEnv) (fuel : Nat) (s : DecState) : DecOut :=
  decoder_loop env fuel { s with ret := AVERROR_EAGAIN }

/-- The backend call history of `s1` extends that of `s`. -/
def LogExt (s s1 : DecState) : Prop :=
  ∃ rest : List BackendCall, s1.log = s.log ++ rest

/-- The queue of the seek scenario: `q0` flushed, then `p` put (with a
successful `av_packet_alloc` and `av_fifo_write` returning `wr`). -/
def seek_queue (esz : Int) (q0 : PacketQueue) (p : AVPacket) (wr : Int) : PacketQueue :=
  (packet_queue_put esz (packet_queue_flush q0) p true wr).2

/-! ## Sample data -/

/-- A sample packet: 100 bytes, duration 40. -/
def pktA : AVPacket :=
  { data := 1, pts := 0, dts := 0, size := 100, stream_index := 0, duration := 40, pos := 0 }

/-- A sample packet: 250 bytes, duration 40. -/
def pktB : AVPacket :=
  { data := 2, pts := 40, dts := 40, size := 250, stream_index := 0, duration := 40, pos := 100 }

/-- A sample packet: 70 bytes, duration 20. -/
def pktC : AVPacket :=
  { data := 3, pts := 80, dts := 80, size := 70, stream_index := 0, duration := 20, pos := 350 }

/-- The blank packet a caller passes to `packet_queue_get` as `*pkt`. -/
def pktBlank : AVPacket :=
  { data := 0, pts := 0, dts := 0, size := 0, stream_index := 0, duration := 0, pos := -1 }

/-- A queue that was initialised and then started: empty, serial 1. -/
def qStarted : PacketQueue :=
  packet_queue_start (packet_queue_init true true true).2

/-- A sample sequence of puts and gets: a get on the empty queue, two puts, a
get, a put whose FIFO write fails, a put and two gets. -/
def opsPutGet : List PQOp :=
  [.get pktBlank 0 (some 0), .put pktA true 0, .put pktB true 0, .get pktBlank 1 (some 0),
   .put pktA true (-12), .put pktC true 0, .get pktBlank 1 none, .get pktBlank 0 (some 0)]

/-- A sample decoded frame referencing data buffer 1. -/
def frA : Frame :=
  { Frame.zero with frame := .holds 1, serial := 1, pts := some 0, width := 640, height := 480 }

/-- A sample decoded frame referencing data buffer 2. -/
def frB : Frame :=
  { Frame.zero with frame := .holds 2, serial := 1, pts := some 1, width := 640, height := 480 }

/-- A video frame queue after a successful `frame_queue_init` with capacity 3
and `keep_last` set. -/
def fqInit : FrameQueue :=
  (frame_queue_init true true (fun _ => true) 3 1).2

/-- The queue `fqInit` after the producer stored `frA` and `frB`: slots 0 and 1
hold them, `rindex = 0`, `windex = 2`, `size = 2`, nothing shown yet. -/
def fqTwo : FrameQueue :=
  { (fqInit.setSlot 0 frA).setSlot 1 frB with windex := 2, size := 2 }

/-- A packet of `2 ^ 30` bytes. -/
def pktBig : AVPacket :=
  { data := 3, pts := 0, dts := 0, size := 1073741824, stream_index := 0, duration := 40,
    pos := 0 }

/-- The calls that start a fresh queue and put `pktBig` twice. -/
def opsBig : List PQOp :=
  [.start, .put pktBig true 0, .put pktBig true 0]

/-- The queue after `opsBig`, with 16-byte entries: two packets of `2 ^ 30`
bytes are queued and `size` has wrapped. -/
def qBig : PacketQueue :=
  run 16 (packet_queue_init true true true).2 opsBig

/-- A sample sequence of guarded steps: two frames are produced and pushed,
the first one is shown and then released. -/
def opsFQ : List FQOp :=
  [.peek_writable qStarted, .fill frA, .push, .peek_writable qStarted, .fill frB, .push,
   .next, .next]

/-- The state the steps `opsFQ` lead to from `fqInit`: `frA` was shown and
released, `frB` is the frame at the read position. -/
def fqEnd : FQState :=
  { f := { (fqInit.setSlot 0 (frame_queue_unref_item frA)).setSlot 1 frB with
             rindex := 1, windex := 2, size := 1, rindex_shown := 1 }
    granted := false }

/-- A running clock bound to serial 1: set to pts 5 at time 100, speed 1. -/
def clkRun : Clock :=
  { pts := some 5, pts_drift := some (-95), last_updated := some 100, speed := some 1,
    serial := 1, paused := 0 }

/-- A paused clock bound to serial 1 that is frozen at pts 0. -/
def clkZero : Clock :=
  { pts := some 0, pts_drift := some (-100), last_updated := some 100, speed := some 1,
    serial := 1, paused := 1 }

/-- A paused clock bound to serial 1 that is frozen at pts 1/5. -/
def clkFifth : Clock :=
  { pts := some (1 / 5), pts_drift := some (-100), last_updated := some 100, speed := some 1,
    serial := 1, paused := 1 }

/-- A paused clock bound to serial 1 that is frozen at pts 1/960. -/
def clkTick : Clock :=
  { pts := some (1 / 960), pts_drift := some (-100), last_updated := some 100, speed := some 1,
    serial := 1, paused := 1 }

/-- The paused clock `clkZero` after `set_clock(c, 10.3, 1)` at time 100, in
double arithmetic: it is frozen at the double nearest to 10.3. -/
def clkTenThree : Clock :=
  set_clock clkZero (some (double_round (103 / 10))) 1 100 double_round

/-- The paused clock `clkZero` after `set_clock(c, 0.3, 1)` at time 100, in
double arithmetic: it is frozen at the double nearest to 0.3. -/
def clkThreeTenths : Clock :=
  set_clock clkZero (some (double_round (3 / 10))) 1 100 double_round

/-- A `VideoState` right after `av_mallocz`. -/
def VideoState.zero : VideoState :=
  { audclk := { pts := some 0, pts_drift := some 0, last_updated := some 0, speed := some 0,
                serial := 0, paused := 0 }
    vidclk := { pts := some 0, pts_drift := some 0, last_updated := some 0, speed := some 0,
                serial := 0, paused := 0 }
    extclk := { pts := some 0, pts_drift := some 0, last_updated := some 0, speed := some 0,
                serial := 0, paused := 0 }
    av_sync_type := 0
    audio_diff_cum := some 0
    audio_diff_avg_coef := some 0
    audio_diff_threshold := some 0
    audio_diff_avg_count := 0
    audio_st := false
    audioq := PacketQueue.zero
    audio_src_freq := 0
    video_st := false
    videoq := PacketQueue.zero
    max_frame_duration := some 0 }

/-- A player with both streams open and queues at serial 1, synchronised to
the external clock: the video clock reads 0, the external clock 1/5 and the
audio clock 1/5 + 1/960 (50 samples ahead at 48000 Hz); the averaging filter
has its 20 measurements; `max_frame_duration` is 10. -/
def isExt : VideoState :=
  { VideoState.zero with
      vidclk := clkZero
      extclk := clkFifth
      audclk := { clkFifth with pts := some (1 / 5 + 1 / 960) }
      av_sync_type := AV_SYNC_EXTERNAL_CLOCK
      audio_diff_avg_coef := some (4 / 5)
      audio_diff_threshold := some (1 / 2000)
      audio_diff_avg_count := 20
      audio_diff_cum := some (1 / 192)
      audio_st := true
      audioq := qStarted
      audio_src_freq := 48000
      video_st := true
      videoq := qStarted
      max_frame_duration := some 10 }

/-- A player like `isExt` whose members are all doubles: the external clock
is frozen at 0 and the audio clock at the double nearest to 1/960; the filter
coefficient, threshold and sum are the doubles nearest to 0.8, 0.0005 and
1/192. -/
def isRound : VideoState :=
  { isExt with
      extclk := clkZero
      audclk := set_clock clkZero (some (double_round (1 / 960))) 1 100 double_round
      audio_diff_avg_coef := some (double_round (4 / 5))
      audio_diff_threshold := some (double_round (1 / 2000))
      audio_diff_cum := some (double_round (1 / 192)) }

/-- A player configured for video master that has no video stream (and no
audio stream). -/
def isNoVideo : VideoState :=
  { VideoState.zero with av_sync_type := AV_SYNC_VIDEO_MASTER }

/-- The state two pushes and two nexts lead to from `fqInit`: one frame is
released, one is kept as shown. -/
def fqIdxEnd : FrameQueue :=
  { fqInit with rindex := 1, windex := 2, size := 1, rindex_shown := 1 }

/-- A frame like `frA` whose pts is the double nearest to 0.3 and whose declared
duration is the double nearest to 0.04. -/
def frEarly : Frame :=
  { frA with pts := some (double_round (3 / 10)), duration := some (double_round (1 / 25)) }

/-- A frame like `frA` whose pts is the double nearest to 10.3. -/
def frLate : Frame :=
  { frA with pts := some (double_round (103 / 10)) }

/-- A stale decoded frame: as `frA`, but tagged with serial 0. -/
def frOld : Frame :=
  { frA with serial := 0 }

/-- A player whose picture queue holds the stale `frOld` followed by `frB`,
with the video queue at serial 1 and nothing paused. -/
def psStale : PlayState :=
  { is := isExt
    pictq := { (fqInit.setSlot 0 frOld).setSlot 1 frB with windex := 2, size := 2 }
    frame_timer := some 100
    paused := 0
    step := 0
    read_pause_return := 0
    frame_drops_late := 0
    force_refresh := 0
    remaining_time := some (1 / 100) }

/-- A backend that has no frame ready (`AVERROR(EAGAIN)` on
`avcodec_receive_frame`) and accepts every packet. -/
def backendAccept (log : List BackendCall) : BackendResp :=
  let frame : AVFrameInfo :=
    { pts := 0, best_effort_timestamp := 0, pkt_dts := 0, sample_rate := 48000, nb_samples := 0 }
  match log.getLast? with
  | some BackendCall.receive_frame =>
    { ret := AVERROR_EAGAIN, got_frame := 0, frame := frame, sub := none }
  | _ => { ret := 0, got_frame := 0, frame := frame, sub := none }

/-- A backend that has no frame ready and refuses every packet with
`AVERROR(EAGAIN)`. -/
def backendBusy (_log : List BackendCall) : BackendResp :=
  { ret := AVERROR_EAGAIN, got_frame := 0
    frame := { pts := 0, best_effort_timestamp := 0, pkt_dts := 0, sample_rate := 48000,
               nb_samples := 0 }
    sub := none }

/-- A video decoder environment with the accepting backend. -/
def envVideo : DecEnv :=
  { esz := 16, codec_type := AVMEDIA_TYPE_VIDEO, pkt_timebase := (1, 1000)
    decoder_reorder_pts := -1, backend := backendAccept
    av_rescale_q := fun a _ _ => a, alloc_ok := fun _ => true }

/-- A video decoder environment with the refusing backend. -/
def envBusy : DecEnv :=
  { envVideo with backend := backendBusy }

/-- A video decoder environment in which every `av_buffer_allocz` fails. -/
def envNoMem : DecEnv :=
  { envVideo with alloc_ok := fun _ => false }

/-- A subtitle decoder environment with the accepting backend. -/
def envSub : DecEnv :=
  { envVideo with codec_type := AVMEDIA_TYPE_SUBTITLE }

/-- A packet queue at serial 3 that is started and empty: `qStarted` flushed
twice. -/
def qSerial3 : PacketQueue :=
  packet_queue_flush (packet_queue_flush qStarted)

/-- The queue `qSerial3` after a seek: flushed (serial 4), then `pktA` put. -/
def qSeek : PacketQueue :=
  (packet_queue_put 16 (packet_queue_flush qSerial3) pktA true 0).2

/-- A decoder that has been decoding serial 3 and holds no packet. -/
def decSerial3 : Decoder :=
  { decoder_init with pkt_serial := 3, finished := 3, start_pts := 0, next_pts := 900 }

/-- The decoder state of the seek scenario, with no backend call made yet. -/
def dsSeek : DecState :=
  { d := decSerial3, q := qSeek, log := [], ret := 0
    frame := { pts := 0, best_effort_timestamp := 0, pkt_dts := 0, sample_rate := 0,
               nb_samples := 0 }
    sub := none }

/-- The packet `pktA` with its position attached, as the backend receives it. -/
def pktASent : AVPacket :=
  { pktA with opaque_ref := some 0 }

/-- The seek scenario with the refusing backend, after the fetch pass: the
decoder holds `pktA` at serial 4 and the queue is empty. -/
def dsHeld : DecState :=
  (decoder_fetch_pass envBusy dsSeek).state

/-! ## PacketQueue: lemmas -/

/-- The `+=` on `size` gives the exact sum converted to `int`. -/
theorem size_add_eq (a b e : Int) : size_add a b e = int_of_size_t (a + (b + e)) := by
  unfold size_add int_of_size_t size_t_add size_t_of_int
  norm_num

/-- The `-=` on `size` gives the exact difference converted to `int`. -/
theorem size_sub_eq (a b e : Int) : size_sub a b e = int_of_size_t (a - (b + e)) := by
  unfold size_sub int_of_size_t size_t_sub size_t_add size_t_of_int
  norm_num
  omega

/-- A converted value lies in the range of `int`. -/
theorem int_of_size_t_range (x : Int) :
    -2 ^ 31 ≤ int_of_size_t x ∧ int_of_size_t x < 2 ^ 31 := by
  unfold int_of_size_t
  norm_num
  split_ifs <;> omega

/-- A value in the range of `int` is converted to itself. -/
theorem int_of_size_t_id (x : Int) (h1 : -2 ^ 31 ≤ x) (h2 : x < 2 ^ 31) :
    int_of_size_t x = x := by
  unfold int_of_size_t
  norm_num at h1 h2 ⊢
  split_ifs <;> omega

/-- Converting before an addition does not change the converted sum. -/
theorem int_of_size_t_add (a b : Int) :
    int_of_size_t (int_of_size_t a + b) = int_of_size_t (a + b) := by
  unfold int_of_size_t
  norm_num
  split_ifs <;> omega

/-- Converting before a subtraction does not change the converted difference. -/
theorem int_of_size_t_sub (a b : Int) :
    int_of_size_t (int_of_size_t a - b) = int_of_size_t (a - b) := by
  unfold int_of_size_t
  norm_num
  split_ifs <;> omega

/-- Zero is converted to zero. -/
theorem int_of_size_t_zero : int_of_size_t 0 = 0 := by
  decide

/-- The `+=` on a converted value gives the converted exact sum. -/
theorem size_add_wrap (a b e : Int) :
    size_add (int_of_size_t a) b e = int_of_size_t (a + (b + e)) := by
  rw [size_add_eq, int_of_size_t_add]

/-- The `-=` on a converted value gives the converted exact difference. -/
theorem size_sub_wrap (a b e : Int) :
    size_sub (int_of_size_t a) b e = int_of_size_t (a - (b + e)) := by
  rw [size_sub_eq, int_of_size_t_sub]

/-- A converted value differs from the original by a multiple of `2 ^ 32`. -/
theorem int_of_size_t_congr (x : Int) : (int_of_size_t x - x) % 2 ^ 32 = 0 := by
  unfold int_of_size_t
  norm_num
  split_ifs <;> omega

/-- Along calls of put and get on a queue that is not aborted, the packets
handed back followed by the packets still queued are the packets queued at the
start followed by the packets stored. -/
theorem gotPkts_append_pkts (esz : Int) (ops : List PQOp) :
    ∀ q : PacketQueue, (∀ op ∈ ops, op.isPutGet = true) →
      gotPkts esz q ops ++ (run esz q ops).pkts = q.pkts ++ putPkts esz q ops := by
  induction ops with
  | nil => intro q _; simp [gotPkts, run, putPkts]
  | cons op ops ih =>
    intro q h
    have hop : op.isPutGet = true := h op (List.mem_cons_self _ _)
    have hrest : ∀ o ∈ ops, o.isPutGet = true := fun o ho => h o (List.mem_cons_of_mem _ ho)
    have hi := ih (op.step esz q) hrest
    simp only [gotPkts, run, putPkts, List.append_assoc]
    rw [hi]
    cases op with
    | put pkt alloc_ok wr =>
      have hw0 : wr < 0 → wr ≠ 0 := fun h0 => by omega
      cases alloc_ok <;>
        by_cases ha : q.abort_request = 0 <;> by_cases hw : wr < 0 <;>
        simp [PQOp.gotPkt, PQOp.putPkt, PQOp.step, packet_queue_put,
          packet_queue_put_private, av_fifo_write, PacketQueue.pkts, ha, hw, hw0]
    | get pkt block serial =>
      by_cases ha : q.abort_request = 0
      · cases hl : q.pkt_list with
        | nil =>
          by_cases hb : block = 0 <;>
            simp [PQOp.gotPkt, PQOp.putPkt, PQOp.step, packet_queue_get,
              PacketQueue.pkts, ha, hl, hb]
        | cons e rest =>
          simp [PQOp.gotPkt, PQOp.putPkt, PQOp.step, packet_queue_get,
            PacketQueue.pkts, ha, hl]
      · simp [PQOp.gotPkt, PQOp.putPkt, PQOp.step, packet_queue_get,
          PacketQueue.pkts, ha]
    | flush => simp [PQOp.isPutGet] at hop
    | abort => simp [PQOp.isPutGet] at hop
    | start => simp [PQOp.isPutGet] at hop

/-- The effect of one call on the serial: flush and start add one, every
other call keeps it. -/
theorem step_serial (esz : Int) (q : PacketQueue) (op : PQOp) :
    (op.step esz q).serial =
      match op with
      | .flush => q.serial + 1
      | .start => q.serial + 1
      | _ => q.serial := by
  cases op with
  | put pkt alloc_ok wr =>
    cases alloc_ok <;>
      by_cases ha : q.abort_request = 0 <;> by_cases hw : wr < 0 <;>
      simp [PQOp.step, packet_queue_put, packet_queue_put_private, av_fifo_write, ha, hw]
  | get pkt block serial =>
    by_cases ha : q.abort_request = 0
    · cases hl : q.pkt_list with
      | nil => by_cases hb : block = 0 <;> simp [PQOp.step, packet_queue_get, ha, hl, hb]
      | cons e rest => simp [PQOp.step, packet_queue_get, ha, hl]
    · simp [PQOp.step, packet_queue_get, ha]
  | flush => simp [PQOp.step, packet_queue_flush]
  | abort => simp [PQOp.step, packet_queue_abort]
  | start => simp [PQOp.step, packet_queue_start]

/-- No call lowers the serial. -/
theorem step_serial_le (esz : Int) (q : PacketQueue) (op : PQOp) :
    q.serial ≤ (op.step esz q).serial := by
  rw [step_serial]
  cases op <;> simp

/-- No sequence of calls lowers the serial. -/
theorem run_serial_le (esz : Int) (ops : List PQOp) :
    ∀ q : PacketQueue, q.serial ≤ (run esz q ops).serial := by
  induction ops with
  | nil => intro q; simp [run]
  | cons op ops ih =>
    intro q
    exact le_trans (step_serial_le esz q op) (ih (op.step esz q))

/-- One call keeps `Stamped`. -/
theorem step_stamped (esz : Int) (q : PacketQueue) (op : PQOp) (h : Stamped q) :
    Stamped (op.step esz q) := by
  cases op with
  | put pkt alloc_ok wr =>
    cases alloc_ok <;>
      by_cases ha : q.abort_request = 0 <;> by_cases hw : wr < 0 <;>
      simp [PQOp.step, packet_queue_put, packet_queue_put_private, av_fifo_write, ha, hw,
        Stamped] <;>
      first
        | exact h
        | (intro e he
           rcases he with he | he
           · exact h e he
           · simp [he])
  | get pkt block serial =>
    by_cases ha : q.abort_request = 0
    · cases hl : q.pkt_list with
      | nil =>
        by_cases hb : block = 0 <;>
          simp [PQOp.step, packet_queue_get, ha, hl, hb, Stamped]
      | cons e rest =>
        simp only [PQOp.step, packet_queue_get, ha, hl, Stamped]
        intro x hx
        exact h x (by simp [hl] at hx ⊢; exact Or.inr hx)
    · simpa [PQOp.step, packet_queue_get, ha] using h
  | flush => simp [PQOp.step, packet_queue_flush, Stamped]
  | abort => simpa [PQOp.step, packet_queue_abort, Stamped] using h
  | start =>
    simp only [PQOp.step, packet_queue_start, Stamped]
    intro e he
    have := h e he
    omega

/-- A sequence of calls keeps `Stamped`. -/
theorem run_stamped (esz : Int) (ops : List PQOp) :
    ∀ q : PacketQueue, Stamped q → Stamped (run esz q ops) := by
  induction ops with
  | nil => intro q h; simpa [run] using h
  | cons op ops ih =>
    intro q h
    exact ih (op.step esz q) (step_stamped esz q op h)

/-- Whatever `packet_queue_init` returns holds no entry, hence is `Stamped`. -/
theorem init_stamped (fifo_ok mutex_ok cond_ok : Bool) :
    Stamped (packet_queue_init fifo_ok mutex_ok cond_ok).2 := by
  cases fifo_ok <;> cases mutex_ok <;> cases cond_ok <;>
    simp [packet_queue_init, PacketQueue.zero, Stamped]

/-- One call keeps the counters in agreement with the queued entries. -/
theorem step_consistent (esz : Int) (q : PacketQueue) (op : PQOp) (h : Consistent esz q) :
    Consistent esz (op.step esz q) := by
  obtain ⟨hn, hs, hd⟩ := h
  cases op with
  | put pkt alloc_ok wr =>
    cases alloc_ok <;>
      by_cases ha : q.abort_request = 0 <;> by_cases hw : wr < 0 <;>
      simp [PQOp.step, packet_queue_put, packet_queue_put_private, av_fifo_write, ha, hw,
        Consistent, hn, hs, hd, size_add_wrap]
  | get pkt block serial =>
    by_cases ha : q.abort_request = 0
    · cases hl : q.pkt_list with
      | nil =>
        by_cases hb : block = 0 <;>
          simp [PQOp.step, packet_queue_get, ha, hl, hb, Consistent, hn, hs, hd]
      | cons e rest =>
        simp [PQOp.step, packet_queue_get, ha, hl, Consistent, hn, hs, hd, size_sub_wrap]
    · simp [PQOp.step, packet_queue_get, ha, Consistent, hn, hs, hd]
  | flush => simp [PQOp.step, packet_queue_flush, Consistent, int_of_size_t_zero]
  | abort => simp [PQOp.step, packet_queue_abort, Consistent, hn, hs, hd]
  | start => simp [PQOp.step, packet_queue_start, Consistent, hn, hs, hd]

/-- A sequence of calls keeps the counters in agreement with the entries. -/
theorem run_consistent (esz : Int) (ops : List PQOp) :
    ∀ q : PacketQueue, Consistent esz q → Consistent esz (run esz q ops) := by
  induction ops with
  | nil => intro q h; simpa [run] using h
  | cons op ops ih =>
    intro q h
    exact ih (op.step esz q) (step_consistent esz q op h)

/-- The effect of one call on `abort_request`: abort sets it, start clears it,
every other call keeps it. -/
theorem step_abort_request (esz : Int) (q : PacketQueue) (op : PQOp) :
    (op.step esz q).abort_request =
      match op with
      | .abort => 1
      | .start => 0
      | _ => q.abort_request := by
  cases op with
  | put pkt alloc_ok wr =>
    cases alloc_ok <;>
      by_cases ha : q.abort_request = 0 <;> by_cases hw : wr < 0 <;>
      simp [PQOp.step, packet_queue_put, packet_queue_put_private, av_fifo_write, ha, hw]
  | get pkt block serial =>
    by_cases ha : q.abort_request = 0
    · cases hl : q.pkt_list with
      | nil => by_cases hb : block = 0 <;> simp [PQOp.step, packet_queue_get, ha, hl, hb]
      | cons e rest => simp [PQOp.step, packet_queue_get, ha, hl]
    · simp [PQOp.step, packet_queue_get, ha]
  | flush => simp [PQOp.step, packet_queue_flush]
  | abort => simp [PQOp.step, packet_queue_abort]
  | start => simp [PQOp.step, packet_queue_start]

/-- Without a call of `packet_queue_start`, a queue with `abort_request` set
keeps it set. -/
theorem run_abort_request (esz : Int) (ops : List PQOp) :
    ∀ q : PacketQueue, q.abort_request ≠ 0 → (∀ op ∈ ops, op ≠ PQOp.start) →
      (run esz q ops).abort_request ≠ 0 := by
  induction ops with
  | nil => intro q h _; simpa [run] using h
  | cons op ops ih =>
    intro q h hs
    have hop : op ≠ PQOp.start := hs op (List.mem_cons_self _ _)
    have hrest : ∀ o ∈ ops, o ≠ PQOp.start := fun o ho => hs o (List.mem_cons_of_mem _ ho)
    refine ih (op.step esz q) ?_ hrest
    rw [step_abort_request]
    cases op with
    | start => exact absurd rfl hop
    | abort => simp
    | put pkt alloc_ok wr => simpa using h
    | get pkt block serial => simpa using h
    | flush => simpa using h

/-! ## FrameQueue: lemmas -/

/-- Storing a frame in a slot changes none of the indices and counters. -/
theorem setSlot_fields (f : FrameQueue) (i : Int) (fr : Frame) :
    (f.setSlot i fr).rindex = f.rindex ∧ (f.setSlot i fr).windex = f.windex
      ∧ (f.setSlot i fr).size = f.size ∧ (f.setSlot i fr).max_size = f.max_size
      ∧ (f.setSlot i fr).keep_last = f.keep_last
      ∧ (f.setSlot i fr).rindex_shown = f.rindex_shown := by
  unfold FrameQueue.setSlot
  split <;> simp

/-- The allocation loop of `frame_queue_init` changes none of the indices and
counters. -/
theorem init_loop_fields (alloc_ok : Nat → Bool) (n : Nat) :
    ∀ (i : Nat) (f : FrameQueue),
      (frame_queue_init_loop alloc_ok n i f).2.size = f.size
        ∧ (frame_queue_init_loop alloc_ok n i f).2.max_size = f.max_size
        ∧ (frame_queue_init_loop alloc_ok n i f).2.rindex_shown = f.rindex_shown
        ∧ (frame_queue_init_loop alloc_ok n i f).2.rindex = f.rindex
        ∧ (frame_queue_init_loop alloc_ok n i f).2.windex = f.windex
        ∧ (frame_queue_init_loop alloc_ok n i f).2.keep_last = f.keep_last := by
  induction n with
  | zero => intro i f; simp [frame_queue_init_loop]
  | succ n ih =>
    intro i f
    unfold frame_queue_init_loop
    cases alloc_ok i with
    | false => simp
    | true =>
      cases hq : f.queue[i]? with
      | none => simpa using ih (i + 1) f
      | some fr => simpa using ih (i + 1) { f with queue := f.queue.set i { fr with frame := .blank } }

/-- Whatever `frame_queue_init` returns is empty with nothing shown, both
indices at 0, and a capacity that is either 0 (the mutex or the condition
variable could not be created) or the smaller of the argument and
`FRAME_QUEUE_SIZE`. -/
theorem init_fields (mutex_ok cond_ok : Bool) (alloc_ok : Nat → Bool)
    (max_size keep_last : Int) :
    (frame_queue_init mutex_ok cond_ok alloc_ok max_size keep_last).2.size = 0
      ∧ (frame_queue_init mutex_ok cond_ok alloc_ok max_size keep_last).2.rindex_shown = 0
      ∧ (frame_queue_init mutex_ok cond_ok alloc_ok max_size keep_last).2.rindex = 0
      ∧ (frame_queue_init mutex_ok cond_ok alloc_ok max_size keep_last).2.windex = 0
      ∧ ((frame_queue_init mutex_ok cond_ok alloc_ok max_size keep_last).2.max_size = 0
          ∨ (frame_queue_init mutex_ok cond_ok alloc_ok max_size keep_last).2.max_size
              = min max_size FRAME_QUEUE_SIZE) := by
  cases mutex_ok
  · simp [frame_queue_init, FrameQueue.zero]
  · cases cond_ok
    · simp [frame_queue_init, FrameQueue.zero]
    · obtain ⟨h1, h2, h3, h4, h5, -⟩ := init_loop_fields alloc_ok
        (min max_size FRAME_QUEUE_SIZE).toNat 0
        { FrameQueue.zero with
            max_size := min max_size FRAME_QUEUE_SIZE
            keep_last := if keep_last ≠ 0 then 1 else 0 }
      simp only [frame_queue_init, Bool.not_true, Bool.false_eq_true, if_false]
      rw [h1, h2, h3, h4, h5]
      simp [FrameQueue.zero]

/-- Whatever `frame_queue_init` returns for a capacity argument that is not
negative satisfies the invariant, with no slot granted. -/
theorem init_FQInv (mutex_ok cond_ok : Bool) (alloc_ok : Nat → Bool) (max_size keep_last : Int)
    (h : 0 ≤ max_size) :
    FQInv { f := (frame_queue_init mutex_ok cond_ok alloc_ok max_size keep_last).2
            granted := false } := by
  have h16 : (0 : Int) ≤ FRAME_QUEUE_SIZE := by decide
  obtain ⟨h1, h2, -, -, h5⟩ := init_fields mutex_ok cond_ok alloc_ok max_size keep_last
  simp only [FQInv, h1, h2]
  refine ⟨le_refl _, le_refl _, ?_, by simp⟩
  rcases h5 with h5 | h5 <;> rw [h5]
  exact le_min h h16

/-- A guarded step keeps the invariant. -/
theorem step_FQInv (s s1 : FQState) (op : FQOp) (h : FQInv s) (hs : op.step s = some s1) :
    FQInv s1 := by
  obtain ⟨h1, h2, h3, h4⟩ := h
  cases op with
  | peek_writable pktq =>
    by_cases hfull : s.f.size ≥ s.f.max_size ∧ pktq.abort_request = 0
    · simp [FQOp.step, frame_queue_peek_writable, hfull] at hs
      rw [← hs]
      exact ⟨h1, h2, h3, by simp⟩
    · by_cases ha : pktq.abort_request = 0
      · have hlt : s.f.size < s.f.max_size := by
          by_contra hc
          exact hfull ⟨not_lt.mp hc, ha⟩
        have hnle : ¬ s.f.max_size ≤ s.f.size := not_le.mpr hlt
        simp [FQOp.step, frame_queue_peek_writable, ha, hnle] at hs
        rw [← hs]
        exact ⟨h1, h2, h3, fun _ => hlt⟩
      · simp [FQOp.step, frame_queue_peek_writable, ha] at hs
        rw [← hs]
        exact ⟨h1, h2, h3, by simp⟩
  | fill fr =>
    simp only [FQOp.step] at hs
    cases hg : s.granted with
    | false => simp [hg] at hs
    | true =>
      simp only [hg, if_true, Option.some.injEq] at hs
      subst hs
      obtain ⟨-, -, e3, e4, -, e6⟩ := setSlot_fields s.f s.f.windex fr
      refine ⟨?_, ?_, ?_, ?_⟩ <;> simp only [e3, e4, e6]
      · exact h1
      · exact h2
      · exact h3
      · intro _; exact h4 hg
  | push =>
    simp only [FQOp.step] at hs
    cases hg : s.granted with
    | false => simp [hg] at hs
    | true =>
      simp only [hg, if_true, Option.some.injEq] at hs
      subst hs
      have := h4 hg
      refine ⟨?_, ?_, ?_, ?_⟩ <;> simp [frame_queue_push] <;> omega
  | next =>
    simp only [FQOp.step, frame_queue_nb_remaining] at hs
    by_cases hr : 0 < s.f.size - s.f.rindex_shown
    · simp only [hr, if_true, Option.some.injEq] at hs
      subst hs
      by_cases hk : s.f.keep_last ≠ 0 ∧ s.f.rindex_shown = 0
      · simp only [frame_queue_next, hk, ne_eq, not_false_eq_true, and_self, if_true, FQInv]
        refine ⟨by omega, by omega, h3, h4⟩
      · simp only [frame_queue_next, hk, if_false, FQInv]
        cases hsl : s.f.slot s.f.rindex with
        | none =>
          simp only
          refine ⟨h1, by omega, by omega, fun hg => ?_⟩
          have := h4 hg
          omega
        | some vp =>
          obtain ⟨-, -, e3, e4, -, e6⟩ :=
            setSlot_fields s.f s.f.rindex (frame_queue_unref_item vp)
          simp only [e3, e4, e6]
          refine ⟨h1, by omega, by omega, fun hg => ?_⟩
          have := h4 hg
          omega
    · simp [hr] at hs

/-- A sequence of guarded steps keeps the invariant. -/
theorem runFQ_FQInv (ops : List FQOp) :
    ∀ s s1 : FQState, FQInv s → runFQ s ops = some s1 → FQInv s1 := by
  induction ops with
  | nil =>
    intro s s1 h hs
    simp only [runFQ, Option.some.injEq] at hs
    subst hs
    exact h
  | cons op ops ih =>
    intro s s1 h hs
    simp only [runFQ] at hs
    cases hop : op.step s with
    | none => simp [hop] at hs
    | some s2 =>
      simp only [hop] at hs
      exact ih s2 s1 (step_FQInv s s2 op h hop) hs

/-- Reading back the slot that was just stored, for a slot inside the array. -/
theorem slot_setSlot_self (f : FrameQueue) (i : Int) (old fr : Frame)
    (h : f.slot i = some old) : (f.setSlot i fr).slot i = some fr := by
  unfold FrameQueue.slot at h
  unfold FrameQueue.slot FrameQueue.setSlot
  by_cases hi : 0 ≤ i
  · simp only [hi, if_true] at h ⊢
    have hlt : i.toNat < f.queue.length := by
      rcases Nat.lt_or_ge i.toNat f.queue.length with hl | hl
      · exact hl
      · rw [List.getElem?_eq_none hl] at h
        cases h
    simp [hlt]
  · simp [hi] at h

/-! ## Doubles: lemmas -/

/-- Sample values of the binary64 rounding: 0, 1, 10 and 1/2 are doubles and
round to themselves; 10.3, 0.3, 0.04 and 1/960 round to the doubles a C
compiler stores for these literals; `2 ^ 60 + 1` rounds to `2 ^ 60`; the tie
`2 ^ 53 + 1` goes to the even neighbour `2 ^ 53`, the tie `2 ^ 53 + 3` to
`2 ^ 53 + 4`; and a result of rounding rounds to itself. -/
theorem double_round_samples :
    double_round 0 = 0
      ∧ double_round 1 = 1
      ∧ double_round 10 = 10
      ∧ double_round (1 / 2) = 1 / 2
      ∧ double_round (103 / 10) = 2899192260119757 / 281474976710656
      ∧ double_round (3 / 10) = 5404319552844595 / 18014398509481984
      ∧ double_round (1 / 25) = 5764607523034235 / 144115188075855872
      ∧ double_round (1 / 960) = 4803839602528529 / 4611686018427387904
      ∧ double_round (-(1 / 3)) = -(6004799503160661 / 18014398509481984)
      ∧ double_round (2 ^ 60 + 1) = 2 ^ 60
      ∧ double_round (2 ^ 53 + 1) = 2 ^ 53
      ∧ double_round (2 ^ 53 + 3) = 2 ^ 53 + 4
      ∧ double_round (double_round (103 / 10)) = double_round (103 / 10) := by
  refine ⟨by decide!, by decide!, by decide!, by decide!, by decide!, by decide!, by decide!,
    by decide!, by decide!, by decide!, by decide!, by decide!, by decide!⟩

/-- On numbers `FFMAX` is the maximum. -/
theorem FFMAX_some (a b : ℚ) : FFMAX (some a) (some b) = some (max a b) := by
  rcases lt_or_le b a with h | h
  · simp [FFMAX, dgt, dlt, h, max_eq_left h.le]
  · simp [FFMAX, dgt, dlt, not_lt.mpr h, max_eq_right h]

/-- On numbers `FFMIN` is the minimum. -/
theorem FFMIN_some (a b : ℚ) : FFMIN (some a) (some b) = some (min a b) := by
  rcases lt_or_le b a with h | h
  · simp [FFMIN, dgt, dlt, h, min_eq_right h.le]
  · simp [FFMIN, dgt, dlt, not_lt.mpr h, min_eq_left h]

/-- A clipped value lies between the bounds when they are in order. -/
theorem av_clip_bounds (a amin amax : Int) (h : amin ≤ amax) :
    amin ≤ av_clip a amin amax ∧ av_clip a amin amax ≤ amax := by
  unfold av_clip
  split_ifs <;> omega

/-- For a sample count that is not negative, 90% of it (integer division) is
at most the count and the count is at most 110% of it. -/
theorem nb_samples_bounds (nb : Int) (h : 0 ≤ nb) :
    (nb * 90).tdiv 100 ≤ nb ∧ nb ≤ (nb * 110).tdiv 100 := by
  rw [Int.tdiv_eq_ediv (by omega) (by omega), Int.tdiv_eq_ediv (by omega) (by omega)]
  omega

/-- The value `synchronize_audio` returns is its argument or the clipped
corrected count. -/
theorem synchronize_audio_ret (is : VideoState) (nb t1 t2) (rnd : ℚ → ℚ) :
    (synchronize_audio is nb t1 t2 rnd).1 = nb
      ∨ (synchronize_audio is nb t1 t2 rnd).1
          = av_clip
              (nb + double_to_int
                (dmul (audio_master_diff is t1 t2 rnd) (int_to_double is.audio_src_freq) rnd))
              ((nb * 90).tdiv 100) ((nb * 110).tdiv 100) := by
  unfold synchronize_audio
  simp only [SAMPLE_CORRECTION_PERCENT_MAX]
  split_ifs <;> simp

/-- The indices and counters after `frame_queue_push`. -/
theorem push_fields (f : FrameQueue) :
    (frame_queue_push f).windex = (if f.windex + 1 = f.max_size then 0 else f.windex + 1)
      ∧ (frame_queue_push f).size = f.size + 1
      ∧ (frame_queue_push f).rindex = f.rindex
      ∧ (frame_queue_push f).max_size = f.max_size
      ∧ (frame_queue_push f).rindex_shown = f.rindex_shown
      ∧ (frame_queue_push f).keep_last = f.keep_last := by
  simp [frame_queue_push]

/-- The indices and counters after a `frame_queue_next` that only marks the
frame as shown. -/
theorem next_fields_keep (f : FrameQueue) (h : f.keep_last ≠ 0 ∧ f.rindex_shown = 0) :
    frame_queue_next f = { f with rindex_shown := 1 } := by
  simp [frame_queue_next, h]

/-- The indices and counters after a `frame_queue_next` that releases the
frame. -/
theorem next_fields_release (f : FrameQueue) (h : ¬ (f.keep_last ≠ 0 ∧ f.rindex_shown = 0)) :
    (frame_queue_next f).rindex = (if f.rindex + 1 = f.max_size then 0 else f.rindex + 1)
      ∧ (frame_queue_next f).size = f.size - 1
      ∧ (frame_queue_next f).windex = f.windex
      ∧ (frame_queue_next f).max_size = f.max_size
      ∧ (frame_queue_next f).rindex_shown = f.rindex_shown
      ∧ (frame_queue_next f).keep_last = f.keep_last := by
  simp only [frame_queue_next, h, if_false]
  cases hsl : f.slot f.rindex with
  | none => simp
  | some vp =>
    obtain ⟨e1, e2, e3, e4, e5, e6⟩ := setSlot_fields f f.rindex (frame_queue_unref_item vp)
    simp [e1, e2, e3, e4, e5, e6]

/-- A guarded call, with the push guard on, keeps the index invariant. -/
theorem step_FQIdx (f f1 : FrameQueue) (c : FQCall) (h : FQIdx f)
    (hs : c.step true f = some f1) : FQIdx f1 := by
  obtain ⟨h1, h2, h3, h4, h5, h6, h7, h8⟩ := h
  cases c with
  | push =>
    simp only [FQCall.step, true_and] at hs
    by_cases hlt : f.size < f.max_size
    · simp only [hlt, not_true_eq_false, if_false, Option.some.injEq] at hs
      subst hs
      obtain ⟨e1, e2, e3, e4, e5, -⟩ := push_fields f
      simp only [FQIdx, e1, e2, e3, e4, e5]
      split_ifs <;> omega
    · simp [hlt] at hs
  | next =>
    simp only [FQCall.step, frame_queue_nb_remaining] at hs
    by_cases hr : 0 < f.size - f.rindex_shown
    · simp only [hr, if_true, Option.some.injEq] at hs
      subst hs
      by_cases hk : f.keep_last ≠ 0 ∧ f.rindex_shown = 0
      · rw [next_fields_keep f hk]
        dsimp only [FQIdx]
        omega
      · obtain ⟨e1, e2, e3, e4, e5, -⟩ := next_fields_release f hk
        simp only [FQIdx, e1, e2, e3, e4, e5]
        split_ifs <;> omega
    · simp [hr] at hs

/-- A sequence of guarded calls, with the push guard on, keeps the index
invariant. -/
theorem runCalls_FQIdx (cs : List FQCall) :
    ∀ f f1 : FrameQueue, FQIdx f → runCalls true f cs = some f1 → FQIdx f1 := by
  induction cs with
  | nil =>
    intro f f1 h hs
    simp only [runCalls, Option.some.injEq] at hs
    subst hs
    exact h
  | cons c cs ih =>
    intro f f1 h hs
    simp only [runCalls] at hs
    cases hc : c.step true f with
    | none => simp [hc] at hs
    | some f2 =>
      simp only [hc] at hs
      exact ih f2 f1 (step_FQIdx f f2 c h hc) hs

/-- A call with `frame_queue_next` guarded keeps the shown-flag invariant,
whether or not `frame_queue_push` is guarded. -/
theorem step_FQShown (g : Bool) (f f1 : FrameQueue) (c : FQCall) (h : FQShown f)
    (hs : c.step g f = some f1) : FQShown f1 := by
  obtain ⟨h1, h2⟩ := h
  cases c with
  | push =>
    simp only [FQCall.step] at hs
    split_ifs at hs
    simp only [Option.some.injEq] at hs
    subst hs
    obtain ⟨-, e2, -, -, e5, -⟩ := push_fields f
    simp only [FQShown, e2, e5]
    omega
  | next =>
    simp only [FQCall.step, frame_queue_nb_remaining] at hs
    by_cases hr : 0 < f.size - f.rindex_shown
    · simp only [hr, if_true, Option.some.injEq] at hs
      subst hs
      by_cases hk : f.keep_last ≠ 0 ∧ f.rindex_shown = 0
      · rw [next_fields_keep f hk]
        dsimp only [FQShown]
        omega
      · obtain ⟨-, e2, -, -, e5, -⟩ := next_fields_release f hk
        simp only [FQShown, e2, e5]
        omega
    · simp [hr] at hs

/-- A sequence of calls with `frame_queue_next` guarded keeps the shown-flag
invariant. -/
theorem runCalls_FQShown (g : Bool) (cs : List FQCall) :
    ∀ f f1 : FrameQueue, FQShown f → runCalls g f cs = some f1 → FQShown f1 := by
  induction cs with
  | nil =>
    intro f f1 h hs
    simp only [runCalls, Option.some.injEq] at hs
    subst hs
    exact h
  | cons c cs ih =>
    intro f f1 h hs
    simp only [runCalls] at hs
    cases hc : c.step g f with
    | none => simp [hc] at hs
    | some f2 =>
      simp only [hc] at hs
      exact ih f2 f1 (step_FQShown g f f2 c h hc) hs

/-- The truncating remainder of a value in `0 .. 2 * m - 1`. -/
theorem tmod_of_lt_two_mul (x m : Int) (h0 : 0 ≤ x) (h1 : x < 2 * m) :
    x.tmod m = if x < m then x else x - m := by
  have hm : 0 < m := by omega
  rw [Int.tmod_eq_emod h0 (le_of_lt hm)]
  split_ifs with hlt
  · exact Int.emod_eq_of_lt h0 hlt
  · have : x = (x - m) + m := by ring
    rw [this, Int.add_emod_self]
    rw [Int.emod_eq_of_lt (by omega) (by omega)]
    ring

/-- A `frame_queue_init` that returns 0 stores the smaller of its capacity
argument and `FRAME_QUEUE_SIZE` as `max_size`. -/
theorem init_success_max_size (mutex_ok cond_ok : Bool) (alloc_ok : Nat → Bool)
    (max_size keep_last : Int)
    (h : (frame_queue_init mutex_ok cond_ok alloc_ok max_size keep_last).1 = 0) :
    (frame_queue_init mutex_ok cond_ok alloc_ok max_size keep_last).2.max_size
      = min max_size FRAME_QUEUE_SIZE := by
  cases mutex_ok
  · simp [frame_queue_init, AVERROR_ENOMEM] at h
  · cases cond_ok
    · simp [frame_queue_init, AVERROR_ENOMEM] at h
    · obtain ⟨-, h2, -⟩ := init_loop_fields alloc_ok
        (min max_size FRAME_QUEUE_SIZE).toNat 0
        { FrameQueue.zero with
            max_size := min max_size FRAME_QUEUE_SIZE
            keep_last := if keep_last ≠ 0 then 1 else 0 }
      simp only [frame_queue_init, Bool.not_true, Bool.false_eq_true, if_false]
      rw [h2]

/-! ## Video refresh: lemmas -/

/-- `frame_queue_next` lowers `frame_queue_nb_remaining` by exactly 1. -/
theorem nb_remaining_next (f : FrameQueue) :
    frame_queue_nb_remaining (frame_queue_next f) = frame_queue_nb_remaining f - 1 := by
  by_cases hk : f.keep_last ≠ 0 ∧ f.rindex_shown = 0
  · rw [next_fields_keep f hk]
    simp only [frame_queue_nb_remaining]
    omega
  · obtain ⟨-, e2, -, -, e5, -⟩ := next_fields_release f hk
    simp only [frame_queue_nb_remaining, e2, e5]
    omega

/-- `update_video_pts` sets the video clock from its arguments and leaves the
video packet queue alone. -/
theorem update_video_pts_fields (is : VideoState) (pts : CDouble) (serial : Int)
    (t1 t2 t3 t4 : ℚ) :
    (update_video_pts is pts serial t1 t2 t3 t4).videoq = is.videoq
      ∧ (update_video_pts is pts serial t1 t2 t3 t4).vidclk.serial = serial
      ∧ (update_video_pts is pts serial t1 t2 t3 t4).vidclk.pts = pts := by
  simp [update_video_pts, set_clock, set_clock_at]

/-- On a player that is not paused, `stream_toggle_pause` changes only the
paused flag of the video clock and leaves the video packet queue and the
picture queue alone. -/
theorem stream_toggle_pause_fields (s : PlayState) (t1 t2 t3 t4 t5 : ℚ) (h : s.paused = 0) :
    (stream_toggle_pause s t1 t2 t3 t4 t5).is.videoq = s.is.videoq
      ∧ Clock.sameTime s.is.vidclk (stream_toggle_pause s t1 t2 t3 t4 t5).is.vidclk
      ∧ (stream_toggle_pause s t1 t2 t3 t4 t5).pictq = s.pictq := by
  simp [stream_toggle_pause, h, Clock.sameTime]

/-- `Clock.sameTime` is reflexive. -/
theorem sameTime_refl (c : Clock) : Clock.sameTime c c :=
  ⟨rfl, rfl, rfl, rfl, rfl⟩

/-- `Clock.sameTime` is transitive. -/
theorem sameTime_trans (a b c : Clock) (h1 : Clock.sameTime a b) (h2 : Clock.sameTime b c) :
    Clock.sameTime a c := by
  obtain ⟨a1, a2, a3, a4, a5⟩ := h1
  obtain ⟨b1, b2, b3, b4, b5⟩ := h2
  exact ⟨b1.trans a1, b2.trans a2, b3.trans a3, b4.trans a4, b5.trans a5⟩

/-- The end of a pass keeps the video packet queue and the time of the video
clock; when it ends in `goto retry` it advanced the picture queue. -/
theorem show_fields (framedrop : Int) (now : Nat → ℚ) (s : PlayState) (vp : Frame) (time : ℚ) :
    (video_refresh_show framedrop now s vp time).2.is.videoq = s.is.videoq
      ∧ Clock.sameTime s.is.vidclk (video_refresh_show framedrop now s vp time).2.is.vidclk
      ∧ ((video_refresh_show framedrop now s vp time).1 = true →
          (video_refresh_show framedrop now s vp time).2.pictq = frame_queue_next s.pictq) := by
  unfold video_refresh_show
  dsimp only
  split_ifs with h1 h2
  · exact ⟨rfl, sameTime_refl _, fun _ => rfl⟩
  · obtain ⟨e1, e2, -⟩ := stream_toggle_pause_fields
      { s with pictq := frame_queue_next s.pictq, force_refresh := 1 }
      (now 8) (now 9) (now 10) (now 11) (now 12) h2.2
    exact ⟨e1, e2, fun h => by simp at h⟩
  · exact ⟨rfl, sameTime_refl _, fun h => by simp at h⟩

/-- The due part of a pass keeps the video packet queue; it keeps the time of
the video clock or sets the clock from `vp`; when it ends in `goto retry` it
advanced the picture queue. -/
theorem due_fields (framedrop : Int) (now : Nat → ℚ) (s : PlayState) (vp : Frame)
    (delay : CDouble) (time : ℚ) :
    (video_refresh_due framedrop now s vp delay time).2.is.videoq = s.is.videoq
      ∧ (Clock.sameTime s.is.vidclk (video_refresh_due framedrop now s vp delay time).2.is.vidclk
          ∨ ((video_refresh_due framedrop now s vp delay time).2.is.vidclk.serial = vp.serial
              ∧ (video_refresh_due framedrop now s vp delay time).2.is.vidclk.pts = vp.pts))
      ∧ ((video_refresh_due framedrop now s vp delay time).1 = true →
          (video_refresh_due framedrop now s vp delay time).2.pictq
            = frame_queue_next s.pictq) := by
  unfold video_refresh_due
  dsimp only
  by_cases hp : (!isnan vp.pts) = true
  · simp only [hp, if_true]
    obtain ⟨e1, e2, e3⟩ := show_fields framedrop now
      { s with
          frame_timer := frame_timer_advance s.frame_timer delay time
          is := update_video_pts s.is vp.pts vp.serial (now 4) (now 5) (now 6) (now 7) } vp time
    obtain ⟨u1, u2, u3⟩ := update_video_pts_fields s.is vp.pts vp.serial (now 4) (now 5)
      (now 6) (now 7)
    refine ⟨e1.trans u1, Or.inr ⟨?_, ?_⟩, e3⟩
    · exact e2.2.2.2.2.trans u2
    · exact e2.1.trans u3
  · simp only [hp, Bool.false_eq_true, if_false]
    obtain ⟨e1, e2, e3⟩ := show_fields framedrop now
      { s with frame_timer := frame_timer_advance s.frame_timer delay time } vp time
    exact ⟨e1, Or.inl e2, e3⟩

/-- A pass leaves the video packet queue alone, and it either keeps the time
of the video clock or sets the clock from the frame at the read position,
whose serial is then the queue's; when it ends in `goto retry` it found a
frame and advanced the picture queue by one `frame_queue_next`. -/
theorem pass_fields (framedrop : Int) (now : Nat → ℚ) (s : PlayState) :
    (video_refresh_pass framedrop now s).2.is.videoq = s.is.videoq
      ∧ (Clock.sameTime s.is.vidclk (video_refresh_pass framedrop now s).2.is.vidclk
          ∨ ((s.pictq.frameAt (frame_queue_peek s.pictq)).serial = s.is.videoq.serial
              ∧ (video_refresh_pass framedrop now s).2.is.vidclk.serial
                  = (s.pictq.frameAt (frame_queue_peek s.pictq)).serial
              ∧ (video_refresh_pass framedrop now s).2.is.vidclk.pts
                  = (s.pictq.frameAt (frame_queue_peek s.pictq)).pts))
      ∧ ((video_refresh_pass framedrop now s).1 = true →
          frame_queue_nb_remaining s.pictq ≠ 0
            ∧ (video_refresh_pass framedrop now s).2.pictq = frame_queue_next s.pictq) := by
  unfold video_refresh_pass
  by_cases h0 : frame_queue_nb_remaining s.pictq = 0
  · rw [if_pos h0]
    exact ⟨rfl, Or.inl (sameTime_refl _), fun h => by simp at h⟩
  · rw [if_neg h0]
    by_cases hst : (s.pictq.frameAt (frame_queue_peek s.pictq)).serial ≠ s.is.videoq.serial
    · dsimp only
      rw [if_pos hst]
      exact ⟨rfl, Or.inl (sameTime_refl _), fun _ => ⟨h0, rfl⟩⟩
    · dsimp only
      rw [if_neg hst]
      have heq : (s.pictq.frameAt (frame_queue_peek s.pictq)).serial = s.is.videoq.serial :=
        not_not.mp hst
      split_ifs with ha hb hc hd he
      all_goals first
        | exact ⟨rfl, Or.inl (sameTime_refl _), fun h => by simp at h⟩
        | (obtain ⟨e1, e2, e3⟩ := due_fields framedrop now
              { s with frame_timer := some (now 0) }
              (s.pictq.frameAt (frame_queue_peek s.pictq))
              (compute_target_delay
                (vp_duration s.is (s.pictq.frameAt (frame_queue_peek_last s.pictq))
                  (s.pictq.frameAt (frame_queue_peek s.pictq)))
                s.is (now 1) (now 2)) (now 3)
           refine ⟨e1, ?_, fun h => ⟨h0, e3 h⟩⟩
           rcases e2 with e2 | e2
           · exact Or.inl e2
           · exact Or.inr ⟨heq, e2.1, e2.2⟩)
        | (obtain ⟨e1, e2, e3⟩ := due_fields framedrop now s
              (s.pictq.frameAt (frame_queue_peek s.pictq))
              (compute_target_delay
                (vp_duration s.is (s.pictq.frameAt (frame_queue_peek_last s.pictq))
                  (s.pictq.frameAt (frame_queue_peek s.pictq)))
                s.is (now 1) (now 2)) (now 3)
           refine ⟨e1, ?_, fun h => ⟨h0, e3 h⟩⟩
           rcases e2 with e2 | e2
           · exact Or.inl e2
           · exact Or.inr ⟨heq, e2.1, e2.2⟩)

/-- The retry loop leaves the video packet queue alone, and at its end the
video clock either has the time it started with or carries the serial of the
video packet queue. -/
theorem retry_fields (framedrop : Int) (now : Nat → Nat → ℚ) (fuel : Nat) :
    ∀ (k : Nat) (s s1 : PlayState), video_refresh_retry framedrop now fuel k s = some s1 →
      s1.is.videoq = s.is.videoq
        ∧ (Clock.sameTime s.is.vidclk s1.is.vidclk
            ∨ s1.is.vidclk.serial = s.is.videoq.serial) := by
  induction fuel with
  | zero => intro k s s1 h; simp [video_refresh_retry] at h
  | succ n ih =>
    intro k s s1 h
    obtain ⟨p1, p2, -⟩ := pass_fields framedrop (now k) s
    simp only [video_refresh_retry] at h
    by_cases hr : (video_refresh_pass framedrop (now k) s).1 = true
    · simp only [hr, if_true] at h
      obtain ⟨q1, q2⟩ := ih (k + 1) _ s1 h
      refine ⟨q1.trans p1, ?_⟩
      rcases q2 with q2 | q2
      · rcases p2 with p2 | p2
        · exact Or.inl (sameTime_trans _ _ _ p2 q2)
        · exact Or.inr (by rw [q2.2.2.2.2, p2.2.1, p2.1])
      · exact Or.inr (by rw [q2, p1])
    · simp only [hr, Bool.false_eq_true, if_false, Option.some.injEq] at h
      subst h
      refine ⟨p1, ?_⟩
      rcases p2 with p2 | p2
      · exact Or.inl p2
      · exact Or.inr (by rw [p2.2.1, p2.1])

/-- With more fuel than frames remaining, the retry loop ends. -/
theorem retry_terminates (framedrop : Int) (now : Nat → Nat → ℚ) (fuel : Nat) :
    ∀ (k : Nat) (s : PlayState), 0 ≤ frame_queue_nb_remaining s.pictq →
      (frame_queue_nb_remaining s.pictq).toNat < fuel →
      ∃ s1, video_refresh_retry framedrop now fuel k s = some s1 := by
  induction fuel with
  | zero => intro k s _ h; exact absurd h (Nat.not_lt_zero _)
  | succ n ih =>
    intro k s h0 hlt
    obtain ⟨-, -, p3⟩ := pass_fields framedrop (now k) s
    simp only [video_refresh_retry]
    by_cases hr : (video_refresh_pass framedrop (now k) s).1 = true
    · simp only [hr, if_true]
      obtain ⟨hne, hq⟩ := p3 hr
      have hnb : frame_queue_nb_remaining (video_refresh_pass framedrop (now k) s).2.pictq
          = frame_queue_nb_remaining s.pictq - 1 := by
        rw [hq, nb_remaining_next]
      apply ih (k + 1)
      · rw [hnb]; omega
      · rw [hnb]; omega
    · simp only [hr, Bool.false_eq_true, if_false]
      exact ⟨_, rfl⟩

/-! ## Decoder: lemmas -/

/-- A fetch pass of a decoder with no pending packet on a non-aborted queue
whose oldest entry is `e`: the entry is taken, its serial adopted, the backend
flushed and the decoder reset if that serial is new, and then the serial is
compared with the queue's. -/
theorem fetch_pass_get (env : DecEnv) (s : DecState) (e : MyAVPacketList)
    (rest : List MyAVPacketList) (hp : s.d.packet_pending = 0) (ha : s.q.abort_request = 0)
    (hq : s.q.pkt_list = e :: rest) :
    decoder_fetch_pass env s
      = decoder_fetch_check
          (if s.d.pkt_serial ≠ e.serial then
             { s with
                 q := { s.q with
                          pkt_list := rest
                          nb_packets := s.q.nb_packets - 1
                          size := size_sub s.q.size e.pkt.size env.esz
                          duration := s.q.duration - e.pkt.duration }
                 log := s.log ++ [BackendCall.flush_buffers]
                 d := { s.d with
                          pkt := e.pkt
                          pkt_serial := e.serial
                          finished := 0
                          next_pts := s.d.start_pts
                          next_pts_tb := s.d.start_pts_tb } }
           else
             { s with
                 q := { s.q with
                          pkt_list := rest
                          nb_packets := s.q.nb_packets - 1
                          size := size_sub s.q.size e.pkt.size env.esz
                          duration := s.q.duration - e.pkt.duration }
                 d := { s.d with pkt := e.pkt, pkt_serial := e.serial } }) := by
  simp only [decoder_fetch_pass, hp, ne_eq, not_true_eq_false, if_false, packet_queue_get, ha,
    hq, Option.map_some', Option.getD_some]
  norm_num

/-- `LogExt` is reflexive. -/
theorem LogExt_refl (s : DecState) : LogExt s s :=
  ⟨[], by simp⟩

/-- `LogExt` is transitive. -/
theorem LogExt_trans (a b c : DecState) (h1 : LogExt a b) (h2 : LogExt b c) : LogExt a c := by
  obtain ⟨r1, h1⟩ := h1
  obtain ⟨r2, h2⟩ := h2
  exact ⟨r1 ++ r2, by rw [h2, h1, List.append_assoc]⟩

/-- A receive pass only appends to the call history and leaves the held
packet, the pending flag, the adopted serial and the queue alone. -/
theorem receive_pass_fields (env : DecEnv) (s : DecState) :
    LogExt s (decoder_receive_pass env s).state
      ∧ (decoder_receive_pass env s).state.d.pkt = s.d.pkt
      ∧ (decoder_receive_pass env s).state.d.packet_pending = s.d.packet_pending
      ∧ (decoder_receive_pass env s).state.d.pkt_serial = s.d.pkt_serial
      ∧ (decoder_receive_pass env s).state.q = s.q := by
  have hv : LogExt s (decoder_receive_video env s)
      ∧ (decoder_receive_video env s).d = s.d ∧ (decoder_receive_video env s).q = s.q :=
    ⟨⟨[BackendCall.receive_frame], rfl⟩, rfl, rfl⟩
  have hau : LogExt s (decoder_receive_audio env s)
      ∧ (decoder_receive_audio env s).d.pkt = s.d.pkt
      ∧ (decoder_receive_audio env s).d.packet_pending = s.d.packet_pending
      ∧ (decoder_receive_audio env s).d.pkt_serial = s.d.pkt_serial
      ∧ (decoder_receive_audio env s).q = s.q := by
    unfold decoder_receive_audio
    dsimp only
    split_ifs <;> exact ⟨⟨[BackendCall.receive_frame], rfl⟩, rfl, rfl, rfl, rfl⟩
  have key : ∀ s1 : DecState, LogExt s s1 → s1.d.pkt = s.d.pkt →
      s1.d.packet_pending = s.d.packet_pending → s1.d.pkt_serial = s.d.pkt_serial →
      s1.q = s.q →
      LogExt s (if s1.ret = AVERROR_EOF then
          DecOut.returned 0
            { s1 with
                d := { s1.d with finished := s1.d.pkt_serial }
                log := s1.log ++ [BackendCall.flush_buffers] }
        else if s1.ret ≥ 0 then DecOut.returned 1 s1
        else if s1.ret ≠ AVERROR_EAGAIN then DecOut.again s1
        else DecOut.next s1).state
      ∧ (if s1.ret = AVERROR_EOF then
          DecOut.returned 0
            { s1 with
                d := { s1.d with finished := s1.d.pkt_serial }
                log := s1.log ++ [BackendCall.flush_buffers] }
        else if s1.ret ≥ 0 then DecOut.returned 1 s1
        else if s1.ret ≠ AVERROR_EAGAIN then DecOut.again s1
        else DecOut.next s1).state.d.pkt = s.d.pkt
      ∧ (if s1.ret = AVERROR_EOF then
          DecOut.returned 0
            { s1 with
                d := { s1.d with finished := s1.d.pkt_serial }
                log := s1.log ++ [BackendCall.flush_buffers] }
        else if s1.ret ≥ 0 then DecOut.returned 1 s1
        else if s1.ret ≠ AVERROR_EAGAIN then DecOut.again s1
        else DecOut.next s1).state.d.packet_pending = s.d.packet_pending
      ∧ (if s1.ret = AVERROR_EOF then
          DecOut.returned 0
            { s1 with
                d := { s1.d with finished := s1.d.pkt_serial }
                log := s1.log ++ [BackendCall.flush_buffers] }
        else if s1.ret ≥ 0 then DecOut.returned 1 s1
        else if s1.ret ≠ AVERROR_EAGAIN then DecOut.again s1
        else DecOut.next s1).state.d.pkt_serial = s.d.pkt_serial
      ∧ (if s1.ret = AVERROR_EOF then
          DecOut.returned 0
            { s1 with
                d := { s1.d with finished := s1.d.pkt_serial }
                log := s1.log ++ [BackendCall.flush_buffers] }
        else if s1.ret ≥ 0 then DecOut.returned 1 s1
        else if s1.ret ≠ AVERROR_EAGAIN then DecOut.again s1
        else DecOut.next s1).state.q = s.q := by
    intro s1 hl h1 h2 h3 h4
    split_ifs
    · refine ⟨LogExt_trans s s1 _ hl ⟨[BackendCall.flush_buffers], rfl⟩, h1, h2, h3, h4⟩
    · exact ⟨hl, h1, h2, h3, h4⟩
    · exact ⟨hl, h1, h2, h3, h4⟩
    · exact ⟨hl, h1, h2, h3, h4⟩
  unfold decoder_receive_pass
  by_cases ha : s.q.abort_request ≠ 0
  · rw [if_pos ha]
    exact ⟨LogExt_refl s, rfl, rfl, rfl, rfl⟩
  · rw [if_neg ha]
    dsimp only
    by_cases hvid : env.codec_type = AVMEDIA_TYPE_VIDEO
    · rw [if_pos hvid]
      exact key _ hv.1 (by rw [hv.2.1]) (by rw [hv.2.1]) (by rw [hv.2.1]) hv.2.2
    · rw [if_neg hvid]
      by_cases haud : env.codec_type = AVMEDIA_TYPE_AUDIO
      · rw [if_pos haud]
        exact key _ hau.1 hau.2.1 hau.2.2.1 hau.2.2.2.1 hau.2.2.2.2
      · rw [if_neg haud]
        exact key s (LogExt_refl s) rfl rfl rfl rfl

/-- The receive loop only appends to the call history and leaves the held
packet, the pending flag, the adopted serial and the queue alone. -/
theorem receive_fields (env : DecEnv) (fuel : Nat) :
    ∀ s : DecState,
      LogExt s (decoder_receive env fuel s).state
        ∧ (decoder_receive env fuel s).state.d.pkt = s.d.pkt
        ∧ (decoder_receive env fuel s).state.d.packet_pending = s.d.packet_pending
        ∧ (decoder_receive env fuel s).state.d.pkt_serial = s.d.pkt_serial
        ∧ (decoder_receive env fuel s).state.q = s.q := by
  induction fuel with
  | zero => intro s; exact ⟨LogExt_refl s, rfl, rfl, rfl, rfl⟩
  | succ n ih =>
    intro s
    have hp := receive_pass_fields env s
    simp only [decoder_receive]
    cases hr : decoder_receive_pass env s with
    | again s1 =>
      rw [hr] at hp
      obtain ⟨p1, p2, p3, p4, p5⟩ := hp
      obtain ⟨i1, i2, i3, i4, i5⟩ := ih s1
      exact ⟨LogExt_trans s s1 _ p1 i1, i2.trans p2, i3.trans p3, i4.trans p4, i5.trans p5⟩
    | returned r s1 => rw [hr] at hp; exact hp
    | waiting s1 => rw [hr] at hp; exact hp
    | next s1 => rw [hr] at hp; exact hp
    | fuel s1 => rw [hr] at hp; exact hp

/-- The serial comparison that ends a fetch pass leaves the call history
alone. -/
theorem fetch_check_log (s : DecState) : (decoder_fetch_check s).state.log = s.log := by
  unfold decoder_fetch_check
  split_ifs <;> rfl

/-- A fetch pass only appends to the call history. -/
theorem fetch_pass_log (env : DecEnv) (s : DecState) :
    LogExt s (decoder_fetch_pass env s).state := by
  unfold decoder_fetch_pass
  by_cases hp : s.d.packet_pending ≠ 0
  · rw [if_pos hp]
    exact ⟨[], by rw [fetch_check_log]; simp⟩
  · rw [if_neg hp]
    cases hg : packet_queue_get env.esz s.q s.d.pkt 1 (some s.d.pkt_serial) with
    | none => exact LogExt_refl s
    | some r =>
      dsimp only
      split_ifs
      · exact LogExt_refl s
      · exact ⟨[BackendCall.flush_buffers], by rw [fetch_check_log]⟩
      · exact ⟨[], by rw [fetch_check_log]; simp⟩

/-- The fetch loop only appends to the call history. -/
theorem fetch_log (env : DecEnv) (fuel : Nat) :
    ∀ s : DecState, LogExt s (decoder_fetch env fuel s).state := by
  induction fuel with
  | zero => intro s; exact LogExt_refl s
  | succ n ih =>
    intro s
    have hp := fetch_pass_log env s
    simp only [decoder_fetch]
    cases hr : decoder_fetch_pass env s with
    | again s1 =>
      rw [hr] at hp
      exact LogExt_trans s s1 _ hp (ih s1)
    | returned r s1 => rw [hr] at hp; exact hp
    | waiting s1 => rw [hr] at hp; exact hp
    | next s1 => rw [hr] at hp; exact hp
    | fuel s1 => rw [hr] at hp; exact hp

/-- Attaching the position twice is attaching it once. -/
theorem attach_pos_idem (pkt : AVPacket) :
    decoder_attach_pos (decoder_attach_pos pkt) = decoder_attach_pos pkt := by
  unfold decoder_attach_pos
  by_cases h : pkt.buf = true ∧ pkt.opaque_ref = none
  · simp [h]
  · simp [h]

/-- A packet with its position attached needs no further allocation. -/
theorem attach_pos_done (pkt : AVPacket) :
    ¬ ((decoder_attach_pos pkt).buf = true ∧ (decoder_attach_pos pkt).opaque_ref = none) := by
  unfold decoder_attach_pos
  by_cases h : pkt.buf = true ∧ pkt.opaque_ref = none
  · simp [h]
  · simp [h]

/-- The send step of an audio or video decoder whose allocation succeeds (or
is not needed): the packet, with its position attached, is offered to the
backend; on `AVERROR(EAGAIN)` it is kept and `packet_pending` set, otherwise it
is unreferenced.  The queue and the adopted serial are left alone. -/
theorem send_av (env : DecEnv) (s : DecState) (hav : env.codec_type ≠ AVMEDIA_TYPE_SUBTITLE)
    (halloc : ¬ (s.d.pkt.buf = true ∧ s.d.pkt.opaque_ref = none
                  ∧ env.alloc_ok s.log = false)) :
    ∃ s1 : DecState,
      decoder_send env s = DecOut.next s1
        ∧ s1.log = s.log ++ [BackendCall.send_packet (decoder_attach_pos s.d.pkt)]
        ∧ s1.q = s.q
        ∧ s1.d.pkt_serial = s.d.pkt_serial
        ∧ ((env.backend (s.log ++ [BackendCall.send_packet (decoder_attach_pos s.d.pkt)])).ret
              = AVERROR_EAGAIN →
            s1.d.pkt = decoder_attach_pos s.d.pkt ∧ s1.d.packet_pending = 1)
        ∧ ((env.backend (s.log ++ [BackendCall.send_packet (decoder_attach_pos s.d.pkt)])).ret
              ≠ AVERROR_EAGAIN →
            s1.d.pkt = av_packet_unref (decoder_attach_pos s.d.pkt)
              ∧ s1.d.packet_pending = s.d.packet_pending) := by
  unfold decoder_send
  rw [if_neg hav, if_neg halloc]
  dsimp only
  by_cases hb : (env.backend (s.log ++ [BackendCall.send_packet (decoder_attach_pos s.d.pkt)])).ret
      = AVERROR_EAGAIN
  · rw [if_pos hb]
    exact ⟨_, rfl, rfl, rfl, rfl, fun _ => ⟨rfl, rfl⟩, fun h => absurd hb h⟩
  · rw [if_neg hb]
    exact ⟨_, rfl, rfl, rfl, rfl, fun h => absurd h hb, fun _ => ⟨rfl, rfl⟩⟩

/-- The send step only appends to the call history. -/
theorem send_log (env : DecEnv) (s : DecState) : LogExt s (decoder_send env s).state := by
  unfold decoder_send
  by_cases hsub : env.codec_type = AVMEDIA_TYPE_SUBTITLE
  · rw [if_pos hsub]
    exact ⟨[BackendCall.decode_subtitle2 s.d.pkt], rfl⟩
  · rw [if_neg hsub]
    by_cases ha : s.d.pkt.buf = true ∧ s.d.pkt.opaque_ref = none ∧ env.alloc_ok s.log = false
    · rw [if_pos ha]
      exact LogExt_refl s
    · rw [if_neg ha]
      dsimp only
      by_cases hb : (env.backend
          (s.log ++ [BackendCall.send_packet (decoder_attach_pos s.d.pkt)])).ret = AVERROR_EAGAIN
      · rw [if_pos hb]
        exact ⟨[BackendCall.send_packet (decoder_attach_pos s.d.pkt)], rfl⟩
      · rw [if_neg hb]
        exact ⟨[BackendCall.send_packet (decoder_attach_pos s.d.pkt)], rfl⟩

/-- The loop of `decoder_decode_frame` only appends to the call history. -/
theorem loop_log (env : DecEnv) (fuel : Nat) :
    ∀ s : DecState, LogExt s (decoder_loop env fuel s).state := by
  induction fuel with
  | zero => intro s; exact LogExt_refl s
  | succ n ih =>
    intro s
    have ha : LogExt s (if s.q.serial = s.d.pkt_serial then decoder_receive env (n + 1) s
        else DecOut.next s).state := by
      split_ifs
      · exact (receive_fields env (n + 1) s).1
      · exact LogExt_refl s
    simp only [decoder_loop]
    cases h1 : (if s.q.serial = s.d.pkt_serial then decoder_receive env (n + 1) s
        else DecOut.next s) with
    | next s1 =>
      rw [h1] at ha
      have hf := fetch_log env (n + 1) s1
      dsimp only
      cases h2 : decoder_fetch env (n + 1) s1 with
      | next s2 =>
        rw [h2] at hf
        have hs := send_log env s2
        dsimp only
        cases h3 : decoder_send env s2 with
        | next s3 =>
          rw [h3] at hs
          dsimp only
          exact LogExt_trans s s1 _ ha (LogExt_trans s1 s2 _ hf (LogExt_trans s2 s3 _ hs (ih s3)))
        | returned r s3 =>
          rw [h3] at hs
          exact LogExt_trans s s1 _ ha (LogExt_trans s1 s2 _ hf hs)
        | waiting s3 =>
          rw [h3] at hs
          exact LogExt_trans s s1 _ ha (LogExt_trans s1 s2 _ hf hs)
        | again s3 =>
          rw [h3] at hs
          exact LogExt_trans s s1 _ ha (LogExt_trans s1 s2 _ hf hs)
        | fuel s3 =>
          rw [h3] at hs
          exact LogExt_trans s s1 _ ha (LogExt_trans s1 s2 _ hf hs)
      | returned r s2 => rw [h2] at hf; exact LogExt_trans s s1 _ ha hf
      | waiting s2 => rw [h2] at hf; exact LogExt_trans s s1 _ ha hf
      | again s2 => rw [h2] at hf; exact LogExt_trans s s1 _ ha hf
      | fuel s2 => rw [h2] at hf; exact LogExt_trans s s1 _ ha hf
    | returned r s1 => rw [h1] at ha; exact ha
    | waiting s1 => rw [h1] at ha; exact ha
    | again s1 => rw [h1] at ha; exact ha
    | fuel s1 => rw [h1] at ha; exact ha

/-- The queue of the seek scenario holds exactly the packet put after the
flush, stamped with the serial the flush produced. -/
theorem seek_queue_fields (esz : Int) (q0 : PacketQueue) (p : AVPacket) (wr : Int)
    (habort : q0.abort_request = 0) (hwr : 0 ≤ wr) :
    (seek_queue esz q0 p wr).pkt_list = [{ pkt := p, serial := q0.serial + 1 }]
      ∧ (seek_queue esz q0 p wr).serial = q0.serial + 1
      ∧ (seek_queue esz q0 p wr).abort_request = 0 := by
  have hw : ¬ wr < 0 := by omega
  simp [seek_queue, packet_queue_put, packet_queue_put_private, packet_queue_flush,
    av_fifo_write, habort, hw]

/-- The fetch loop of a decoder with no pending packet, on a non-aborted queue
whose oldest entry carries the queue's serial and not the decoder's: one pass
takes the entry, flushes the backend, adopts the serial and leaves the loop
with the packet held. -/
theorem fetch_seek_fresh (env : DecEnv) (fuel : Nat) (s : DecState) (e : MyAVPacketList)
    (rest : List MyAVPacketList) (hp : s.d.packet_pending = 0) (ha : s.q.abort_request = 0)
    (hq : s.q.pkt_list = e :: rest) (hne : s.d.pkt_serial ≠ e.serial)
    (hs : s.q.serial = e.serial) :
    ∃ s2 : DecState,
      decoder_fetch env (fuel + 1) s = DecOut.next s2
        ∧ s2.log = s.log ++ [BackendCall.flush_buffers]
        ∧ s2.d.pkt_serial = e.serial
        ∧ s2.d.pkt = e.pkt
        ∧ s2.d.finished = 0
        ∧ s2.q.serial = s.q.serial
        ∧ s2.q.pkt_list = rest := by
  have hpass := fetch_pass_get env s e rest hp ha hq
  rw [if_pos hne] at hpass
  refine ⟨{ s with
              q := { s.q with
                       pkt_list := rest
                       nb_packets := s.q.nb_packets - 1
                       size := size_sub s.q.size e.pkt.size env.esz
                       duration := s.q.duration - e.pkt.duration }
              log := s.log ++ [BackendCall.flush_buffers]
              d := { s.d with
                       pkt := e.pkt
                       pkt_serial := e.serial
                       finished := 0
                       next_pts := s.d.start_pts
                       next_pts_tb := s.d.start_pts_tb } },
    ?_, rfl, rfl, rfl, rfl, rfl, rfl⟩
  simp only [decoder_fetch]
  rw [hpass]
  simp only [decoder_fetch_check, hs, if_true]

/-- The fetch loop in the same situation, whether or not a packet was
pending: a pending packet of the old serial is unreferenced on the first pass,
and the next pass takes the entry. -/
theorem fetch_seek (env : DecEnv) (fuel : Nat) (s : DecState) (e : MyAVPacketList)
    (rest : List MyAVPacketList) (ha : s.q.abort_request = 0)
    (hq : s.q.pkt_list = e :: rest) (hne : s.d.pkt_serial ≠ e.serial)
    (hs : s.q.serial = e.serial) :
    ∃ s2 : DecState,
      decoder_fetch env (fuel + 2) s = DecOut.next s2
        ∧ s2.log = s.log ++ [BackendCall.flush_buffers]
        ∧ s2.d.pkt_serial = e.serial
        ∧ s2.d.pkt = e.pkt
        ∧ s2.d.finished = 0
        ∧ s2.q.serial = s.q.serial
        ∧ s2.q.pkt_list = rest := by
  by_cases hp : s.d.packet_pending = 0
  · exact fetch_seek_fresh env (fuel + 1) s e rest hp ha hq hne hs
  · have hne2 : ¬ s.q.serial = s.d.pkt_serial := fun h => hne (by rw [← h, hs])
    have hpass : decoder_fetch_pass env s
        = DecOut.again { s with d := { s.d with packet_pending := 0
                                                pkt := av_packet_unref s.d.pkt } } := by
      unfold decoder_fetch_pass
      rw [if_pos hp]
      unfold decoder_fetch_check
      rw [if_neg hne2]
    have hstep : decoder_fetch env (fuel + 2) s
        = decoder_fetch env (fuel + 1)
            { s with d := { s.d with packet_pending := 0
                                     pkt := av_packet_unref s.d.pkt } } := by
      simp only [decoder_fetch]
      rw [hpass]
    rw [hstep]
    exact fetch_seek_fresh env fuel _ e rest rfl ha hq hne hs

/-- The send step of a subtitle decoder: the packet goes to
`avcodec_decode_subtitle2` and is then unreferenced; the queue and the adopted
serial are left alone. -/
theorem send_sub (env : DecEnv) (s : DecState) (hsub : env.codec_type = AVMEDIA_TYPE_SUBTITLE) :
    ∃ s1 : DecState,
      decoder_send env s = DecOut.next s1
        ∧ s1.log = s.log ++ [BackendCall.decode_subtitle2 s.d.pkt]
        ∧ s1.q = s.q
        ∧ s1.d.pkt_serial = s.d.pkt_serial := by
  unfold decoder_send
  rw [if_pos hsub]
  exact ⟨_, rfl, rfl, rfl, rfl⟩

/-- The send step of an audio or video decoder whose packet needs a
`FrameData` buffer that cannot be allocated: the function returns
`AVERROR(ENOMEM)` and nothing changes. -/
theorem send_nomem (env : DecEnv) (s : DecState) (hav : env.codec_type ≠ AVMEDIA_TYPE_SUBTITLE)
    (hfail : s.d.pkt.buf = true ∧ s.d.pkt.opaque_ref = none ∧ env.alloc_ok s.log = false) :
    decoder_send env s = DecOut.returned AVERROR_ENOMEM s := by
  unfold decoder_send
  rw [if_neg hav, if_pos hfail]

/-- One round of the loop of `decoder_decode_frame` in the seek situation: the
receive step is skipped, the fetch loop ends holding the packet taken from the
queue, and the round goes on with the send step. -/
theorem loop_seek_round (env : DecEnv) (fuel : Nat) (s : DecState) (e : MyAVPacketList)
    (rest : List MyAVPacketList) (ha : s.q.abort_request = 0)
    (hq : s.q.pkt_list = e :: rest) (hne : s.d.pkt_serial ≠ e.serial)
    (hs : s.q.serial = e.serial) :
    ∃ s2 : DecState,
      decoder_fetch env (fuel + 2) s = DecOut.next s2
        ∧ s2.log = s.log ++ [BackendCall.flush_buffers]
        ∧ s2.d.pkt_serial = e.serial
        ∧ s2.d.pkt = e.pkt
        ∧ decoder_loop env (fuel + 2) s
            = (match decoder_send env s2 with
               | DecOut.next s3 => decoder_loop env (fuel + 1) s3
               | out => out) := by
  have hne2 : ¬ s.q.serial = s.d.pkt_serial := fun h => hne (by rw [← h, hs])
  obtain ⟨s2, hf, hlog2, hser2, hpkt2, -, -, -⟩ := fetch_seek env fuel s e rest ha hq hne hs
  refine ⟨s2, hf, hlog2, hser2, hpkt2, ?_⟩
  rw [decoder_loop]
  rw [if_neg hne2]
  dsimp only
  rw [hf]

/-- The fetch loop of a decoder with a pending packet whose serial is the
queue's: the flag is cleared and the loop is left on the first pass, with no
call of `packet_queue_get` and no call on the backend. -/
theorem fetch_pending (env : DecEnv) (fuel : Nat) (s : DecState)
    (hp : s.d.packet_pending ≠ 0) (hs : s.q.serial = s.d.pkt_serial) :
    decoder_fetch env (fuel + 1) s
      = DecOut.next { s with d := { s.d with packet_pending := 0 } } := by
  have hpass : decoder_fetch_pass env s
      = DecOut.next { s with d := { s.d with packet_pending := 0 } } := by
    unfold decoder_fetch_pass
    rw [if_pos hp]
    unfold decoder_fetch_check
    rw [if_pos hs]
  simp only [decoder_fetch]
  rw [hpass]

/-! ## PacketQueue: claims -/

/-- C1: along any sequence of `packet_queue_put` and `packet_queue_get` calls
(no flush), the packets handed back by the successful gets are, in order, the
first of the packets queued at the start followed by the successfully put
ones; on a queue that starts empty the k-th successful get hands back the k-th
successfully put packet.  This holds for every starting queue, in particular
for a started (non-aborted) one. -/
theorem packet_queue_fifo (esz : Int) (q : PacketQueue) (ops : List PQOp)
    (hpg : ∀ op ∈ ops, op.isPutGet = true) :
    gotPkts esz q ops
        = (q.pkts ++ putPkts esz q ops).take (gotPkts esz q ops).length
      ∧ (q.pkt_list = [] →
          gotPkts esz q ops = (putPkts esz q ops).take (gotPkts esz q ops).length
          ∧ ∀ k, k < (gotPkts esz q ops).length →
              (gotPkts esz q ops)[k]? = (putPkts esz q ops)[k]?) := by
  have key := gotPkts_append_pkts esz ops q hpg
  have h1 : gotPkts esz q ops
      = (q.pkts ++ putPkts esz q ops).take (gotPkts esz q ops).length := by
    rw [← key, List.take_left]
  refine ⟨h1, ?_⟩
  intro hq
  have hnil : q.pkts = [] := by simp [PacketQueue.pkts, hq]
  rw [hnil, List.nil_append] at h1
  refine ⟨h1, ?_⟩
  intro k hk
  conv_lhs => rw [h1]
  rw [List.getElem?_take]
  simp [hk]

/-- Witness for C1: on the started queue the sample sequence hands back
`pktA`, `pktB`, `pktC`, the packets it stored, in that order. -/
theorem packet_queue_fifo_witness :
    (∀ op ∈ opsPutGet, op.isPutGet = true)
      ∧ gotPkts 16 qStarted opsPutGet = [pktA, pktB, pktC]
      ∧ putPkts 16 qStarted opsPutGet = [pktA, pktB, pktC]
      ∧ gotPkts 16 qStarted opsPutGet
          = (qStarted.pkts ++ putPkts 16 qStarted opsPutGet).take
              (gotPkts 16 qStarted opsPutGet).length :=
  ⟨by decide, by decide, by decide,
    (packet_queue_fifo 16 qStarted opsPutGet (by decide)).1⟩

/-- C2: after `packet_queue_flush` the queue holds no packets, `nb_packets`,
`size` and `duration` are 0, the serial is the previous serial plus one (so
strictly greater) and `abort_request` is unchanged.  Consequently a serial
stamped before the flush differs from the serial after it: the stamp a put
takes in a state `q0` is `q0.serial`, and it differs from the serial after a
flush that follows any further calls; and every entry still queued in a state
reached from `packet_queue_init` differs from the serial after the flush. -/
theorem packet_queue_flush_spec (esz : Int) (q : PacketQueue) :
    (packet_queue_flush q).pkt_list = []
      ∧ (packet_queue_flush q).nb_packets = 0
      ∧ (packet_queue_flush q).size = 0
      ∧ (packet_queue_flush q).duration = 0
      ∧ (packet_queue_flush q).serial = q.serial + 1
      ∧ q.serial < (packet_queue_flush q).serial
      ∧ (packet_queue_flush q).abort_request = q.abort_request
      ∧ (∀ (q0 : PacketQueue) (pkt : AVPacket) (wr : Int) (ops : List PQOp),
          q = run esz (packet_queue_put_private esz q0 pkt wr).2 ops →
            ({ pkt := pkt, serial := q0.serial } : MyAVPacketList).serial
              ≠ (packet_queue_flush q).serial)
      ∧ (∀ (fifo_ok mutex_ok cond_ok : Bool) (ops : List PQOp),
          q = run esz (packet_queue_init fifo_ok mutex_ok cond_ok).2 ops →
            ∀ e ∈ q.pkt_list, e.serial ≠ (packet_queue_flush q).serial) := by
  refine ⟨rfl, rfl, rfl, rfl, rfl, ?_, rfl, ?_, ?_⟩
  · simp [packet_queue_flush]
  · intro q0 pkt wr ops hq
    have h1 : q0.serial ≤ (packet_queue_put_private esz q0 pkt wr).2.serial := by
      have := step_serial_le esz q0 (.put pkt true wr)
      simpa [PQOp.step, packet_queue_put] using this
    have h2 := run_serial_le esz ops (packet_queue_put_private esz q0 pkt wr).2
    rw [← hq] at h2
    simp only [packet_queue_flush]
    omega
  · intro fifo_ok mutex_ok cond_ok ops hq e he
    have h1 : Stamped q := by
      rw [hq]
      exact run_stamped esz ops _ (init_stamped fifo_ok mutex_ok cond_ok)
    have := h1 e he
    simp only [packet_queue_flush]
    omega

/-- C4, counterexample: the queue `qBig` is reached from `packet_queue_init` by
a start and two puts of a `2 ^ 30`-byte packet; its `size` is -2147483616.  A
get removes the oldest entry and leaves `size = 1073741840`, which is not the
old `size` lowered by the packet size plus the entry size (-3221225456). -/
theorem packet_queue_get_size_counterexample :
    qBig.abort_request = 0
      ∧ qBig.pkt_list = [{ pkt := pktBig, serial := 1 }, { pkt := pktBig, serial := 1 }]
      ∧ qBig.size = -2147483616
      ∧ (packet_queue_get 16 qBig pktBlank 1 (some 0)).map (fun r => (r.ret, r.q.size))
          = some (1, 1073741840)
      ∧ qBig.size - (pktBig.size + 16) = -3221225456
      ∧ (packet_queue_get 16 qBig pktBlank 1 (some 0)).map (fun r => r.q.size)
          ≠ some (qBig.size - (pktBig.size + 16)) := by
  refine ⟨by decide, by decide, by decide, by decide, by decide, by decide⟩

/-- C4, amended: a `packet_queue_get` on a non-aborted queue whose oldest entry
is `e` returns 1, removes `e`, lowers `nb_packets` by 1 and `duration` by the
packet duration, hands back `e.pkt`, and stores in `*serial` the serial `e`
was stamped with.  `size` becomes the old `size` minus the packet size plus
the entry size, converted to `int`: it differs from that difference by a
multiple of `2 ^ 32` and equals it whenever the difference fits an `int`.  The
stamp is the queue serial at the time of the put, not the current one: a
packet put on an empty queue at serial `s`, followed by `packet_queue_start`
(serial `s + 1`), is reported with serial `s`; with put at serial 1 and start
making the serial 2, the get reports 1. -/
theorem packet_queue_get_success (esz : Int) (q : PacketQueue) (pkt : AVPacket)
    (block : Int) (serial : Option Int) (e : MyAVPacketList) (rest : List MyAVPacketList)
    (hstart : q.abort_request = 0) (hhead : q.pkt_list = e :: rest) :
    (∃ r, packet_queue_get esz q pkt block serial = some r
        ∧ r.ret = 1
        ∧ r.q.pkt_list = rest
        ∧ r.q.nb_packets = q.nb_packets - 1
        ∧ r.q.size = int_of_size_t (q.size - (e.pkt.size + esz))
        ∧ (r.q.size - (q.size - (e.pkt.size + esz))) % 2 ^ 32 = 0
        ∧ (-2 ^ 31 ≤ q.size - (e.pkt.size + esz) → q.size - (e.pkt.size + esz) < 2 ^ 31 →
            r.q.size = q.size - (e.pkt.size + esz))
        ∧ r.q.duration = q.duration - e.pkt.duration
        ∧ r.q.serial = q.serial
        ∧ r.q.abort_request = q.abort_request
        ∧ r.pkt = e.pkt
        ∧ r.serial = serial.map (fun _ => e.serial))
      ∧ (∀ (q0 : PacketQueue) (p : AVPacket) (wr v : Int),
          q0.abort_request = 0 → q0.pkt_list = [] → 0 ≤ wr →
            (packet_queue_start (packet_queue_put_private esz q0 p wr).2).serial
                = q0.serial + 1
              ∧ (packet_queue_get esz
                    (packet_queue_start (packet_queue_put_private esz q0 p wr).2)
                    pkt block (some v)).map (fun r => (r.ret, r.pkt, r.serial))
                  = some (1, p, some q0.serial))
      ∧ qStarted.serial = 1
      ∧ (packet_queue_start (packet_queue_put 16 qStarted pktA true 0).2).serial = 2
      ∧ (packet_queue_get 16 (packet_queue_start (packet_queue_put 16 qStarted pktA true 0).2)
            pktBlank 1 (some 0)).map (fun r => (r.ret, r.pkt, r.serial))
          = some (1, pktA, some 1) := by
  refine ⟨?_, ?_, by decide, by decide, by decide⟩
  · refine ⟨{ ret := 1
              q := { q with
                       pkt_list := rest
                       nb_packets := q.nb_packets - 1
                       size := size_sub q.size e.pkt.size esz
                       duration := q.duration - e.pkt.duration }
              pkt := e.pkt
              serial := serial.map (fun _ => e.serial) },
      ?_, rfl, rfl, rfl, ?_, ?_, ?_, rfl, rfl, rfl, rfl, rfl⟩
    · simp [packet_queue_get, hstart, hhead]
    · exact size_sub_eq q.size e.pkt.size esz
    · show (size_sub q.size e.pkt.size esz - (q.size - (e.pkt.size + esz))) % 2 ^ 32 = 0
      rw [size_sub_eq]
      exact int_of_size_t_congr _
    · intro h1 h2
      show size_sub q.size e.pkt.size esz = q.size - (e.pkt.size + esz)
      rw [size_sub_eq]
      exact int_of_size_t_id _ h1 h2
  · intro q0 p wr v h0 hl hw
    have hw2 : ¬ wr < 0 := not_lt.mpr hw
    simp [packet_queue_get, packet_queue_start, packet_queue_put_private, av_fifo_write,
      h0, hl, hw2]

/-- Witness for C4 (amended): the get on the queue holding `pktA` (stamped 1)
and `pktB` (stamped 2), whose serial is 2. -/
theorem packet_queue_get_success_witness :
    ∃ r, packet_queue_get 16
          { pkt_list := [{ pkt := pktA, serial := 1 }, { pkt := pktB, serial := 2 }]
            nb_packets := 2, size := 382, duration := 80, abort_request := 0, serial := 2 }
          pktBlank 1 (some 0) = some r
      ∧ r.ret = 1
      ∧ r.q.pkt_list = [{ pkt := pktB, serial := 2 }]
      ∧ r.q.nb_packets = 2 - 1
      ∧ r.q.size = 382 - (pktA.size + 16)
      ∧ r.q.duration = 80 - pktA.duration
      ∧ r.q.serial = 2
      ∧ r.q.abort_request = 0
      ∧ r.pkt = pktA
      ∧ r.serial = (some (0 : Int)).map (fun _ => (1 : Int)) := by
  obtain ⟨r, h1, h2, h3, h4, -, -, h7, h8, h9, h10, h11, h12⟩ :=
    (packet_queue_get_success 16
      { pkt_list := [{ pkt := pktA, serial := 1 }, { pkt := pktB, serial := 2 }]
        nb_packets := 2, size := 382, duration := 80, abort_request := 0, serial := 2 }
      pktBlank 1 (some 0) { pkt := pktA, serial := 1 } [{ pkt := pktB, serial := 2 }]
      rfl rfl).1
  exact ⟨r, h1, h2, h3, h4, h7 (by decide) (by decide), h8, h9, h10, h11, h12⟩

/-- C5: `packet_queue_get` returns a negative value exactly when
`abort_request` is set, whatever is queued, and then leaves the queue and the
out-parameters as they were; when not aborted and an entry is queued it
returns a positive value; when not aborted, empty and `block == 0` it returns
0 and leaves the queue unchanged; when not aborted, empty and `block != 0` it
does not return in that state. -/
theorem packet_queue_get_result (esz : Int) (q : PacketQueue) (pkt : AVPacket)
    (block : Int) (serial : Option Int) :
    ((∃ r, packet_queue_get esz q pkt block serial = some r ∧ r.ret < 0)
        ↔ q.abort_request ≠ 0)
      ∧ (q.abort_request ≠ 0 →
          packet_queue_get esz q pkt block serial
            = some { ret := -1, q := q, pkt := pkt, serial := serial })
      ∧ (q.abort_request = 0 → q.pkt_list ≠ [] →
          ∃ r, packet_queue_get esz q pkt block serial = some r ∧ 0 < r.ret)
      ∧ (q.abort_request = 0 → q.pkt_list = [] → block = 0 →
          packet_queue_get esz q pkt block serial
            = some { ret := 0, q := q, pkt := pkt, serial := serial })
      ∧ (q.abort_request = 0 → q.pkt_list = [] → block ≠ 0 →
          packet_queue_get esz q pkt block serial = none) := by
  refine ⟨?_, ?_, ?_, ?_, ?_⟩
  · constructor
    · rintro ⟨r, hr, hneg⟩ ha
      cases hl : q.pkt_list with
      | nil =>
        by_cases hb : block = 0
        · simp [packet_queue_get, ha, hl, hb] at hr
          rw [← hr] at hneg
          simp at hneg
        · simp [packet_queue_get, ha, hl, hb] at hr
      | cons e rest =>
        simp [packet_queue_get, ha, hl] at hr
        rw [← hr] at hneg
        simp at hneg
    · intro ha
      refine ⟨{ ret := -1, q := q, pkt := pkt, serial := serial }, ?_, by simp⟩
      simp [packet_queue_get, ha]
  · intro ha
    simp [packet_queue_get, ha]
  · intro ha hl
    cases hq : q.pkt_list with
    | nil => exact absurd hq hl
    | cons e rest =>
      have h1 : (packet_queue_get esz q pkt block serial).isSome = true := by
        simp [packet_queue_get, ha, hq]
      obtain ⟨r, hr⟩ := Option.isSome_iff_exists.mp h1
      refine ⟨r, hr, ?_⟩
      simp [packet_queue_get, ha, hq] at hr
      rw [← hr]
      simp
  · intro ha hl hb
    simp [packet_queue_get, ha, hl, hb]
  · intro ha hl hb
    simp [packet_queue_get, ha, hl, hb]

/-- C6: `packet_queue_put_private` returns -1 whenever `abort_request` is set
and then leaves the whole queue (entries, `nb_packets`, `size`, `duration`,
`serial`) as it was; when `abort_request` is clear and the FIFO write succeeds
it returns 0 and appends one entry stamped with the current serial.  A
successful `packet_queue_init` sets `abort_request = 1`, so on a fresh queue
every put is rejected, and stores nothing, until `packet_queue_start` is
called; the first put after the start succeeds. -/
theorem packet_queue_put_private_spec (esz : Int) (q : PacketQueue) (pkt : AVPacket)
    (wr : Int) :
    (q.abort_request ≠ 0 → packet_queue_put_private esz q pkt wr = (-1, q))
      ∧ (q.abort_request = 0 → 0 ≤ wr →
          packet_queue_put_private esz q pkt wr
            = (0, { q with
                      pkt_list := q.pkt_list ++ [{ pkt := pkt, serial := q.serial }]
                      nb_packets := q.nb_packets + 1
                      size := size_add q.size pkt.size esz
                      duration := q.duration + pkt.duration }))
      ∧ packet_queue_init true true true = (0, { PacketQueue.zero with abort_request := 1 })
      ∧ (∀ (ops : List PQOp) (alloc_ok : Bool), (∀ op ∈ ops, op ≠ PQOp.start) →
          packet_queue_put_private esz (run esz (packet_queue_init true true true).2 ops) pkt wr
              = (-1, run esz (packet_queue_init true true true).2 ops)
            ∧ packet_queue_put esz (run esz (packet_queue_init true true true).2 ops)
                  pkt alloc_ok wr
              = (-1, run esz (packet_queue_init true true true).2 ops)
            ∧ (run esz (packet_queue_init true true true).2 ops).pkt_list = [])
      ∧ (0 ≤ wr →
          (packet_queue_put_private esz
              (packet_queue_start (packet_queue_init true true true).2) pkt wr).1 = 0) := by
  have hfail : ∀ q1 : PacketQueue, q1.abort_request ≠ 0 →
      packet_queue_put_private esz q1 pkt wr = (-1, q1) := by
    intro q1 ha
    simp [packet_queue_put_private, ha]
  refine ⟨hfail q, ?_, by simp [packet_queue_init], ?_, ?_⟩
  · intro ha hw
    have hw2 : ¬ wr < 0 := not_lt.mpr hw
    simp [packet_queue_put_private, av_fifo_write, ha, hw2]
  · intro ops alloc_ok hs
    have h1 : (packet_queue_init true true true).2.abort_request ≠ 0 := by
      simp [packet_queue_init]
    have h2 := run_abort_request esz ops _ h1 hs
    have h3 := hfail _ h2
    refine ⟨h3, ?_, ?_⟩
    · cases alloc_ok
      · simp [packet_queue_put]
      · simpa [packet_queue_put] using h3
    · have key : ∀ (l : List PQOp) (q1 : PacketQueue), q1.abort_request ≠ 0 →
          q1.pkt_list = [] → (∀ op ∈ l, op ≠ PQOp.start) → (run esz q1 l).pkt_list = [] := by
        intro l
        induction l with
        | nil => intro q1 _ he _; simpa [run] using he
        | cons op l ih =>
          intro q1 ha he hl
          have hop : op ≠ PQOp.start := hl op (List.mem_cons_self _ _)
          have hrest : ∀ o ∈ l, o ≠ PQOp.start := fun o ho => hl o (List.mem_cons_of_mem _ ho)
          have ha2 : (op.step esz q1).abort_request ≠ 0 :=
            run_abort_request esz [op] q1 ha (by simpa using hop)
          refine ih (op.step esz q1) ha2 ?_ hrest
          cases op with
          | put p a w =>
            cases a <;> simp [PQOp.step, packet_queue_put, packet_queue_put_private, ha, he]
          | get p b sr => simp [PQOp.step, packet_queue_get, ha, he]
          | flush => simp [PQOp.step, packet_queue_flush]
          | abort => simp [PQOp.step, packet_queue_abort, he]
          | start => exact absurd rfl hop
      exact key ops _ h1 (by simp [packet_queue_init, PacketQueue.zero]) hs
  · intro hw
    have hw2 : ¬ wr < 0 := not_lt.mpr hw
    simp [packet_queue_put_private, packet_queue_start, packet_queue_init, av_fifo_write, hw2]

/-- C7: in every state reached from `packet_queue_init` by put, get, flush,
abort and start, the next call never lowers the serial: flush and start raise
it by exactly 1, put, get and abort keep it; no later sequence of calls lowers
it; and every queued entry carries a serial at most the current serial. -/
theorem packet_queue_serial_monotone (esz : Int) (fifo_ok mutex_ok cond_ok : Bool)
    (ops : List PQOp) (op : PQOp) :
    (run esz (packet_queue_init fifo_ok mutex_ok cond_ok).2 ops).serial
        ≤ (op.step esz (run esz (packet_queue_init fifo_ok mutex_ok cond_ok).2 ops)).serial
      ∧ (op.step esz (run esz (packet_queue_init fifo_ok mutex_ok cond_ok).2 ops)).serial
          = (match op with
             | .flush => (run esz (packet_queue_init fifo_ok mutex_ok cond_ok).2 ops).serial + 1
             | .start => (run esz (packet_queue_init fifo_ok mutex_ok cond_ok).2 ops).serial + 1
             | .put _ _ _ => (run esz (packet_queue_init fifo_ok mutex_ok cond_ok).2 ops).serial
             | .get _ _ _ => (run esz (packet_queue_init fifo_ok mutex_ok cond_ok).2 ops).serial
             | .abort => (run esz (packet_queue_init fifo_ok mutex_ok cond_ok).2 ops).serial)
      ∧ (∀ more : List PQOp,
          (run esz (packet_queue_init fifo_ok mutex_ok cond_ok).2 ops).serial
            ≤ (run esz (run esz (packet_queue_init fifo_ok mutex_ok cond_ok).2 ops) more).serial)
      ∧ (∀ e ∈ (run esz (packet_queue_init fifo_ok mutex_ok cond_ok).2 ops).pkt_list,
          e.serial ≤ (run esz (packet_queue_init fifo_ok mutex_ok cond_ok).2 ops).serial) := by
  refine ⟨step_serial_le esz _ op, ?_, fun more => run_serial_le esz more _, ?_⟩
  · rw [step_serial]
    cases op <;> rfl
  · exact run_stamped esz ops _ (init_stamped fifo_ok mutex_ok cond_ok)

/-! ## FrameQueue: claims -/

/-- C8: in every state reached from `frame_queue_init` (capacity argument at
least 1) by steps in which the producer fills and pushes only a slot that
`frame_queue_peek_writable` returned and `frame_queue_next` runs only when
`frame_queue_nb_remaining > 0`, the count satisfies `0 <= size <= max_size`. -/
theorem frame_queue_size_bounds (mutex_ok cond_ok : Bool) (alloc_ok : Nat → Bool)
    (max_size keep_last : Int) (ops : List FQOp) (s : FQState)
    (hmax : 1 ≤ max_size)
    (hrun : runFQ { f := (frame_queue_init mutex_ok cond_ok alloc_ok max_size keep_last).2
                    granted := false } ops = some s) :
    0 ≤ s.f.size ∧ s.f.size ≤ s.f.max_size := by
  have h0 := init_FQInv mutex_ok cond_ok alloc_ok max_size keep_last (by omega)
  obtain ⟨h1, h2, h3, -⟩ := runFQ_FQInv ops _ s h0 hrun
  exact ⟨le_trans h1 h2, h3⟩

/-- Witness for C8: the sample steps on the capacity-3 queue end in `fqEnd`,
with one frame counted. -/
theorem frame_queue_size_bounds_witness :
    runFQ { f := (frame_queue_init true true (fun _ => true) 3 1).2, granted := false } opsFQ
        = some fqEnd
      ∧ fqEnd.f.size = 1 ∧ fqEnd.f.max_size = 3
      ∧ 0 ≤ fqEnd.f.size ∧ fqEnd.f.size ≤ fqEnd.f.max_size :=
  ⟨by decide, by decide, by decide,
    frame_queue_size_bounds true true (fun _ => true) 3 1 opsFQ fqEnd (by decide) (by decide)⟩

/-- C9: on a queue with `keep_last = 1`, `rindex_shown = 0` and `size >= 1`
whose slot at `rindex` holds `F`, the first `frame_queue_next` only sets
`rindex_shown` to 1: `rindex`, `windex`, `size` and every slot are unchanged,
so `frame_queue_peek_last` still returns the slot holding `F`.  The second
`frame_queue_next` releases `F` (the slot then holds the unreferenced `F`),
advances `rindex` with wrap-around at `max_size` and lowers `size` by 1. -/
theorem frame_queue_next_keep_last (f : FrameQueue) (F : Frame)
    (hk : f.keep_last = 1) (hs : f.rindex_shown = 0) (hsz : 1 ≤ f.size)
    (hF : f.slot f.rindex = some F) :
    frame_queue_next f = { f with rindex_shown := 1 }
      ∧ (frame_queue_next f).rindex = f.rindex
      ∧ (frame_queue_next f).windex = f.windex
      ∧ (frame_queue_next f).size = f.size
      ∧ (frame_queue_next f).queue = f.queue
      ∧ frame_queue_peek_last (frame_queue_next f) = frame_queue_peek_last f
      ∧ (frame_queue_next f).slot (frame_queue_peek_last (frame_queue_next f)) = some F
      ∧ (frame_queue_next (frame_queue_next f)).slot f.rindex
          = some (frame_queue_unref_item F)
      ∧ (frame_queue_next (frame_queue_next f)).rindex
          = (if f.rindex + 1 = f.max_size then 0 else f.rindex + 1)
      ∧ (frame_queue_next (frame_queue_next f)).size = f.size - 1
      ∧ 0 ≤ (frame_queue_next (frame_queue_next f)).size
      ∧ (frame_queue_next (frame_queue_next f)).windex = f.windex := by
  have h1 : frame_queue_next f = { f with rindex_shown := 1 } := by
    simp [frame_queue_next, hk, hs]
  have hF1 : ({ f with rindex_shown := 1 } : FrameQueue).slot f.rindex = some F := by
    simpa [FrameQueue.slot] using hF
  have h2 : frame_queue_next { f with rindex_shown := 1 }
      = { ({ f with rindex_shown := 1 } : FrameQueue).setSlot f.rindex
            (frame_queue_unref_item F) with
          rindex := (if f.rindex + 1 = f.max_size then 0 else f.rindex + 1)
          size := f.size - 1 } := by
    obtain ⟨e1, -, e3, e4, -, -⟩ :=
      setSlot_fields { f with rindex_shown := 1 } f.rindex (frame_queue_unref_item F)
    simp only [frame_queue_next, hF1]
    simp [e1, e3, e4]
  have h3 := slot_setSlot_self { f with rindex_shown := 1 } f.rindex F
    (frame_queue_unref_item F) hF1
  obtain ⟨-, e2, -, -, -, -⟩ :=
    setSlot_fields { f with rindex_shown := 1 } f.rindex (frame_queue_unref_item F)
  rw [h1, h2]
  refine ⟨rfl, rfl, rfl, rfl, rfl, rfl, hF1, ?_, rfl, rfl, ?_, ?_⟩
  · simpa [FrameQueue.slot] using h3
  · show 0 ≤ f.size - 1
    omega
  · simpa using e2

/-- Witness for C9: on `fqTwo` the slot at `rindex = 0` holds `frA`. -/
theorem frame_queue_next_keep_last_witness :
    frame_queue_next fqTwo = { fqTwo with rindex_shown := 1 }
      ∧ (frame_queue_next fqTwo).slot (frame_queue_peek_last (frame_queue_next fqTwo))
          = some frA
      ∧ (frame_queue_next (frame_queue_next fqTwo)).slot 0
          = some { frA with frame := .blank }
      ∧ (frame_queue_next (frame_queue_next fqTwo)).rindex = 1
      ∧ (frame_queue_next (frame_queue_next fqTwo)).size = 1 := by
  have h := frame_queue_next_keep_last fqTwo frA (by decide) (by decide) (by decide)
    (by decide)
  exact ⟨h.1, h.2.2.2.2.2.2.1, by decide, by decide, by decide⟩

/-- C10, counterexample: `fqTwo` is reached from `frame_queue_init` by
producing `frA` and `frB`; it has `keep_last = 1`, `rindex_shown = 0`,
`size = 2`, and `frame_queue_peek` returns the slot holding `frA`.  After one
`frame_queue_next`, `frame_queue_peek` returns another slot, which holds
`frB`, not `frA`. -/
theorem frame_queue_peek_after_next_counterexample :
    runFQ { f := fqInit, granted := false }
        [.peek_writable qStarted, .fill frA, .push, .peek_writable qStarted, .fill frB, .push]
        = some { f := fqTwo, granted := false }
      ∧ fqTwo.keep_last = 1 ∧ fqTwo.rindex_shown = 0 ∧ 1 ≤ fqTwo.size
      ∧ fqTwo.slot (frame_queue_peek fqTwo) = some frA
      ∧ (frame_queue_next fqTwo).slot (frame_queue_peek (frame_queue_next fqTwo)) = some frB
      ∧ frame_queue_peek fqTwo = 0
      ∧ frame_queue_peek (frame_queue_next fqTwo) = 1
      ∧ frB ≠ frA
      ∧ ¬ (∀ (f : FrameQueue) (F : Frame), f.keep_last ≠ 0 → f.rindex_shown = 0 →
            1 ≤ f.size → f.slot (frame_queue_peek f) = some F →
            (frame_queue_next f).slot (frame_queue_peek (frame_queue_next f)) = some F) := by
  refine ⟨by decide, by decide, by decide, by decide, by decide, by decide, by decide,
    by decide, by decide, ?_⟩
  intro h
  have h1 := h fqTwo frA (by decide) (by decide) (by decide) (by decide)
  revert h1
  decide

/-- C10, amended: with `keep_last` set, `rindex_shown = 0`, `size >= 1` and
`rindex` inside `0 .. max_size - 1`, if `F` is the frame `frame_queue_peek`
returns, then after one `frame_queue_next` it is `frame_queue_peek_last` that
still returns `F`, at the slot the earlier `frame_queue_peek` returned, and
`frame_queue_nb_remaining` is not negative; `frame_queue_peek` now returns the
slot `(rindex + 1) % max_size`, a different slot as soon as `max_size >= 2`. -/
theorem frame_queue_peek_last_after_next (f : FrameQueue) (F : Frame)
    (hk : f.keep_last ≠ 0) (hs : f.rindex_shown = 0) (hsz : 1 ≤ f.size)
    (hr0 : 0 ≤ f.rindex) (hr1 : f.rindex < f.max_size)
    (hF : f.slot (frame_queue_peek f) = some F) :
    (frame_queue_next f).slot (frame_queue_peek_last (frame_queue_next f)) = some F
      ∧ frame_queue_peek_last (frame_queue_next f) = frame_queue_peek f
      ∧ 0 ≤ frame_queue_nb_remaining (frame_queue_next f)
      ∧ frame_queue_peek (frame_queue_next f) = (f.rindex + 1).tmod f.max_size
      ∧ (2 ≤ f.max_size → frame_queue_peek (frame_queue_next f) ≠ frame_queue_peek f) := by
  have h1 : frame_queue_next f = { f with rindex_shown := 1 } := by
    simp [frame_queue_next, hk, hs]
  have hp : frame_queue_peek f = f.rindex := by
    simp [frame_queue_peek, hs, Int.tmod_eq_of_lt hr0 hr1]
  rw [hp] at hF
  rw [h1, hp]
  refine ⟨by simpa [FrameQueue.slot, frame_queue_peek_last] using hF, rfl, ?_, rfl, ?_⟩
  · show 0 ≤ f.size - 1
    omega
  · intro h2
    show (f.rindex + 1).tmod f.max_size ≠ f.rindex
    by_cases hlt : f.rindex + 1 < f.max_size
    · rw [Int.tmod_eq_of_lt (by omega) hlt]
      omega
    · have he : f.rindex + 1 = f.max_size := by omega
      rw [he, Int.tmod_self]
      omega

/-- Witness for C10 (amended): on `fqTwo`, whose `frame_queue_peek` returns
the slot of `frA`. -/
theorem frame_queue_peek_last_after_next_witness :
    (frame_queue_next fqTwo).slot (frame_queue_peek_last (frame_queue_next fqTwo)) = some frA
      ∧ frame_queue_peek_last (frame_queue_next fqTwo) = frame_queue_peek fqTwo
      ∧ frame_queue_peek (frame_queue_next fqTwo) = (fqTwo.rindex + 1).tmod fqTwo.max_size := by
  have h := frame_queue_peek_last_after_next fqTwo frA (by decide) (by decide) (by decide)
    (by decide) (by decide) (by decide)
  exact ⟨h.1, h.2.1, h.2.2.2.1⟩

/-- C11: `frame_queue_peek_writable` as a step on explicit state.  It does not
return (the call sleeps) exactly when `size >= max_size` and the bound packet
queue is not aborted; it returns NULL whenever the bound packet queue is
aborted; otherwise it returns the slot at `windex`.  In every case the step
leaves the frame queue, hence `rindex`, `windex`, `size` and `rindex_shown`,
as it was. -/
theorem frame_queue_peek_writable_spec (f : FrameQueue) (pktq : PacketQueue) :
    (frame_queue_peek_writable f pktq = none
        ↔ (f.size ≥ f.max_size ∧ pktq.abort_request = 0))
      ∧ (pktq.abort_request ≠ 0 → frame_queue_peek_writable f pktq = some none)
      ∧ (pktq.abort_request = 0 → f.size < f.max_size →
          frame_queue_peek_writable f pktq = some (some f.windex))
      ∧ (∀ granted : Bool, ∃ s1,
          FQOp.step { f := f, granted := granted } (.peek_writable pktq) = some s1
            ∧ s1.f = f
            ∧ s1.f.rindex = f.rindex ∧ s1.f.windex = f.windex
            ∧ s1.f.size = f.size ∧ s1.f.rindex_shown = f.rindex_shown
            ∧ (s1.granted = true ↔ (pktq.abort_request = 0 ∧ f.size < f.max_size))) := by
  by_cases ha : pktq.abort_request = 0
  · by_cases hfull : f.size ≥ f.max_size
    · have hnlt : ¬ f.size < f.max_size := not_lt.mpr hfull
      refine ⟨?_, ?_, ?_, ?_⟩
      · simp [frame_queue_peek_writable, ha, hfull]
      · intro h; exact absurd ha h
      · intro _ h; exact absurd h hnlt
      · intro granted
        refine ⟨{ f := f, granted := false }, ?_, rfl, rfl, rfl, rfl, rfl, ?_⟩
        · simp [FQOp.step, frame_queue_peek_writable, ha, hfull]
        · simp [hnlt]
    · have hlt : f.size < f.max_size := not_le.mp hfull
      refine ⟨?_, ?_, ?_, ?_⟩
      · simp [frame_queue_peek_writable, ha, hfull]
      · intro h; exact absurd ha h
      · intro _ _
        simp [frame_queue_peek_writable, ha, hfull]
      · intro granted
        refine ⟨{ f := f, granted := true }, ?_, rfl, rfl, rfl, rfl, rfl, ?_⟩
        · simp [FQOp.step, frame_queue_peek_writable, ha, hfull]
        · simp [ha, hlt]
  · refine ⟨?_, ?_, ?_, ?_⟩
    · simp [frame_queue_peek_writable, ha]
    · intro _
      simp [frame_queue_peek_writable, ha]
    · intro h; exact absurd h ha
    · intro granted
      refine ⟨{ f := f, granted := false }, ?_, rfl, rfl, rfl, rfl, rfl, ?_⟩
      · simp [FQOp.step, frame_queue_peek_writable, ha]
      · simp [ha]

/-! ## Clocks and the synchroniser: claims -/

/-- C12: `get_clock` with the wall time `t` as an input returns NaN whenever
the bound queue serial differs from the clock's serial; otherwise the stored
`pts` if the clock is paused; otherwise
`pts_drift + t - (t - last_updated) * (1 - speed)`, which for numeric members
`d`, `l`, `s` is the number `d + t - (t - l) * (1 - s)`. -/
theorem get_clock_spec (c : Clock) (queue_serial : Int) (t : ℚ) :
    (queue_serial ≠ c.serial →
        get_clock c queue_serial t = none ∧ isnan (get_clock c queue_serial t) = true)
      ∧ (queue_serial = c.serial → c.paused ≠ 0 → get_clock c queue_serial t = c.pts)
      ∧ (queue_serial = c.serial → c.paused = 0 →
          get_clock c queue_serial t
            = dsub (dadd c.pts_drift (some t))
                (dmul (dsub (some t) c.last_updated) (dsub (some 1) c.speed)))
      ∧ (∀ d l s : ℚ, queue_serial = c.serial → c.paused = 0 →
          c.pts_drift = some d → c.last_updated = some l → c.speed = some s →
          get_clock c queue_serial t = some (d + t - (t - l) * (1 - s))) := by
  refine ⟨?_, ?_, ?_, ?_⟩
  · intro h
    simp [get_clock, h, isnan]
  · intro h hp
    simp [get_clock, h, hp]
  · intro h hp
    simp [get_clock, h, hp]
  · intro d l s h hp hd hl hs
    simp [get_clock, h, hp, hd, hl, hs, dsub, dadd, dmul]

/-- C13: if the clock reads the number `v` at wall time `t`, then after
`set_clock_speed(c, s)` performed at that same time it still reads `v` at time
`t`, its speed is `s`, and its serial and paused flag are unchanged. -/
theorem set_clock_speed_no_jump (c : Clock) (queue_serial : Int) (s t v : ℚ)
    (hv : get_clock c queue_serial t = some v) :
    get_clock (set_clock_speed c queue_serial (some s) t t) queue_serial t = some v
      ∧ (set_clock_speed c queue_serial (some s) t t).speed = some s
      ∧ (set_clock_speed c queue_serial (some s) t t).serial = c.serial
      ∧ (set_clock_speed c queue_serial (some s) t t).paused = c.paused := by
  have hqs : queue_serial = c.serial := by
    by_contra hne
    simp [get_clock, hne] at hv
  refine ⟨?_, rfl, rfl, rfl⟩
  simp only [set_clock_speed, set_clock, set_clock_at, hv]
  by_cases hp : c.paused = 0
  · simp [get_clock, hqs, hp, dsub, dadd, dmul]
  · simp [get_clock, hqs, hp]

/-- Witness for C13: the running clock `clkRun` reads 8 at time 103, and still
does after its speed is set to 1/2 at that time. -/
theorem set_clock_speed_no_jump_witness :
    get_clock clkRun 1 103 = some 8
      ∧ get_clock (set_clock_speed clkRun 1 (some (1 / 2)) 103 103) 1 103 = some 8
      ∧ (set_clock_speed clkRun 1 (some (1 / 2)) 103 103).speed = some (1 / 2) := by
  have h0 : get_clock clkRun 1 103 = some 8 := by
    norm_num [get_clock, clkRun, dsub, dadd, dmul]
  have h := set_clock_speed_no_jump clkRun 1 (1 / 2) 103 8 h0
  exact ⟨h0, h.1, h.2.1⟩

/-- C14, counterexample: the paused clocks `clkTenThree` and `clkThreeTenths`
read the doubles nearest to 10.3 and 0.3.  Their difference is larger than 10,
but the double difference the program computes is exactly 10, which is not
`> 10.0`: `sync_clock_to_slave` leaves the clock unchanged, where the claim
has it re-anchored to the slave. -/
theorem sync_clock_to_slave_rounding_counterexample :
    get_clock clkTenThree 1 103 double_round = some (double_round (103 / 10))
      ∧ get_clock clkThreeTenths 1 103 double_round = some (double_round (3 / 10))
      ∧ 10 < |double_round (103 / 10) - double_round (3 / 10)|
      ∧ double_round (double_round (103 / 10) - double_round (3 / 10)) = 10
      ∧ sync_clock_to_slave clkTenThree clkThreeTenths 1 1 103 103 103 double_round
          = clkTenThree
      ∧ sync_clock_to_slave clkTenThree clkThreeTenths 1 1 103 103 103 double_round
          ≠ set_clock clkTenThree (some (double_round (3 / 10))) clkThreeTenths.serial 103
              double_round := by
  refine ⟨by decide!, by decide!, by decide!, by decide!, by decide!, by decide!⟩

/-- C14, amended: with every operation rounded by `rnd` (the binary64 rounding
in the program, the identity in exact arithmetic), `sync_clock_to_slave(c,
slave)` sets `c` to the slave's reading and the slave's serial when the
slave's reading is a number and either the reading of `c` is NaN or the
computed difference of the two readings, that is their difference rounded by
`rnd`, is larger than 10.0 in absolute value (`AV_NOSYNC_THRESHOLD`); in every
other case (slave reading NaN, or both readings numbers whose computed
difference is at most 10.0 in absolute value) it returns `c` unchanged.  In
exact arithmetic the clock set this way reads the slave's value at the time of
the update once its bound serial is the slave's. -/
theorem sync_clock_to_slave_spec (c slave : Clock) (qs slave_qs : Int) (t1 t2 t3 : ℚ)
    (rnd : ℚ → ℚ) :
    (∀ sv : ℚ, get_clock slave slave_qs t2 rnd = some sv →
        (get_clock c qs t1 rnd = none
          ∨ ∃ cv : ℚ, get_clock c qs t1 rnd = some cv ∧ 10 < |rnd (cv - sv)|) →
        sync_clock_to_slave c slave qs slave_qs t1 t2 t3 rnd
            = set_clock c (some sv) slave.serial t3 rnd
          ∧ (sync_clock_to_slave c slave qs slave_qs t1 t2 t3 rnd).pts = some sv
          ∧ (sync_clock_to_slave c slave qs slave_qs t1 t2 t3 rnd).serial = slave.serial)
      ∧ (get_clock slave slave_qs t2 rnd = none →
          sync_clock_to_slave c slave qs slave_qs t1 t2 t3 rnd = c)
      ∧ (∀ sv cv : ℚ, get_clock slave slave_qs t2 rnd = some sv →
          get_clock c qs t1 rnd = some cv → |rnd (cv - sv)| ≤ 10 →
          sync_clock_to_slave c slave qs slave_qs t1 t2 t3 rnd = c)
      ∧ (∀ sv : ℚ, c.speed.isSome = true →
          get_clock (set_clock c (some sv) slave.serial t3) slave.serial t3 = some sv) := by
  refine ⟨?_, ?_, ?_, ?_⟩
  · intro sv hs hc
    have hsync : sync_clock_to_slave c slave qs slave_qs t1 t2 t3 rnd
        = set_clock c (some sv) slave.serial t3 rnd := by
      rcases hc with hc | ⟨cv, hc, hfar⟩
      · simp [sync_clock_to_slave, hs, hc, isnan]
      · simp [sync_clock_to_slave, hs, hc, isnan, dgt, dlt, fabs, dsub, AV_NOSYNC_THRESHOLD,
          hfar]
    rw [hsync]
    exact ⟨rfl, rfl, rfl⟩
  · intro hs
    simp [sync_clock_to_slave, hs, isnan]
  · intro sv cv hs hc hnear
    have hn : ¬ 10 < |rnd (cv - sv)| := not_lt.mpr hnear
    simp [sync_clock_to_slave, hs, hc, isnan, dgt, dlt, fabs, dsub, AV_NOSYNC_THRESHOLD, hn]
  · intro sv hsp
    obtain ⟨sp, hsp⟩ := Option.isSome_iff_exists.mp hsp
    by_cases hp : c.paused = 0
    · simp [get_clock, set_clock, set_clock_at, hp, hsp, dsub, dadd, dmul]
    · simp [get_clock, set_clock, set_clock_at, hp]

/-- Witness for C14 (amended): in double arithmetic the clock `clkTenThree`
follows the slave `clkZero`, whose reading 0 is more than 10 away. -/
theorem sync_clock_to_slave_spec_witness :
    get_clock clkZero 1 103 double_round = some 0
      ∧ get_clock clkTenThree 1 103 double_round = some (double_round (103 / 10))
      ∧ 10 < |double_round (double_round (103 / 10) - 0)|
      ∧ sync_clock_to_slave clkTenThree clkZero 1 1 103 103 103 double_round
          = set_clock clkTenThree (some 0) clkZero.serial 103 double_round :=
  ⟨by decide!, by decide!, by decide!,
    ((sync_clock_to_slave_spec clkTenThree clkZero 1 1 103 103 103 double_round).1 0
      (by decide!) (Or.inr ⟨double_round (103 / 10), by decide!, by decide!⟩)).1⟩

/-- C15, counterexample: with video as the configured mode and no video stream
(and no audio stream either, and audio not the configured mode),
`get_master_sync_type` returns `AV_SYNC_AUDIO_MASTER`, not the external clock
the claimed selection gives, and `get_master_clock` reads the audio clock. -/
theorem get_master_sync_type_counterexample :
    isNoVideo.av_sync_type = AV_SYNC_VIDEO_MASTER
      ∧ isNoVideo.video_st = false ∧ isNoVideo.audio_st = false
      ∧ isNoVideo.av_sync_type ≠ AV_SYNC_AUDIO_MASTER
      ∧ get_master_sync_type isNoVideo = AV_SYNC_AUDIO_MASTER
      ∧ claimed_master_sync_type isNoVideo = AV_SYNC_EXTERNAL_CLOCK
      ∧ get_master_sync_type isNoVideo ≠ claimed_master_sync_type isNoVideo
      ∧ (∀ t : ℚ, get_master_clock isNoVideo t
          = get_clock isNoVideo.audclk isNoVideo.audioq.serial t)
      ∧ ¬ (∀ is : VideoState, get_master_sync_type is = claimed_master_sync_type is) := by
  refine ⟨by decide, by decide, by decide, by decide, by decide, by decide, by decide, ?_, ?_⟩
  · intro t
    have h : get_master_sync_type isNoVideo = AV_SYNC_AUDIO_MASTER := by decide
    simp [get_master_clock, h, AV_SYNC_AUDIO_MASTER, AV_SYNC_VIDEO_MASTER]
  · intro h
    have h1 := h isNoVideo
    revert h1
    decide

/-- C15, amended: `get_master_sync_type` selects video if video is the
configured mode and a video stream exists; audio if video is the configured
mode and no video stream exists (whether or not an audio stream exists) or if
audio is the configured mode and an audio stream exists; otherwise external.
`get_master_clock` reads the clock so selected. -/
theorem get_master_sync_type_spec (is : VideoState) (t : ℚ) :
    get_master_sync_type is
        = (if is.av_sync_type = AV_SYNC_VIDEO_MASTER ∧ is.video_st = true then
             AV_SYNC_VIDEO_MASTER
           else if (is.av_sync_type = AV_SYNC_VIDEO_MASTER ∧ is.video_st = false)
               ∨ (is.av_sync_type = AV_SYNC_AUDIO_MASTER ∧ is.audio_st = true) then
             AV_SYNC_AUDIO_MASTER
           else AV_SYNC_EXTERNAL_CLOCK)
      ∧ get_master_clock is t
        = (if is.av_sync_type = AV_SYNC_VIDEO_MASTER ∧ is.video_st = true then
             get_clock is.vidclk is.videoq.serial t
           else if (is.av_sync_type = AV_SYNC_VIDEO_MASTER ∧ is.video_st = false)
               ∨ (is.av_sync_type = AV_SYNC_AUDIO_MASTER ∧ is.audio_st = true) then
             get_clock is.audclk is.audioq.serial t
           else get_clock is.extclk is.extclk.serial t) := by
  have hva : AV_SYNC_VIDEO_MASTER ≠ AV_SYNC_AUDIO_MASTER := by decide
  have hev : AV_SYNC_EXTERNAL_CLOCK ≠ AV_SYNC_VIDEO_MASTER := by decide
  have hea : AV_SYNC_EXTERNAL_CLOCK ≠ AV_SYNC_AUDIO_MASTER := by decide
  have hav : AV_SYNC_AUDIO_MASTER ≠ AV_SYNC_VIDEO_MASTER := by decide
  by_cases hv : is.av_sync_type = AV_SYNC_VIDEO_MASTER
  · cases hvs : is.video_st <;>
      simp [get_master_clock, get_master_sync_type, hv, hvs, hva, hav]
  · by_cases ha : is.av_sync_type = AV_SYNC_AUDIO_MASTER
    · cases has : is.audio_st <;>
        simp [get_master_clock, get_master_sync_type, hv, ha, has, hva, hav, hev, hea]
    · simp [get_master_clock, get_master_sync_type, hv, ha, hev, hea]

/-- C16: when video is not the master and `diff`, the video clock minus the
master clock, is a number `d` with `|d| < max_frame_duration`, then for a
numeric `delay` and `threshold = max(0.04, min(0.1, delay))` the value of
`compute_target_delay(delay)` is `max(0, delay + d)` if `d <= -threshold`;
`delay + d` if `d >= threshold` and `delay > 0.1`; `2 * delay` if
`d >= threshold` and `delay <= 0.1`; and `delay` otherwise.  In particular
`d = -0.2` and `delay = 0.04` give 0. -/
theorem compute_target_delay_spec (is : VideoState) (delay d m t1 t2 : ℚ)
    (hms : get_master_sync_type is ≠ AV_SYNC_VIDEO_MASTER)
    (hd : dsub (get_clock is.vidclk is.videoq.serial t1) (get_master_clock is t2) = some d)
    (hm : is.max_frame_duration = some m) (hlt : |d| < m) :
    compute_target_delay (some delay) is t1 t2
        = some (if d ≤ -(max (1 / 25) (min (1 / 10) delay)) then max 0 (delay + d)
                else if max (1 / 25) (min (1 / 10) delay) ≤ d ∧ 1 / 10 < delay then delay + d
                else if max (1 / 25) (min (1 / 10) delay) ≤ d ∧ delay ≤ 1 / 10 then 2 * delay
                else delay)
      ∧ (d = -1 / 5 → delay = 1 / 25 → compute_target_delay (some delay) is t1 t2 = some 0) := by
  have hthr : FFMAX AV_SYNC_THRESHOLD_MIN (FFMIN AV_SYNC_THRESHOLD_MAX (some delay))
      = some (max (1 / 25) (min (1 / 10) delay)) := by
    simp only [AV_SYNC_THRESHOLD_MIN, AV_SYNC_THRESHOLD_MAX, FFMIN_some, FFMAX_some]
  have hmain : compute_target_delay (some delay) is t1 t2
      = some (if d ≤ -(max (1 / 25) (min (1 / 10) delay)) then max 0 (delay + d)
              else if max (1 / 25) (min (1 / 10) delay) ≤ d ∧ 1 / 10 < delay then delay + d
              else if max (1 / 25) (min (1 / 10) delay) ≤ d ∧ delay ≤ 1 / 10 then 2 * delay
              else delay) := by
    simp only [compute_target_delay, hms, ne_eq, not_false_eq_true, if_true, hd, hthr, hm]
    have hcond : (!isnan (some d) && dlt (fabs (some d)) (some m)) = true := by
      simp [isnan, dlt, fabs, hlt]
    simp only [hcond, if_true]
    by_cases h1 : d ≤ -(max (1 / 25) (min (1 / 10) delay))
    · have : dle (some d) (dneg (some (max (1 / 25) (min (1 / 10) delay)))) = true := by
        simp only [dle, dneg, decide_eq_true_eq]
        exact h1
      simp only [this, if_true, h1, dadd, id_eq, FFMAX_some]
    · have hn1 : dle (some d) (dneg (some (max (1 / 25) (min (1 / 10) delay)))) = false := by
        simp only [dle, dneg, decide_eq_false_iff_not]
        exact h1
      simp only [hn1, Bool.false_eq_true, if_false, h1]
      by_cases h2 : max (1 / 25) (min (1 / 10) delay) ≤ d
      · have hge : dge (some d) (some (max (1 / 25) (min (1 / 10) delay))) = true := by
          simp only [dge, dle, decide_eq_true_eq]
          exact h2
        by_cases h3 : 1 / 10 < delay
        · have hgt : dgt (some delay) AV_SYNC_FRAMEDUP_THRESHOLD = true := by
            simp only [dgt, dlt, AV_SYNC_FRAMEDUP_THRESHOLD, decide_eq_true_eq]
            exact h3
          simp only [hge, hgt, Bool.and_self, if_true, h2, h3, and_self, dadd, id_eq]
        · have hgt : dgt (some delay) AV_SYNC_FRAMEDUP_THRESHOLD = false := by
            simp only [dgt, dlt, AV_SYNC_FRAMEDUP_THRESHOLD, decide_eq_false_iff_not]
            exact h3
          have h4 : delay ≤ 1 / 10 := not_lt.mp h3
          simp only [hge, hgt, Bool.and_false, Bool.false_eq_true, if_false, if_true, h2, h3,
            h4, and_false, and_self, dmul, id_eq]
      · have hge : dge (some d) (some (max (1 / 25) (min (1 / 10) delay))) = false := by
          simp only [dge, dle, decide_eq_false_iff_not]
          exact h2
        simp only [hge, Bool.false_and, Bool.false_eq_true, if_false, h2, false_and]
  refine ⟨hmain, ?_⟩
  intro hd5 hdel
  rw [hmain, hd5, hdel]
  norm_num

/-- Witness for C16: on `isExt` the video clock reads 0 and the external
master clock 1/5, so `diff = -0.2`; with `delay = 0.04` the target delay
is 0. -/
theorem compute_target_delay_spec_witness :
    get_master_sync_type isExt = AV_SYNC_EXTERNAL_CLOCK
      ∧ dsub (get_clock isExt.vidclk isExt.videoq.serial 103) (get_master_clock isExt 103)
          = some (-1 / 5)
      ∧ compute_target_delay (some (1 / 25)) isExt 103 103 = some 0 := by
  have hms : get_master_sync_type isExt = AV_SYNC_EXTERNAL_CLOCK := by decide
  have hv : get_clock isExt.vidclk isExt.videoq.serial 103 = some 0 := rfl
  have hmc : get_master_clock isExt 103 = some (1 / 5) := rfl
  have hd : dsub (get_clock isExt.vidclk isExt.videoq.serial 103) (get_master_clock isExt 103)
      = some (-1 / 5) := by
    rw [hv, hmc]
    norm_num [dsub]
  have h := compute_target_delay_spec isExt (1 / 25) (-1 / 5) 10 103 103
    (by rw [hms]; decide) hd rfl (by norm_num [abs_lt])
  exact ⟨hms, hd, h.2 rfl rfl⟩

/-- C18, counterexample: the frames `frEarly` and `frLate` have equal serials
and pts the doubles nearest to 0.3 and 10.3, and `max_frame_duration` is 10.
The difference of the two pts is larger than 10, so the claim gives `frEarly`'s
declared duration; the double difference the program computes is exactly 10,
which is not `> 10`, and `vp_duration` returns 10. -/
theorem vp_duration_rounding_counterexample :
    frEarly.serial = frLate.serial
      ∧ isExt.max_frame_duration = some 10
      ∧ frEarly.pts = some (double_round (3 / 10))
      ∧ frLate.pts = some (double_round (103 / 10))
      ∧ 10 < double_round (103 / 10) - double_round (3 / 10)
      ∧ vp_duration isExt frEarly frLate double_round = some 10
      ∧ vp_duration isExt frEarly frLate double_round ≠ frEarly.duration := by
  refine ⟨by decide!, by decide!, by decide!, by decide!, by decide!, by decide!, by decide!⟩

/-- C18, amended: with every operation rounded by `rnd` (the binary64 rounding
in the program, the identity in exact arithmetic), `vp_duration(vp, nextvp)`
for two frames of equal serial computes the difference `nextvp.pts - vp.pts`,
that is the difference of two numeric pts rounded by `rnd`, and returns it
when it is a number `d` with `0 < d` that is not `> max_frame_duration`; it
returns `vp.duration` when the computed difference is NaN, `<= 0` or
`> max_frame_duration`.  For frames of different serials it returns 0. -/
theorem vp_duration_spec (is : VideoState) (vp nextvp : Frame) (rnd : ℚ → ℚ) :
    (∀ a b : ℚ, vp.pts = some a → nextvp.pts = some b →
        dsub nextvp.pts vp.pts rnd = some (rnd (b - a)))
      ∧ (vp.serial = nextvp.serial → ∀ d : ℚ, dsub nextvp.pts vp.pts rnd = some d → 0 < d →
          dgt (some d) is.max_frame_duration = false →
          vp_duration is vp nextvp rnd = some d)
      ∧ (vp.serial = nextvp.serial → dsub nextvp.pts vp.pts rnd = none →
          vp_duration is vp nextvp rnd = vp.duration)
      ∧ (vp.serial = nextvp.serial → ∀ d : ℚ, dsub nextvp.pts vp.pts rnd = some d →
          (d ≤ 0 ∨ dgt (some d) is.max_frame_duration = true) →
          vp_duration is vp nextvp rnd = vp.duration)
      ∧ (∀ d m : ℚ, is.max_frame_duration = some m →
          (dgt (some d) is.max_frame_duration = true ↔ m < d))
      ∧ (vp.serial ≠ nextvp.serial → vp_duration is vp nextvp rnd = some 0) := by
  refine ⟨?_, ?_, ?_, ?_, ?_, ?_⟩
  · intro a b ha hb
    rw [ha, hb]
    rfl
  · intro hs d hd hpos hle
    have h1 : ¬ d ≤ 0 := not_le.mpr hpos
    simp [vp_duration, hs, hd, isnan, dle, h1, hle]
  · intro hs hd
    simp [vp_duration, hs, hd, isnan]
  · intro hs d hd hbad
    rcases hbad with h | h
    · simp [vp_duration, hs, hd, isnan, dle, h]
    · simp [vp_duration, hs, hd, isnan, dle, h]
  · intro d m hm
    rw [hm]
    simp [dgt, dlt]
  · intro hs
    simp [vp_duration, hs]

/-- Witness for C18 (amended): in double arithmetic `frA` (pts 0) and `frB`
(pts 1) have equal serials, and with `max_frame_duration = 10` the duration
is 1. -/
theorem vp_duration_spec_witness :
    isExt.max_frame_duration = some 10
      ∧ frA.serial = frB.serial
      ∧ dsub frB.pts frA.pts double_round = some 1
      ∧ vp_duration isExt frA frB double_round = some 1 :=
  ⟨by decide!, by decide!, by decide!,
    (vp_duration_spec isExt frA frB double_round).2.1 (by decide!) 1 (by decide!)
      (by decide!) (by decide!)⟩

/-- C19, counterexample: on `isRound` the audio clock is ahead of the master by
`diff`, the double nearest to 1/960, and the sample rate is 48000.  The
product `diff * sample_rate` is slightly below 50, so
`nb_samples + trunc(diff * sample_rate)` is 1073 for 1024 samples; the double
product the program computes is exactly 50, and `synchronize_audio` returns
1074. -/
theorem synchronize_audio_rounding_counterexample :
    get_master_sync_type isRound ≠ AV_SYNC_AUDIO_MASTER
      ∧ audio_master_diff isRound 103 103 double_round = some (double_round (1 / 960))
      ∧ isRound.audio_src_freq = 48000
      ∧ double_round (1 / 960) * 48000 < 50
      ∧ double_to_int (some (double_round (1 / 960) * 48000)) = 49
      ∧ av_clip (1024 + double_to_int (some (double_round (1 / 960) * 48000)))
            ((1024 * 90 : Int).tdiv 100) ((1024 * 110 : Int).tdiv 100) = 1073
      ∧ dmul (audio_master_diff isRound 103 103 double_round)
            (int_to_double isRound.audio_src_freq) double_round = some 50
      ∧ (synchronize_audio isRound 1024 103 103 double_round).1 = 1074 := by
  have hfloor : ⌊double_round (1 / 960) * 48000⌋ = 49 := by
    rw [Int.floor_eq_iff]
    constructor
    · have h : ((49 : Int) : ℚ) ≤ double_round (1 / 960) * 48000 := by decide!
      exact h
    · have h : double_round (1 / 960) * 48000 < ((49 : Int) : ℚ) + 1 := by decide!
      exact h
  have hpos : (0 : ℚ) ≤ double_round (1 / 960) * 48000 := by decide!
  have h49 : double_to_int (some (double_round (1 / 960) * 48000)) = 49 := by
    simp only [double_to_int, hpos, if_true, hfloor]
  have hdiff : audio_master_diff isRound 103 103 double_round
      = some (double_round (1 / 960)) := by decide!
  have hprod : dmul (audio_master_diff isRound 103 103 double_round)
      (int_to_double isRound.audio_src_freq) double_round = some 50 := by
    rw [hdiff]
    decide!
  have hthr : dge (fabs (dmul
        (dadd (some (double_round (1 / 960)))
          (dmul isRound.audio_diff_avg_coef isRound.audio_diff_cum double_round) double_round)
        (dsub (some 1) isRound.audio_diff_avg_coef double_round) double_round))
      isRound.audio_diff_threshold = true := by decide!
  have hnear : (!isnan (some (double_round (1 / 960)))
      && dlt (fabs (some (double_round (1 / 960)))) AV_NOSYNC_THRESHOLD) = true := by decide!
  have hms : get_master_sync_type isRound ≠ AV_SYNC_AUDIO_MASTER := by decide
  have hcnt : ¬ isRound.audio_diff_avg_count < AUDIO_DIFF_AVG_NB := by decide
  have hfreq : dmul (some (double_round (1 / 960))) (int_to_double isRound.audio_src_freq)
      double_round = some 50 := by
    rw [← hdiff]
    exact hprod
  have hret : (synchronize_audio isRound 1024 103 103 double_round).1 = 1074 := by
    unfold synchronize_audio
    rw [if_pos hms]
    simp only [hdiff, hnear, if_true, hcnt, if_false, hthr, hfreq]
    decide
  refine ⟨hms, hdiff, by decide, by decide!, h49, ?_, hprod, hret⟩
  rw [h49]
  decide

/-- C19, amended: with every operation rounded by `rnd` (the binary64 rounding
in the program, the identity in exact arithmetic) and `nb_samples >= 0`, the
value `r` returned by `synchronize_audio` satisfies
`nb_samples*90/100 <= r <= nb_samples*110/100` (integer division).  It is
`nb_samples` or the clipped corrected count; when a correction is applied
(audio not the master, `|diff| < 10`, the 20 measurements counted, the
averaged difference at least the threshold) it is `nb_samples + trunc(p)`
clipped to that range, where `p` is the computed product
`diff * sample_rate`, that is the product rounded by `rnd`. -/
theorem synchronize_audio_bounds (is : VideoState) (nb : Int) (t1 t2 : ℚ) (rnd : ℚ → ℚ)
    (hnb : 0 ≤ nb) :
    (nb * 90).tdiv 100 ≤ (synchronize_audio is nb t1 t2 rnd).1
      ∧ (synchronize_audio is nb t1 t2 rnd).1 ≤ (nb * 110).tdiv 100
      ∧ ((synchronize_audio is nb t1 t2 rnd).1 = nb
          ∨ (synchronize_audio is nb t1 t2 rnd).1
              = av_clip
                  (nb + double_to_int
                    (dmul (audio_master_diff is t1 t2 rnd) (int_to_double is.audio_src_freq)
                      rnd))
                  ((nb * 90).tdiv 100) ((nb * 110).tdiv 100))
      ∧ (∀ d : ℚ, get_master_sync_type is ≠ AV_SYNC_AUDIO_MASTER →
          audio_master_diff is t1 t2 rnd = some d → |d| < 10 →
          ¬ is.audio_diff_avg_count < AUDIO_DIFF_AVG_NB →
          dge (fabs (dmul
                  (dadd (some d) (dmul is.audio_diff_avg_coef is.audio_diff_cum rnd) rnd)
                  (dsub (some 1) is.audio_diff_avg_coef rnd) rnd))
              is.audio_diff_threshold = true →
          (synchronize_audio is nb t1 t2 rnd).1
            = av_clip (nb + double_to_int (some (rnd (d * (is.audio_src_freq : ℚ)))))
                ((nb * 90).tdiv 100) ((nb * 110).tdiv 100)) := by
  obtain ⟨hlo, hhi⟩ := nb_samples_bounds nb hnb
  have hclip := av_clip_bounds
    (nb + double_to_int
      (dmul (audio_master_diff is t1 t2 rnd) (int_to_double is.audio_src_freq) rnd))
    ((nb * 90).tdiv 100) ((nb * 110).tdiv 100) (le_trans hlo hhi)
  have hret := synchronize_audio_ret is nb t1 t2 rnd
  refine ⟨?_, ?_, hret, ?_⟩
  · rcases hret with h | h <;> rw [h]
    · exact hlo
    · exact hclip.1
  · rcases hret with h | h <;> rw [h]
    · exact hhi
    · exact hclip.2
  · intro d hm hd hlt hcnt hthr
    have hcond : (!isnan (some d) && dlt (fabs (some d)) AV_NOSYNC_THRESHOLD) = true := by
      simp [isnan, dlt, fabs, AV_NOSYNC_THRESHOLD, hlt]
    unfold synchronize_audio
    simp only [hm, ne_eq, not_false_eq_true, if_true, hd, hcond, hcnt, if_false, hthr,
      SAMPLE_CORRECTION_PERCENT_MAX]
    have hmul : dmul (some d) (int_to_double is.audio_src_freq) rnd
        = some (rnd (d * (is.audio_src_freq : ℚ))) := rfl
    rw [hmul]
    norm_num

/-- Witness for C19 (amended): 1024 samples on `isRound` in double arithmetic;
the computed product `diff * sample_rate` is 50 and the call returns 1074. -/
theorem synchronize_audio_bounds_witness :
    (0 : Int) ≤ 1024
      ∧ (1024 * 90 : Int).tdiv 100 ≤ (synchronize_audio isRound 1024 103 103 double_round).1
      ∧ (synchronize_audio isRound 1024 103 103 double_round).1 ≤ (1024 * 110 : Int).tdiv 100
      ∧ dmul (audio_master_diff isRound 103 103 double_round)
            (int_to_double isRound.audio_src_freq) double_round = some 50
      ∧ (synchronize_audio isRound 1024 103 103 double_round).1
          = av_clip (1024 + double_to_int (some (50 : ℚ)))
              ((1024 * 90 : Int).tdiv 100) ((1024 * 110 : Int).tdiv 100)
      ∧ av_clip (1024 + double_to_int (some (50 : ℚ)))
            ((1024 * 90 : Int).tdiv 100) ((1024 * 110 : Int).tdiv 100) = 1074 := by
  have h := synchronize_audio_bounds isRound 1024 103 103 double_round (by decide)
  have hdiff : audio_master_diff isRound 103 103 double_round
      = some (double_round (1 / 960)) := by decide!
  have hprod : double_round (double_round (1 / 960) * ((isRound.audio_src_freq : Int) : ℚ))
      = 50 := by decide!
  have hx := h.2.2.2 (double_round (1 / 960)) (by decide) hdiff (by decide!) (by decide)
    (by decide!)
  rw [hprod] at hx
  have h50 : double_to_int (some (50 : ℚ)) = 50 := by
    simp only [double_to_int]
    norm_num
  refine ⟨by decide, h.1, h.2.1, ?_, hx, ?_⟩
  · rw [hdiff]
    decide!
  · rw [h50]
    decide

/-- C29, counterexample: after a start and two puts of a `2 ^ 30`-byte packet
(16-byte entries) two entries are queued, the sum of packet size plus entry
size over them is 2147483680, and `size` is -2147483616. -/
theorem packet_queue_size_counterexample :
    qBig = run 16 (packet_queue_init true true true).2
              [.start, .put pktBig true 0, .put pktBig true 0]
      ∧ qBig.nb_packets = 2
      ∧ qBig.pkt_list.length = 2
      ∧ (qBig.pkt_list.map (fun e => e.pkt.size + 16)).sum = 2147483680
      ∧ qBig.size = -2147483616
      ∧ qBig.size ≠ (qBig.pkt_list.map (fun e => e.pkt.size + 16)).sum := by
  refine ⟨by decide, by decide, by decide, by decide, by decide, by decide⟩

/-- C29, amended: in every PacketQueue state reached from `packet_queue_init` by
put, get, flush, abort and start, `nb_packets` is the number of queued
entries and `duration` is the sum of the queued packets' durations; `size` is
the sum over the queued entries of packet size plus entry size converted to
`int`: it lies in the range of `int`, differs from the sum by a multiple of
`2 ^ 32`, and equals the sum whenever the sum fits an `int`. -/
theorem packet_queue_counters (esz : Int) (fifo_ok mutex_ok cond_ok : Bool)
    (ops : List PQOp) :
    (run esz (packet_queue_init fifo_ok mutex_ok cond_ok).2 ops).nb_packets
        = (run esz (packet_queue_init fifo_ok mutex_ok cond_ok).2 ops).pkt_list.length
      ∧ (run esz (packet_queue_init fifo_ok mutex_ok cond_ok).2 ops).size
          = int_of_size_t
              ((run esz (packet_queue_init fifo_ok mutex_ok cond_ok).2 ops).pkt_list.map
                (fun e => e.pkt.size + esz)).sum
      ∧ -2 ^ 31 ≤ (run esz (packet_queue_init fifo_ok mutex_ok cond_ok).2 ops).size
      ∧ (run esz (packet_queue_init fifo_ok mutex_ok cond_ok).2 ops).size < 2 ^ 31
      ∧ ((run esz (packet_queue_init fifo_ok mutex_ok cond_ok).2 ops).size
            - ((run esz (packet_queue_init fifo_ok mutex_ok cond_ok).2 ops).pkt_list.map
                (fun e => e.pkt.size + esz)).sum) % 2 ^ 32 = 0
      ∧ (-2 ^ 31 ≤ ((run esz (packet_queue_init fifo_ok mutex_ok cond_ok).2 ops).pkt_list.map
                      (fun e => e.pkt.size + esz)).sum →
          ((run esz (packet_queue_init fifo_ok mutex_ok cond_ok).2 ops).pkt_list.map
              (fun e => e.pkt.size + esz)).sum < 2 ^ 31 →
          (run esz (packet_queue_init fifo_ok mutex_ok cond_ok).2 ops).size
            = ((run esz (packet_queue_init fifo_ok mutex_ok cond_ok).2 ops).pkt_list.map
                (fun e => e.pkt.size + esz)).sum)
      ∧ (run esz (packet_queue_init fifo_ok mutex_ok cond_ok).2 ops).duration
          = ((run esz (packet_queue_init fifo_ok mutex_ok cond_ok).2 ops).pkt_list.map
              (fun e => e.pkt.duration)).sum := by
  have h0 : Consistent esz (packet_queue_init fifo_ok mutex_ok cond_ok).2 := by
    cases fifo_ok <;> cases mutex_ok <;> cases cond_ok <;>
      simp [packet_queue_init, PacketQueue.zero, Consistent, int_of_size_t_zero]
  obtain ⟨c1, c2, c3⟩ := run_consistent esz ops _ h0
  refine ⟨c1, c2, ?_, ?_, ?_, ?_, c3⟩
  · rw [c2]
    exact (int_of_size_t_range _).1
  · rw [c2]
    exact (int_of_size_t_range _).2
  · rw [c2]
    exact int_of_size_t_congr _
  · intro h1 h2
    rw [c2]
    exact int_of_size_t_id _ h1 h2

/-- C30: `compute_mod(-4, 4)` is 4, which is not below `b = 4`: for a negative
multiple of `b` the function returns `b` itself.  In general, for `b > 0` the
result is congruent to `a` modulo `b` and lies in `0 .. b`, and it equals `b`
exactly when `a` is a negative multiple of `b`. -/
theorem compute_mod_at_negative_multiple :
    compute_mod (-4) 4 = 4
      ∧ ¬ (compute_mod (-4) 4 < 4)
      ∧ compute_mod (-524288) 524288 = 524288
      ∧ (∀ a b : Int, 0 < b →
          0 ≤ compute_mod a b ∧ compute_mod a b ≤ b
            ∧ (compute_mod a b - a) % b = 0
            ∧ (compute_mod a b = b ↔ (a < 0 ∧ a % b = 0))
            ∧ (¬ (a < 0 ∧ a % b = 0) → compute_mod a b < b)) := by
  refine ⟨by decide, by decide, by decide, ?_⟩
  intro a b hb
  by_cases ha : a < 0
  · have hneg : a.tmod b = -((-a).tmod b) := by
      rw [Int.tmod_def, Int.tmod_def, Int.neg_tdiv]
      ring
    have hn1 : 0 ≤ (-a).tmod b := Int.tmod_nonneg b (by omega)
    have hn2 : (-a).tmod b < b := Int.tmod_lt_of_pos (-a) hb
    have h1 : -b < a.tmod b := by omega
    have h2 : a.tmod b ≤ 0 := by omega
    have h3 : a.tmod b = a - b * (a.tdiv b) := by
      have := Int.tmod_add_tdiv a b
      omega
    have h4 : (a.tmod b + b - a) % b = 0 := by
      rw [h3]
      have : a - b * a.tdiv b + b - a = b * (1 - a.tdiv b) := by ring
      rw [this]
      exact Int.mul_emod_right b _
    have h5 : a.tmod b = 0 ↔ a % b = 0 := by
      constructor
      · intro h
        have hd : b ∣ a := Int.dvd_of_tmod_eq_zero h
        exact Int.emod_eq_zero_of_dvd hd
      · intro h
        have hd : b ∣ a := Int.dvd_of_emod_eq_zero h
        exact Int.tmod_eq_zero_of_dvd hd
    have hcm : compute_mod a b = a.tmod b + b := by
      simp only [compute_mod, ha, if_true]
    rw [hcm]
    refine ⟨by omega, by omega, h4, ?_, ?_⟩
    · constructor
      · intro h
        exact ⟨ha, h5.mp (by omega)⟩
      · intro h
        have := h5.mpr h.2
        omega
    · intro h
      have : a.tmod b ≠ 0 := fun h0 => h ⟨ha, h5.mp h0⟩
      omega
  · have ha0 : 0 ≤ a := not_lt.mp ha
    have h1 : a.tmod b = a % b := Int.tmod_eq_emod ha0 (le_of_lt hb)
    have h2 : 0 ≤ a % b := Int.emod_nonneg a (ne_of_gt hb)
    have h3 : a % b < b := Int.emod_lt_of_pos a hb
    have hcm : compute_mod a b = a % b := by
      simp only [compute_mod, ha, if_false, h1]
    rw [hcm]
    refine ⟨h2, le_of_lt h3, ?_, ?_, ?_⟩
    · have : a % b - a = b * (-(a / b)) := by
        have := Int.emod_add_ediv a b
        linarith
      rw [this]
      exact Int.mul_emod_right b _
    · constructor
      · intro h; omega
      · intro h; exact absurd h.1 ha
    · intro _; exact h3

/-- C25: for a non-zero expected-packet interval `y` the fraction-lost byte of
`createRtcpRR` is the low 8 bits of `x << (8 / y)`, `x` being the lost-packet
interval; for `x = 1`, `y = 16` this is 1, whereas the low 8 bits of
`(x << 8) / y` are 16. -/
theorem createRtcpRR_fraction_spec (x y : Nat) (hy : y ≠ 0) :
    createRtcpRR_fraction x y = (x <<< (8 / y)) % 256
      ∧ createRtcpRR_fraction 1 16 = 1
      ∧ ((1 <<< 8) / 16) % 256 = 16
      ∧ createRtcpRR_fraction 1 16 ≠ ((1 <<< 8) / 16) % 256 := by
  refine ⟨?_, by decide, by decide, by decide⟩
  simp only [createRtcpRR_fraction, hy, ne_eq, not_false_eq_true, if_true]
  have h : (2 : Nat) ^ 8 ∣ 2 ^ 64 := Nat.pow_dvd_pow 2 (by decide)
  rw [Nat.mod_mod_of_dvd _ h]
  norm_num

/-- Witness for C25: lost interval 1, expected interval 16. -/
theorem createRtcpRR_fraction_spec_witness :
    (16 : Nat) ≠ 0
      ∧ createRtcpRR_fraction 1 16 = (1 <<< (8 / 16)) % 256
      ∧ createRtcpRR_fraction 1 16 = 1 :=
  ⟨by decide, (createRtcpRR_fraction_spec 1 16 (by decide)).1,
    (createRtcpRR_fraction_spec 1 16 (by decide)).2.1⟩

/-- C26, counterexample: the state right after `frame_queue_init` is reached
by no call at all.  When `SDL_CreateMutex` fails, `frame_queue_init` returns
`AVERROR(ENOMEM)` and leaves `rindex = 0` and `max_size = 0`; a successful
`frame_queue_init` with capacity argument 0 leaves the same.  In both states
`rindex < max_size` and `windex < max_size` are false. -/
theorem frame_queue_index_counterexample :
    (frame_queue_init false true (fun _ => true) 3 1).1 = AVERROR_ENOMEM
      ∧ runCalls true (frame_queue_init false true (fun _ => true) 3 1).2 []
          = some (frame_queue_init false true (fun _ => true) 3 1).2
      ∧ (frame_queue_init false true (fun _ => true) 3 1).2.rindex = 0
      ∧ (frame_queue_init false true (fun _ => true) 3 1).2.windex = 0
      ∧ (frame_queue_init false true (fun _ => true) 3 1).2.max_size = 0
      ∧ ¬ ((frame_queue_init false true (fun _ => true) 3 1).2.rindex
            < (frame_queue_init false true (fun _ => true) 3 1).2.max_size)
      ∧ ¬ ((frame_queue_init false true (fun _ => true) 3 1).2.windex
            < (frame_queue_init false true (fun _ => true) 3 1).2.max_size)
      ∧ (frame_queue_init true true (fun _ => true) 0 1).1 = 0
      ∧ (frame_queue_init true true (fun _ => true) 0 1).2.max_size = 0
      ∧ ¬ ((frame_queue_init true true (fun _ => true) 0 1).2.rindex
            < (frame_queue_init true true (fun _ => true) 0 1).2.max_size) := by
  refine ⟨by decide, by decide, by decide, by decide, by decide, by decide, by decide,
    by decide, by decide, by decide⟩

/-- C26, amended: in every state reached from a successful `frame_queue_init`
(it returned 0) with a capacity
argument of at least 1 by `frame_queue_push` (only when `size < max_size`) and
`frame_queue_next` (only when `frame_queue_nb_remaining > 0`), the indices
satisfy `0 <= rindex < max_size`, `0 <= windex < max_size` and
`windex == (rindex + size) % max_size`; hence, when a slot can be handed out
for writing (`size < max_size`), `windex` differs from every slot
`(rindex + k) % max_size`, `0 <= k < size`, that is still readable or kept. -/
theorem frame_queue_index_invariant (mutex_ok cond_ok : Bool) (alloc_ok : Nat → Bool)
    (max_size keep_last : Int) (calls : List FQCall) (f : FrameQueue)
    (hmax : 1 ≤ max_size)
    (hinit : (frame_queue_init mutex_ok cond_ok alloc_ok max_size keep_last).1 = 0)
    (hrun : runCalls true (frame_queue_init mutex_ok cond_ok alloc_ok max_size keep_last).2
              calls = some f) :
    0 ≤ f.rindex ∧ f.rindex < f.max_size
      ∧ 0 ≤ f.windex ∧ f.windex < f.max_size
      ∧ f.windex = (f.rindex + f.size).tmod f.max_size
      ∧ (∀ k : Int, 0 ≤ k → k < f.size → f.size < f.max_size →
          (f.rindex + k).tmod f.max_size ≠ f.windex) := by
  have h16 : (1 : Int) ≤ FRAME_QUEUE_SIZE := by decide
  obtain ⟨i1, i2, i3, i4, -⟩ := init_fields mutex_ok cond_ok alloc_ok max_size keep_last
  have i5 := init_success_max_size mutex_ok cond_ok alloc_ok max_size keep_last hinit
  have h0 : FQIdx (frame_queue_init mutex_ok cond_ok alloc_ok max_size keep_last).2 := by
    have : (1 : Int) ≤ min max_size FRAME_QUEUE_SIZE := le_min hmax h16
    simp only [FQIdx, i1, i2, i3, i4, i5]
    omega
  obtain ⟨h1, h2, h3, h4, h5, h6, h7, h8⟩ := runCalls_FQIdx calls _ f h0 hrun
  have hw : f.windex = (f.rindex + f.size).tmod f.max_size := by
    rw [tmod_of_lt_two_mul (f.rindex + f.size) f.max_size (by omega) (by omega)]
    split_ifs <;> omega
  refine ⟨h1, h2, h3, h4, hw, ?_⟩
  intro k hk0 hk1 hfree
  rw [tmod_of_lt_two_mul (f.rindex + k) f.max_size (by omega) (by omega)]
  split_ifs <;> omega

/-- Witness for C26: two pushes and two nexts on the capacity-3 queue. -/
theorem frame_queue_index_invariant_witness :
    (frame_queue_init true true (fun _ => true) 3 1).1 = 0
      ∧ runCalls true (frame_queue_init true true (fun _ => true) 3 1).2
          [.push, .push, .next, .next] = some fqIdxEnd
      ∧ fqIdxEnd.rindex = 1 ∧ fqIdxEnd.windex = 2 ∧ fqIdxEnd.size = 1 ∧ fqIdxEnd.max_size = 3
      ∧ fqIdxEnd.windex = (fqIdxEnd.rindex + fqIdxEnd.size).tmod fqIdxEnd.max_size := by
  have h := frame_queue_index_invariant true true (fun _ => true) 3 1
    [.push, .push, .next, .next] fqIdxEnd (by decide) (by decide) (by decide)
  exact ⟨by decide, by decide, by decide, by decide, by decide, by decide, h.2.2.2.2.1⟩

/-- C27: in every state reached from `frame_queue_init` by calls in which
`frame_queue_next` runs only when `frame_queue_nb_remaining > 0` (with
`frame_queue_push` guarded or not), `rindex_shown` is 0 or 1 and at most
`size`, so `frame_queue_nb_remaining` is not negative.  Without the guard it
can be negative: `frame_queue_next` on the empty `keep_last` queue `fqInit`
gives `frame_queue_nb_remaining = -1`. -/
theorem frame_queue_shown_invariant (mutex_ok cond_ok : Bool) (alloc_ok : Nat → Bool)
    (max_size keep_last : Int) (push_guard : Bool) (calls : List FQCall) (f : FrameQueue)
    (hrun : runCalls push_guard
              (frame_queue_init mutex_ok cond_ok alloc_ok max_size keep_last).2 calls = some f) :
    (f.rindex_shown = 0 ∨ f.rindex_shown = 1)
      ∧ f.rindex_shown ≤ f.size
      ∧ 0 ≤ frame_queue_nb_remaining f
      ∧ fqInit.keep_last = 1 ∧ fqInit.size = 0
      ∧ frame_queue_nb_remaining (frame_queue_next fqInit) = -1 := by
  obtain ⟨i1, i2, -⟩ := init_fields mutex_ok cond_ok alloc_ok max_size keep_last
  have h0 : FQShown (frame_queue_init mutex_ok cond_ok alloc_ok max_size keep_last).2 := by
    exact ⟨Or.inl i2, by rw [i1, i2]⟩
  obtain ⟨h1, h2⟩ := runCalls_FQShown push_guard calls _ f h0 hrun
  refine ⟨h1, h2, ?_, by decide, by decide, by decide⟩
  simp only [frame_queue_nb_remaining]
  omega

/-- Witness for C27: two pushes and two nexts on the capacity-3 queue, with
`frame_queue_push` not guarded. -/
theorem frame_queue_shown_invariant_witness :
    runCalls false (frame_queue_init true true (fun _ => true) 3 1).2
        [.push, .push, .next, .next] = some fqIdxEnd
      ∧ fqIdxEnd.rindex_shown = 1
      ∧ fqIdxEnd.rindex_shown ≤ fqIdxEnd.size
      ∧ 0 ≤ frame_queue_nb_remaining fqIdxEnd := by
  have h := frame_queue_shown_invariant true true (fun _ => true) 3 1 false
    [.push, .push, .next, .next] fqIdxEnd (by decide)
  exact ⟨by decide, by decide, h.2.1, h.2.2.1⟩

/-- C28: for every numeric input `delay >= 0`, every state of the clocks and
every `max_frame_duration` (NaN included), `compute_target_delay` returns a
number that is `>= 0`; hence the frame-timer update of `video_refresh`, which
adds that delay (and may then jump forward to the current time), never moves a
numeric `frame_timer` backwards. -/
theorem compute_target_delay_nonneg (is : VideoState) (delay t1 t2 : ℚ) (h : 0 ≤ delay) :
    (∃ r : ℚ, compute_target_delay (some delay) is t1 t2 = some r ∧ 0 ≤ r)
      ∧ (∀ ft time : ℚ, ∃ ft1 : ℚ,
          frame_timer_advance (some ft) (compute_target_delay (some delay) is t1 t2) time
              = some ft1
            ∧ ft ≤ ft1) := by
  have hthr : FFMAX AV_SYNC_THRESHOLD_MIN (FFMIN AV_SYNC_THRESHOLD_MAX (some delay))
      = some (max (1 / 25) (min (1 / 10) delay)) := by
    simp only [AV_SYNC_THRESHOLD_MIN, AV_SYNC_THRESHOLD_MAX, FFMIN_some, FFMAX_some]
  have hpos : (0 : ℚ) < max (1 / 25) (min (1 / 10) delay) :=
    lt_of_lt_of_le (by norm_num) (le_max_left _ _)
  have hmain : ∃ r : ℚ, compute_target_delay (some delay) is t1 t2 = some r ∧ 0 ≤ r := by
    unfold compute_target_delay
    by_cases hm : get_master_sync_type is ≠ AV_SYNC_VIDEO_MASTER
    · rw [if_pos hm]
      simp only [hthr]
      cases hd : dsub (get_clock is.vidclk is.videoq.serial t1) (get_master_clock is t2) with
      | none => exact ⟨delay, by simp [isnan], h⟩
      | some d =>
        by_cases hc : (!isnan (some d) && dlt (fabs (some d)) is.max_frame_duration) = true
        · simp only [hc, if_true]
          by_cases c1 : dle (some d) (dneg (some (max (1 / 25) (min (1 / 10) delay)))) = true
          · simp only [c1, if_true, dadd, id_eq, FFMAX_some]
            exact ⟨_, rfl, le_max_left _ _⟩
          · simp only [c1, if_false]
            by_cases c2 : dge (some d) (some (max (1 / 25) (min (1 / 10) delay))) = true
            · have hge : max (1 / 25) (min (1 / 10) delay) ≤ d := by
                simpa [dge, dle] using c2
              by_cases c3 : dgt (some delay) AV_SYNC_FRAMEDUP_THRESHOLD = true
              · simp only [c2, c3, Bool.and_self, if_true, dadd, id_eq]
                exact ⟨_, rfl, by linarith⟩
              · simp only [c2, c3, Bool.and_false, Bool.false_eq_true, if_false, if_true,
                  dmul, id_eq]
                exact ⟨_, rfl, by linarith⟩
            · simp only [c2, Bool.false_and, Bool.false_eq_true, if_false]
              exact ⟨delay, rfl, h⟩
        · simp only [hc, if_false]
          exact ⟨delay, rfl, h⟩
    · rw [if_neg hm]
      exact ⟨delay, rfl, h⟩
  refine ⟨hmain, ?_⟩
  intro ft time
  obtain ⟨r, hr, hr0⟩ := hmain
  rw [hr]
  simp only [frame_timer_advance, dadd, dsub, dgt, dlt, AV_SYNC_THRESHOLD_MAX, id_eq]
  by_cases hj : (decide (0 < r) && decide (1 / 10 < time - (ft + r))) = true
  · simp only [hj, if_true]
    refine ⟨time, rfl, ?_⟩
    have h2 : 1 / 10 < time - (ft + r) := by
      simp only [Bool.and_eq_true, decide_eq_true_eq] at hj
      exact hj.2
    linarith
  · simp only [hj, if_false]
    exact ⟨ft + r, rfl, by linarith⟩

/-- Witness for C28: on `isExt` (video 0.2 behind the external master) the
delay 0.04 becomes 0, which is not negative. -/
theorem compute_target_delay_nonneg_witness :
    (0 : ℚ) ≤ 1 / 25
      ∧ ∃ r : ℚ, compute_target_delay (some (1 / 25)) isExt 103 103 = some r ∧ 0 ≤ r :=
  ⟨by norm_num, (compute_target_delay_nonneg isExt (1 / 25) 103 103 (by norm_num)).1⟩

/-! ## Video refresh: claims -/

/-- C24: in a pass of `video_refresh` that finds a frame ready whose serial
differs from the video packet queue's serial, the frame is discarded by
`frame_queue_next` and the selection is retried; nothing else changes, so no
delay is computed and `frame_timer`, the clocks, `frame_drops_late` and
`*remaining_time` are as before.  Whatever a pass does, it sets the video
clock only from the frame at the read position and only when that frame's
serial equals the queue's; so after the whole retry loop, which ends once the
remaining frames are used up, the video clock has the time it started with or
carries the live queue serial. -/
theorem video_refresh_stale_frame (framedrop : Int) (now : Nat → Nat → ℚ) (fuel k : Nat)
    (s : PlayState)
    (hready : frame_queue_nb_remaining s.pictq ≠ 0)
    (hstale : (s.pictq.frameAt (frame_queue_peek s.pictq)).serial ≠ s.is.videoq.serial) :
    video_refresh_pass framedrop (now k) s
        = (true, { s with pictq := frame_queue_next s.pictq })
      ∧ video_refresh_retry framedrop now (fuel + 1) k s
          = video_refresh_retry framedrop now fuel (k + 1)
              { s with pictq := frame_queue_next s.pictq }
      ∧ (video_refresh_pass framedrop (now k) s).2.frame_timer = s.frame_timer
      ∧ (video_refresh_pass framedrop (now k) s).2.is = s.is
      ∧ (video_refresh_pass framedrop (now k) s).2.frame_drops_late = s.frame_drops_late
      ∧ (video_refresh_pass framedrop (now k) s).2.remaining_time = s.remaining_time
      ∧ (∀ s0 : PlayState,
          Clock.sameTime s0.is.vidclk (video_refresh_pass framedrop (now k) s0).2.is.vidclk
            ∨ ((s0.pictq.frameAt (frame_queue_peek s0.pictq)).serial = s0.is.videoq.serial
                ∧ (video_refresh_pass framedrop (now k) s0).2.is.vidclk.serial
                    = (s0.pictq.frameAt (frame_queue_peek s0.pictq)).serial
                ∧ (video_refresh_pass framedrop (now k) s0).2.is.vidclk.pts
                    = (s0.pictq.frameAt (frame_queue_peek s0.pictq)).pts))
      ∧ (∀ s1 : PlayState, video_refresh_retry framedrop now (fuel + 1) k s = some s1 →
          s1.is.videoq = s.is.videoq
            ∧ (Clock.sameTime s.is.vidclk s1.is.vidclk
                ∨ s1.is.vidclk.serial = s.is.videoq.serial))
      ∧ (0 ≤ frame_queue_nb_remaining s.pictq →
          (frame_queue_nb_remaining s.pictq).toNat < fuel + 1 →
          ∃ s1, video_refresh_retry framedrop now (fuel + 1) k s = some s1) := by
  have hpass : video_refresh_pass framedrop (now k) s
      = (true, { s with pictq := frame_queue_next s.pictq }) := by
    unfold video_refresh_pass
    rw [if_neg hready]
    dsimp only
    rw [if_pos hstale]
  refine ⟨hpass, ?_, ?_, ?_, ?_, ?_, ?_, ?_, ?_⟩
  · simp only [video_refresh_retry, hpass, if_true]
  · rw [hpass]
  · rw [hpass]
  · rw [hpass]
  · rw [hpass]
  · intro s0
    exact (pass_fields framedrop (now k) s0).2.1
  · intro s1 h
    exact retry_fields framedrop now (fuel + 1) k s s1 h
  · intro h0 hlt
    exact retry_terminates framedrop now (fuel + 1) k s h0 hlt

/-- Witness for C24: on `psStale` the frame at the read position has serial 0
while the video queue is at serial 1; the pass discards it and retries. -/
theorem video_refresh_stale_frame_witness :
    frame_queue_nb_remaining psStale.pictq = 2
      ∧ (psStale.pictq.frameAt (frame_queue_peek psStale.pictq)).serial = 0
      ∧ psStale.is.videoq.serial = 1
      ∧ video_refresh_pass 1 (fun _ => 103) psStale
          = (true, { psStale with pictq := frame_queue_next psStale.pictq })
      ∧ ∃ s1, video_refresh_retry 1 (fun _ _ => 103) 3 0 psStale = some s1 := by
  have h := video_refresh_stale_frame 1 (fun _ _ => 103) 2 0 psStale (by decide) (by decide)
  exact ⟨by decide, by decide, by decide, h.1, h.2.2.2.2.2.2.2.2 (by decide) (by decide)⟩

/-! ## Decoder: claims -/

/-- C21, counterexample: in the seek scenario `dsSeek` the decoder's
`pkt_serial` is 3 and `packet_queue_get` returns `pktA` with serial 4.  The
fetch pass flushes the backend, adopts serial 4 and keeps `pktA`, and the send
step passes it to the backend: the call history is `flush_buffers` followed by
`send_packet`.  The packet is not discarded. -/
theorem decoder_new_serial_counterexample :
    dsSeek.d.pkt_serial = 3
      ∧ dsSeek.d.packet_pending = 0
      ∧ (packet_queue_get 16 dsSeek.q dsSeek.d.pkt 1 (some dsSeek.d.pkt_serial)).map
          (fun r => (r.ret, r.pkt, r.serial)) = some (1, pktA, some 4)
      ∧ decoder_fetch_pass envVideo dsSeek
          = DecOut.next (decoder_fetch_pass envVideo dsSeek).state
      ∧ (decoder_fetch_pass envVideo dsSeek).state.d.pkt = pktA
      ∧ (decoder_fetch_pass envVideo dsSeek).state.d.pkt_serial = 4
      ∧ (decoder_fetch_pass envVideo dsSeek).state.log = [BackendCall.flush_buffers]
      ∧ (decoder_send envVideo (decoder_fetch_pass envVideo dsSeek).state).state.log
          = [BackendCall.flush_buffers, BackendCall.send_packet pktASent] := by
  refine ⟨by decide, by decide, by decide, by decide, by decide, by decide, by decide,
    by decide⟩

/-- C21, amended: when `packet_queue_get` returns a packet whose serial differs
from the decoder's previous `pkt_serial`, the decoder flushes the backend,
clears `finished`, sets `next_pts` and `next_pts_tb` back to `start_pts` and
`start_pts_tb` and adopts the packet's serial.  The packet is discarded
without reaching the backend only if its serial also differs from the queue's
current serial.  If it equals the queue's serial the fetch loop ends with the
packet held, and the send step, after the flush, hands it to
`avcodec_decode_subtitle2` for a subtitle decoder and to `avcodec_send_packet`
otherwise, except that the function returns `AVERROR(ENOMEM)` with the packet
held and unsent when the packet needs a `FrameData` buffer and its allocation
fails. -/
theorem decoder_fetch_new_serial (env : DecEnv) (s : DecState) (e : MyAVPacketList)
    (rest : List MyAVPacketList) (hp : s.d.packet_pending = 0) (ha : s.q.abort_request = 0)
    (hq : s.q.pkt_list = e :: rest) (hne : e.serial ≠ s.d.pkt_serial) :
    ∃ s2 : DecState,
      s2.log = s.log ++ [BackendCall.flush_buffers]
        ∧ s2.d.finished = 0
        ∧ s2.d.next_pts = s.d.start_pts
        ∧ s2.d.next_pts_tb = s.d.start_pts_tb
        ∧ s2.d.pkt_serial = e.serial
        ∧ s2.d.pkt = e.pkt
        ∧ s2.q.pkt_list = rest
        ∧ s2.q.serial = s.q.serial
        ∧ (e.serial ≠ s.q.serial →
            decoder_fetch_pass env s
              = DecOut.again { s2 with d := { s2.d with pkt := av_packet_unref e.pkt } })
        ∧ (e.serial = s.q.serial →
            decoder_fetch_pass env s = DecOut.next s2
              ∧ (env.codec_type = AVMEDIA_TYPE_SUBTITLE →
                  ∃ s3 : DecState,
                    decoder_send env s2 = DecOut.next s3
                      ∧ s3.log = s.log ++ [BackendCall.flush_buffers,
                                           BackendCall.decode_subtitle2 e.pkt])
              ∧ (env.codec_type ≠ AVMEDIA_TYPE_SUBTITLE →
                  ¬ (e.pkt.buf = true ∧ e.pkt.opaque_ref = none
                      ∧ env.alloc_ok (s.log ++ [BackendCall.flush_buffers]) = false) →
                  ∃ s3 : DecState,
                    decoder_send env s2 = DecOut.next s3
                      ∧ s3.log = s.log ++ [BackendCall.flush_buffers,
                                           BackendCall.send_packet (decoder_attach_pos e.pkt)])
              ∧ (env.codec_type ≠ AVMEDIA_TYPE_SUBTITLE →
                  (e.pkt.buf = true ∧ e.pkt.opaque_ref = none
                      ∧ env.alloc_ok (s.log ++ [BackendCall.flush_buffers]) = false) →
                  decoder_send env s2 = DecOut.returned AVERROR_ENOMEM s2)) := by
  have hne2 : s.d.pkt_serial ≠ e.serial := fun h => hne h.symm
  have hpass := fetch_pass_get env s e rest hp ha hq
  rw [if_pos hne2] at hpass
  refine ⟨{ s with
              q := { s.q with
                       pkt_list := rest
                       nb_packets := s.q.nb_packets - 1
                       size := size_sub s.q.size e.pkt.size env.esz
                       duration := s.q.duration - e.pkt.duration }
              log := s.log ++ [BackendCall.flush_buffers]
              d := { s.d with
                       pkt := e.pkt
                       pkt_serial := e.serial
                       finished := 0
                       next_pts := s.d.start_pts
                       next_pts_tb := s.d.start_pts_tb } },
    rfl, rfl, rfl, rfl, rfl, rfl, rfl, rfl, ?_, ?_⟩
  · intro hs
    have hs2 : ¬ s.q.serial = e.serial := fun h => hs h.symm
    rw [hpass]
    simp only [decoder_fetch_check, hs2, if_false]
  · intro hs
    refine ⟨?_, ?_, ?_, ?_⟩
    · rw [hpass]
      simp only [decoder_fetch_check, hs, if_true]
    · intro hsub
      obtain ⟨s3, h1, h2, -, -⟩ := send_sub env _ hsub
      exact ⟨s3, h1, by rw [h2]; simp⟩
    · intro hav hal
      obtain ⟨s3, h1, h2, -, -, -, -⟩ :=
        send_av env
          { s with
              q := { s.q with
                       pkt_list := rest
                       nb_packets := s.q.nb_packets - 1
                       size := size_sub s.q.size e.pkt.size env.esz
                       duration := s.q.duration - e.pkt.duration }
              log := s.log ++ [BackendCall.flush_buffers]
              d := { s.d with
                       pkt := e.pkt
                       pkt_serial := e.serial
                       finished := 0
                       next_pts := s.d.start_pts
                       next_pts_tb := s.d.start_pts_tb } } hav hal
      exact ⟨s3, h1, by rw [h2]; simp⟩
    · intro hav hfail
      exact send_nomem env
        { s with
            q := { s.q with
                     pkt_list := rest
                     nb_packets := s.q.nb_packets - 1
                     size := size_sub s.q.size e.pkt.size env.esz
                     duration := s.q.duration - e.pkt.duration }
            log := s.log ++ [BackendCall.flush_buffers]
            d := { s.d with
                     pkt := e.pkt
                     pkt_serial := e.serial
                     finished := 0
                     next_pts := s.d.start_pts
                     next_pts_tb := s.d.start_pts_tb } } hav hfail

/-- Witness for C21 (amended): the seek scenario `dsSeek`, whose queue holds
`pktA` stamped 4 while the decoder is at serial 3. -/
theorem decoder_fetch_new_serial_witness :
    ∃ s2 : DecState,
      s2.log = dsSeek.log ++ [BackendCall.flush_buffers]
        ∧ s2.d.finished = 0
        ∧ s2.d.pkt_serial = 4
        ∧ s2.d.pkt = pktA
        ∧ decoder_fetch_pass envVideo dsSeek = DecOut.next s2 := by
  obtain ⟨s2, h1, h2, -, -, h5, h6, -, -, -, h10⟩ :=
    decoder_fetch_new_serial envVideo dsSeek { pkt := pktA, serial := 4 } []
      (by decide) (by decide) (by decide) (by decide)
  exact ⟨s2, h1, h2, h5, h6, (h10 (by decide)).1⟩

/-- C22, counterexample: the seek scenario with a video decoder whose
`av_buffer_allocz` fails.  The queue was at serial 3, was flushed and then got
`pktA`, and the decoder's `pkt_serial` is 3.  `decoder_decode_frame` flushes
the backend, adopts serial 4 and then returns `AVERROR(ENOMEM)`: the only call
on the backend is the flush, and the packet stamped 4 is held, not sent. -/
theorem decoder_seek_alloc_counterexample :
    qSerial3.serial = 3
      ∧ dsSeek.d.pkt_serial = 3
      ∧ dsSeek.q = seek_queue envNoMem.esz qSerial3 pktA 0
      ∧ dsSeek.q.pkt_list = [{ pkt := pktA, serial := 4 }]
      ∧ decoder_decode_frame envNoMem 2 dsSeek
          = DecOut.returned AVERROR_ENOMEM (decoder_decode_frame envNoMem 2 dsSeek).state
      ∧ (decoder_decode_frame envNoMem 2 dsSeek).state.log = [BackendCall.flush_buffers]
      ∧ (decoder_decode_frame envNoMem 2 dsSeek).state.d.pkt_serial = 4
      ∧ (decoder_decode_frame envNoMem 2 dsSeek).state.d.pkt = pktA := by
  refine ⟨by decide, by decide, by decide, by decide, by decide, by decide, by decide,
    by decide⟩

/-- C22, amended: the seek scenario.  The queue `q0` is at serial 3 and the
decoder's `pkt_serial` is 3.  After `packet_queue_flush` the serial is 4, and
the packet `p` put next is stamped 4.  The decoder's next `packet_queue_get`
returns `p` with serial 4; the fetch loop flushes the backend, sets
`pkt_serial` to 4 and keeps `p`.  The send step then hands `p` to the backend:
to `avcodec_decode_subtitle2` for a subtitle decoder, to `avcodec_send_packet`
(with its position attached) otherwise; only when `p` needs a `FrameData`
buffer whose allocation fails does it return `AVERROR(ENOMEM)` with `p` held
and unsent.  In a whole call of `decoder_decode_frame` the calls on the backend
accordingly start with the flush followed by the hand-over of `p`, or consist
of the flush alone when the function returns `AVERROR(ENOMEM)`. -/
theorem decoder_seek_scenario (env : DecEnv) (q0 : PacketQueue) (p : AVPacket) (wr : Int)
    (s0 : DecState) (fuel : Nat)
    (hq0 : q0.serial = 3) (habort : q0.abort_request = 0) (hwr : 0 ≤ wr)
    (hd : s0.d.pkt_serial = 3) (hq : s0.q = seek_queue env.esz q0 p wr) :
    (packet_queue_flush q0).serial = 4
      ∧ s0.q.pkt_list = [{ pkt := p, serial := 4 }]
      ∧ (packet_queue_get env.esz s0.q s0.d.pkt 1 (some s0.d.pkt_serial)).map
          (fun r => (r.ret, r.pkt, r.serial)) = some (1, p, some 4)
      ∧ (∃ s2 : DecState,
          decoder_fetch env (fuel + 2) s0 = DecOut.next s2
            ∧ s2.log = s0.log ++ [BackendCall.flush_buffers]
            ∧ s2.d.pkt_serial = 4
            ∧ s2.d.pkt = p
            ∧ (env.codec_type = AVMEDIA_TYPE_SUBTITLE →
                ∃ s3 : DecState,
                  decoder_send env s2 = DecOut.next s3
                    ∧ s3.d.pkt_serial = 4
                    ∧ s3.log = s0.log ++ [BackendCall.flush_buffers,
                                          BackendCall.decode_subtitle2 p])
            ∧ (env.codec_type ≠ AVMEDIA_TYPE_SUBTITLE →
                ¬ (p.buf = true ∧ p.opaque_ref = none
                    ∧ env.alloc_ok (s0.log ++ [BackendCall.flush_buffers]) = false) →
                ∃ s3 : DecState,
                  decoder_send env s2 = DecOut.next s3
                    ∧ s3.d.pkt_serial = 4
                    ∧ s3.log = s0.log ++ [BackendCall.flush_buffers,
                                          BackendCall.send_packet (decoder_attach_pos p)])
            ∧ (env.codec_type ≠ AVMEDIA_TYPE_SUBTITLE →
                (p.buf = true ∧ p.opaque_ref = none
                    ∧ env.alloc_ok (s0.log ++ [BackendCall.flush_buffers]) = false) →
                decoder_send env s2 = DecOut.returned AVERROR_ENOMEM s2))
      ∧ (env.codec_type = AVMEDIA_TYPE_SUBTITLE →
          ∃ more : List BackendCall,
            (decoder_decode_frame env (fuel + 2) s0).state.log
              = s0.log ++ [BackendCall.flush_buffers,
                           BackendCall.decode_subtitle2 p] ++ more)
      ∧ (env.codec_type ≠ AVMEDIA_TYPE_SUBTITLE →
          ¬ (p.buf = true ∧ p.opaque_ref = none
              ∧ env.alloc_ok (s0.log ++ [BackendCall.flush_buffers]) = false) →
          ∃ more : List BackendCall,
            (decoder_decode_frame env (fuel + 2) s0).state.log
              = s0.log ++ [BackendCall.flush_buffers,
                           BackendCall.send_packet (decoder_attach_pos p)] ++ more)
      ∧ (env.codec_type ≠ AVMEDIA_TYPE_SUBTITLE →
          (p.buf = true ∧ p.opaque_ref = none
              ∧ env.alloc_ok (s0.log ++ [BackendCall.flush_buffers]) = false) →
          ∃ s2 : DecState,
            decoder_decode_frame env (fuel + 2) s0 = DecOut.returned AVERROR_ENOMEM s2
              ∧ s2.log = s0.log ++ [BackendCall.flush_buffers]
              ∧ s2.d.pkt_serial = 4
              ∧ s2.d.pkt = p) := by
  obtain ⟨hl, hser, hab⟩ := seek_queue_fields env.esz q0 p wr habort hwr
  rw [← hq, hq0] at hl hser
  rw [← hq] at hab
  norm_num at hl hser
  have hne : s0.d.pkt_serial ≠ (MyAVPacketList.mk p 4).serial := by
    rw [hd]
    show (3 : Int) ≠ 4
    decide
  obtain ⟨s2, hf, hlog2, hser2, hpkt2, -⟩ :=
    loop_seek_round env fuel s0 { pkt := p, serial := 4 } [] hab hl hne hser
  obtain ⟨t2, -, htlog2, htser2, htpkt2, hloop⟩ :=
    loop_seek_round env fuel { s0 with ret := AVERROR_EAGAIN } { pkt := p, serial := 4 } []
      hab hl hne hser
  refine ⟨by simp [packet_queue_flush, hq0], hl, ?_, ?_, ?_, ?_, ?_⟩
  · simp [packet_queue_get, hab, hl]
  · refine ⟨s2, hf, hlog2, hser2, hpkt2, ?_, ?_, ?_⟩
    · intro hsub
      obtain ⟨s3, h1, h2, -, h4⟩ := send_sub env s2 hsub
      exact ⟨s3, h1, by rw [h4, hser2], by rw [h2, hlog2, hpkt2]; simp⟩
    · intro hav hal
      have hal2 : ¬ (s2.d.pkt.buf = true ∧ s2.d.pkt.opaque_ref = none
          ∧ env.alloc_ok s2.log = false) := by
        rw [hlog2, hpkt2]
        exact hal
      obtain ⟨s3, h1, h2, -, h4, -, -⟩ := send_av env s2 hav hal2
      exact ⟨s3, h1, by rw [h4, hser2], by rw [h2, hlog2, hpkt2]; simp⟩
    · intro hav hfail
      have hfail2 : s2.d.pkt.buf = true ∧ s2.d.pkt.opaque_ref = none
          ∧ env.alloc_ok s2.log = false := by
        rw [hlog2, hpkt2]
        exact hfail
      exact send_nomem env s2 hav hfail2
  · intro hsub
    obtain ⟨t3, h1, h2, -, -⟩ := send_sub env t2 hsub
    obtain ⟨more, hmore⟩ := loop_log env (fuel + 1) t3
    refine ⟨more, ?_⟩
    unfold decoder_decode_frame
    rw [hloop, h1]
    dsimp only
    rw [hmore, h2, htlog2, htpkt2]
    simp
  · intro hav hal
    have hal2 : ¬ (t2.d.pkt.buf = true ∧ t2.d.pkt.opaque_ref = none
        ∧ env.alloc_ok t2.log = false) := by
      rw [htlog2, htpkt2]
      exact hal
    obtain ⟨t3, h1, h2, -, -, -, -⟩ := send_av env t2 hav hal2
    obtain ⟨more, hmore⟩ := loop_log env (fuel + 1) t3
    refine ⟨more, ?_⟩
    unfold decoder_decode_frame
    rw [hloop, h1]
    dsimp only
    rw [hmore, h2, htlog2, htpkt2]
    simp
  · intro hav hfail
    have hfail2 : t2.d.pkt.buf = true ∧ t2.d.pkt.opaque_ref = none
        ∧ env.alloc_ok t2.log = false := by
      rw [htlog2, htpkt2]
      exact hfail
    refine ⟨t2, ?_, htlog2, htser2, htpkt2⟩
    unfold decoder_decode_frame
    rw [hloop, send_nomem env t2 hav hfail2]

/-- Witness for C22 (amended): the queue `qSerial3` at serial 3, the packet
`pktA` and the decoder state `dsSeek` at serial 3, with the accepting video
backend and with the subtitle decoder. -/
theorem decoder_seek_scenario_witness :
    qSerial3.serial = 3
      ∧ dsSeek.d.pkt_serial = 3
      ∧ dsSeek.q = seek_queue envVideo.esz qSerial3 pktA 0
      ∧ (packet_queue_get envVideo.esz dsSeek.q dsSeek.d.pkt 1 (some dsSeek.d.pkt_serial)).map
          (fun r => (r.ret, r.pkt, r.serial)) = some (1, pktA, some 4)
      ∧ (∃ more : List BackendCall,
          (decoder_decode_frame envVideo 2 dsSeek).state.log
            = dsSeek.log ++ [BackendCall.flush_buffers,
                             BackendCall.send_packet (decoder_attach_pos pktA)] ++ more)
      ∧ (∃ more : List BackendCall,
          (decoder_decode_frame envSub 2 dsSeek).state.log
            = dsSeek.log ++ [BackendCall.flush_buffers,
                             BackendCall.decode_subtitle2 pktA] ++ more) := by
  have h := decoder_seek_scenario envVideo qSerial3 pktA 0 dsSeek 0
    (by decide) (by decide) (by decide) (by decide) (by decide)
  have hs := decoder_seek_scenario envSub qSerial3 pktA 0 dsSeek 0
    (by decide) (by decide) (by decide) (by decide) (by decide)
  exact ⟨by decide, by decide, by decide, h.2.2.1, h.2.2.2.2.2.1 (by decide) (by decide),
    hs.2.2.2.2.1 (by decide)⟩

/-- C23: an audio or video decoder whose backend refuses the packet
(`avcodec_send_packet` returns `AVERROR(EAGAIN)`) sets `packet_pending` and
keeps the packet, and the queue is untouched.  The receive loop that follows
leaves the packet, the flag and the queue alone.  In any later state that holds
this packet with the flag set while the queue serial equals `pkt_serial`, the
fetch loop clears the flag and ends on its first pass with the queue and the
call history unchanged and the packet still held, and the send step offers the
same packet to the backend again. -/
theorem decoder_pending_retry (env : DecEnv) (s : DecState)
    (hav : env.codec_type ≠ AVMEDIA_TYPE_SUBTITLE)
    (halloc : ¬ (s.d.pkt.buf = true ∧ s.d.pkt.opaque_ref = none
                  ∧ env.alloc_ok s.log = false))
    (hbusy : (env.backend
        (s.log ++ [BackendCall.send_packet (decoder_attach_pos s.d.pkt)])).ret
          = AVERROR_EAGAIN) :
    ∃ s1 : DecState,
      decoder_send env s = DecOut.next s1
        ∧ s1.log = s.log ++ [BackendCall.send_packet (decoder_attach_pos s.d.pkt)]
        ∧ s1.d.packet_pending = 1
        ∧ s1.d.pkt = decoder_attach_pos s.d.pkt
        ∧ s1.q = s.q
        ∧ (∀ fuel : Nat,
            (decoder_receive env fuel s1).state.d.pkt = decoder_attach_pos s.d.pkt
              ∧ (decoder_receive env fuel s1).state.d.packet_pending = 1
              ∧ (decoder_receive env fuel s1).state.q = s.q)
        ∧ (∀ s2 : DecState, s2.d.pkt = s1.d.pkt → s2.d.packet_pending ≠ 0 →
            s2.q.serial = s2.d.pkt_serial → ∀ fuel : Nat,
              ∃ s3 s4 : DecState,
                decoder_fetch env (fuel + 1) s2 = DecOut.next s3
                  ∧ s3.q = s2.q
                  ∧ s3.log = s2.log
                  ∧ s3.d.pkt = decoder_attach_pos s.d.pkt
                  ∧ s3.d.packet_pending = 0
                  ∧ decoder_send env s3 = DecOut.next s4
                  ∧ s4.log = s2.log ++ [BackendCall.send_packet (decoder_attach_pos s.d.pkt)]
                  ∧ s4.q = s2.q) := by
  obtain ⟨s1, hsend, hlog, hq, -, hkeep, -⟩ := send_av env s hav halloc
  obtain ⟨hpkt, hpend⟩ := hkeep hbusy
  refine ⟨s1, hsend, hlog, hpend, hpkt, hq, ?_, ?_⟩
  · intro fuel
    obtain ⟨-, h1, h2, -, h4⟩ := receive_fields env fuel s1
    exact ⟨by rw [h1, hpkt], by rw [h2, hpend], by rw [h4, hq]⟩
  · intro s2 h2pkt h2pend h2ser fuel
    have hdone : ¬ (({ s2 with d := { s2.d with packet_pending := 0 } } : DecState).d.pkt.buf
          = true
        ∧ ({ s2 with d := { s2.d with packet_pending := 0 } } : DecState).d.pkt.opaque_ref
          = none
        ∧ env.alloc_ok ({ s2 with d := { s2.d with packet_pending := 0 } } : DecState).log
          = false) := by
      intro h
      have hd := attach_pos_done s.d.pkt
      rw [← hpkt, ← h2pkt] at hd
      exact hd ⟨h.1, h.2.1⟩
    obtain ⟨s4, h4send, h4log, h4q, -, -, -⟩ :=
      send_av env { s2 with d := { s2.d with packet_pending := 0 } } hav hdone
    refine ⟨{ s2 with d := { s2.d with packet_pending := 0 } }, s4,
      fetch_pending env fuel s2 h2pend h2ser, rfl, rfl, ?_, rfl, h4send, ?_, h4q⟩
    · show s2.d.pkt = decoder_attach_pos s.d.pkt
      rw [h2pkt, hpkt]
    · rw [h4log]
      show s2.log ++ [BackendCall.send_packet (decoder_attach_pos s2.d.pkt)] = _
      rw [h2pkt, hpkt, attach_pos_idem]

/-- Witness for C23: the decoder state `dsHeld`, which holds `pktA`, with the
backend that refuses every packet.  Run from `dsSeek` for three rounds, the
loop of `decoder_decode_frame` offers the same packet three times and the
queue stays empty. -/
theorem decoder_pending_retry_witness :
    (envBusy.backend
        (dsHeld.log ++ [BackendCall.send_packet (decoder_attach_pos dsHeld.d.pkt)])).ret
          = AVERROR_EAGAIN
      ∧ (∃ s1 : DecState,
          decoder_send envBusy dsHeld = DecOut.next s1
            ∧ s1.d.packet_pending = 1
            ∧ s1.d.pkt = decoder_attach_pos dsHeld.d.pkt
            ∧ s1.q = dsHeld.q)
      ∧ (decoder_decode_frame envBusy 3 dsSeek).state.log
          = [BackendCall.flush_buffers, BackendCall.send_packet pktASent,
             BackendCall.receive_frame, BackendCall.send_packet pktASent,
             BackendCall.receive_frame, BackendCall.send_packet pktASent]
      ∧ (decoder_decode_frame envBusy 3 dsSeek).state.q.pkt_list = [] := by
  obtain ⟨s1, h1, -, h3, h4, h5, -, -⟩ :=
    decoder_pending_retry envBusy dsHeld (by decide) (by decide) (by decide)
  exact ⟨by decide, ⟨s1, h1, h3, h4, h5⟩, by decide, by decide⟩

end FFplay
